import Mathlib

/-!
SkyPark API: authentication (`apps/api/internal/auth`, `apps/api/cmd/api`)

A shallow embedding of the verification-code store (`sms.go`), the token
manager (`jwt.go`), the middleware (`middleware.go`), the send and login
handlers (`handlers.go`) and the use of the request context in `main.go` of
the SkyPark API, and theorems about their operations.

Modelling conventions.

* `time.Time` is an integer count of nanoseconds (`Time`), `time.Duration`
  likewise (`Duration`). `t.After(u)` is `u < t`, `t.Before(u)` is `t < u`,
  `t.Add(d)` is `t + d`. Every call of `time.Now()` is an explicit argument
  of the operation that makes it.
* `map[string]*SMSCode` is a function `String → Option SMSCode`. Every
  pointer stored in the map is allocated by `SendVerificationCode` for that
  one entry, so the field update `smsCode.Attempts++` through the pointer is
  an update of the entry.
* The counter `Attempts` and the limits are Go `int`s, taken with the 64
  bits they have on a 64-bit platform: `GoInt`, the integers from `-2^63`
  to `2^63 - 1`, with sums and differences taken modulo `2^64`.
* `error` values made by `fmt.Errorf` are represented by their message.
* `crypto/rand` is a stream of draws (`RandReader`).
* A call that can panic returns an `Option`, `none` being the panic.
* Calls run one at a time in all sections but the one on calls that
  overlap, where a call is a sequence of atomic statements on a shared
  store and a schedule tells whose statement runs next.
* The libraries `regexp`, `golang-jwt/jwt/v5` (with `crypto/hmac` and the
  hash functions below it), `gin` and `gorm` are dependencies; the parts of
  them the code calls are described next to the code that calls them.
-/

namespace SkyPark

/-! ## Time -/

/-- Instants of `time.Time`, in nanoseconds. -/
abbrev Time := Int

/-- Values of `time.Duration`, in nanoseconds. -/
abbrev Duration := Int

/-- Go `t.After(u)`: `t` is strictly later than `u`. -/
def Time.After (t u : Time) : Bool := decide (u < t)

/-- Go `t.Before(u)`: `t` is strictly earlier than `u`. -/
def Time.Before (t u : Time) : Bool := decide (t < u)

/-- Go `t.Add(d)`. -/
def Time.Add (t : Time) (d : Duration) : Time := t + d

/-- Go `time.Minute`, in nanoseconds. -/
def Minute : Duration := 60 * 1000000000

/-! ## Machine integers -/

/-- The value a 64-bit signed integer holds after an operation whose exact
result is `x`: the representative of `x` modulo `2^64` between `-2^63` and
`2^63 - 1`. -/
def wrapInt (x : Int) : Int :=
  (x + 9223372036854775808) % 18446744073709551616 - 9223372036854775808

/-- Go `int` on a 64-bit platform: an integer between `math.MinInt64` and
`math.MaxInt64`. -/
structure GoInt where
  toInt : Int
  lo : -9223372036854775808 ≤ toInt
  hi : toInt ≤ 9223372036854775807

/-- The `int` an exact result is stored as. -/
def GoInt.ofInt (x : Int) : GoInt :=
  ⟨wrapInt x, by unfold wrapInt; omega, by unfold wrapInt; omega⟩

/-- Go `==` on `int`: two `int`s are equal when their values are. -/
instance : DecidableEq GoInt := fun a b =>
  decidable_of_iff (a.toInt = b.toInt)
    ⟨fun h => by cases a; cases b; simp only at h; subst h; rfl, fun h => by rw [h]⟩

/-- Go `<`, `<=` on `int`: the order of the values. -/
instance : LinearOrder GoInt :=
  LinearOrder.lift' GoInt.toInt
    (fun a b h => by cases a; cases b; simp only at h; subst h; rfl)

instance (n : Nat) : OfNat GoInt n := ⟨GoInt.ofInt n⟩

/-- Go `+` on `int`: the sum wraps around. -/
instance : Add GoInt := ⟨fun a b => GoInt.ofInt (a.toInt + b.toInt)⟩

/-- Go `-` on `int`: the difference wraps around. -/
instance : Sub GoInt := ⟨fun a b => GoInt.ofInt (a.toInt - b.toInt)⟩

instance : Repr GoInt := ⟨fun a n => reprPrec a.toInt n⟩

/-- Go `math.MaxInt64`, the largest `int`. -/
def MaxInt64 : GoInt := GoInt.ofInt 9223372036854775807

/-- Go `math.MinInt64`, the smallest `int`. -/
def MinInt64 : GoInt := GoInt.ofInt (-9223372036854775808)

/-! ## Data model -/

/-- Go `SMSCode`: one verification code record. -/
structure SMSCode where
  Phone : String
  Code : String
  ExpiresAt : Time
  Attempts : GoInt
  CreatedAt : Time
deriving DecidableEq, Repr

/-- Go `map[string]*SMSCode`. -/
abbrev CodeMap := String → Option SMSCode

/-- Go `make(map[string]*SMSCode)`: the empty map. -/
def CodeMap.empty : CodeMap := fun _ => none

/-- Go `m[k] = v`. -/
def CodeMap.set (m : CodeMap) (k : String) (v : SMSCode) : CodeMap :=
  fun q => if q = k then some v else m q

/-- Go `delete(m, k)`. -/
def CodeMap.delete (m : CodeMap) (k : String) : CodeMap :=
  fun q => if q = k then none else m q

/-- Go `SMSService`. -/
structure SMSService where
  codes : CodeMap
  codeTTL : Duration
  codeLen : GoInt
  maxAttempts : GoInt

/-- Go `NewSMSService`. -/
def NewSMSService : SMSService :=
  { codes := CodeMap.empty
    codeTTL := 5 * Minute
    codeLen := 6
    maxAttempts := 3 }

/-! ## Errors -/

/-- Message of the error returned for a malformed phone number. -/
def errInvalidPhone : String := "invalid phone number format for Kyrgyzstan"

/-- Message of the error returned when the phone has no record. -/
def errNoCodeFound : String := "no verification code found for this phone number"

/-- Message of the error returned for an expired record. -/
def errCodeExpired : String := "verification code has expired"

/-- Message of the error returned when the attempt limit is passed. -/
def errAttemptsExceeded : String := "maximum verification attempts exceeded"

/-- Message of the error returned for a wrong candidate. -/
def errCodeMismatch : String := "invalid verification code"

/-! ## Phone validation -/

/-- A bracket expression or literal of a pattern: a list of inclusive
character ranges. -/
abbrev CharClass := List (Char × Char)

/-- One atom of a pattern with its repetition count, as in `[0-9]{8}`. -/
structure Piece where
  cls : CharClass
  count : Nat

/-- A pattern of the form `^p1 p2 ... pn$`, every `pi` a `Piece`. -/
abbrev Pattern := List Piece

/-- A single literal character. -/
def Piece.lit (c : Char) : Piece := { cls := [(c, c)], count := 1 }

/-- Whether a character belongs to a class. -/
def CharClass.matches (cls : CharClass) (c : Char) : Bool :=
  cls.any (fun r => decide (r.1 ≤ c) && decide (c ≤ r.2))

/-- The classes of a pattern, one per character to be matched. -/
def Pattern.expand : Pattern → List CharClass
  | [] => []
  | p :: ps => List.replicate p.count p.cls ++ Pattern.expand ps

/-- Match a character list against a list of classes, start to end. -/
def matchClasses : List CharClass → List Char → Bool
  | [], [] => true
  | [], _ :: _ => false
  | _ :: _, [] => false
  | k :: ks, c :: cs => k.matches c && matchClasses ks cs

/-- Go `regexp.MatchString` for an anchored pattern `^...$`. -/
def MatchString (pattern : Pattern) (s : String) : Bool :=
  matchClasses pattern.expand s.data

/-- The class `[0-9]`. -/
def digitClass : CharClass := [('0', '9')]

/-- The common start `\+996` of the three patterns. -/
def plus996 : Pattern := [Piece.lit '+', Piece.lit '9', Piece.lit '9', Piece.lit '6']

/-- The pattern `^\+996[57][0-9]{8}$`. -/
def patternMobile : Pattern :=
  plus996 ++ [{ cls := [('5', '5'), ('7', '7')], count := 1 }, { cls := digitClass, count := 8 }]

/-- The pattern `^\+9962[0-9]{8}$`. -/
def patternBishkek : Pattern :=
  plus996 ++ [Piece.lit '2', { cls := digitClass, count := 8 }]

/-- The pattern `^\+996[0-9]{9}$`. -/
def patternGeneral : Pattern :=
  plus996 ++ [{ cls := digitClass, count := 9 }]

/-- Go `ValidateKyrgyzstanPhone`: the phone matches one of the patterns. -/
def ValidateKyrgyzstanPhone (_s : SMSService) (phone : String) : Bool :=
  let patterns := [patternMobile, patternBishkek, patternGeneral]
  patterns.any (fun pattern => MatchString pattern phone)

/-! ## Code generation -/

/-- The source read by `rand.Int(rand.Reader, big.NewInt(10))`: the draw of
the `i`-th call from now on; `none` is a failed read. -/
abbrev RandReader := Nat → Option (Fin 10)

/-- The reader left after one draw. -/
def RandReader.tail (rng : RandReader) : RandReader := fun i => rng (i + 1)

/-- Go `num.String()` of the `*big.Int` returned by `rand.Int`, whose error
is discarded: the nil pointer of a failed read prints as `<nil>`. -/
def bigIntString : Option (Fin 10) → String
  | some n => toString n.val
  | none => "<nil>"

/-- The loop of `GenerateCode` with `n` iterations still to run. -/
def generateLoop : Nat → RandReader → String → String × RandReader
  | 0, rng, code => (code, rng)
  | n + 1, rng, code => generateLoop n rng.tail (code ++ bigIntString (rng 0))

/-- Go `GenerateCode`: `codeLen` draws appended to the empty string. Returns
the code and the reader left. -/
def GenerateCode (s : SMSService) (rng : RandReader) : String × RandReader :=
  generateLoop s.codeLen.toInt.toNat rng ""

/-! ## Sending and verifying -/

/-- What `SendVerificationCode` returns and leaves behind. -/
structure SendResult where
  svc : SMSService
  rng : RandReader
  code : Option SMSCode
  err : Option String

/-- Go `SendVerificationCode`. The three readings of `time.Now()` are
`nowCheck` (the expiry test of an existing record), `nowExpiry` (the new
`ExpiresAt`) and `nowCreated` (the new `CreatedAt`). -/
def SendVerificationCode (s : SMSService) (nowCheck nowExpiry nowCreated : Time)
    (rng : RandReader) (phone : String) : SendResult :=
  if !ValidateKyrgyzstanPhone s phone then
    { svc := s, rng := rng, code := none, err := some errInvalidPhone }
  else
    match s.codes phone with
    | some existingCode =>
      if nowCheck.Before existingCode.ExpiresAt && decide (existingCode.Attempts < s.maxAttempts) then
        { svc := s, rng := rng, code := some existingCode, err := none }
      else
        let codes1 := s.codes.delete phone
        let gen := GenerateCode s rng
        let smsCode : SMSCode :=
          { Phone := phone, Code := gen.1, ExpiresAt := nowExpiry.Add s.codeTTL,
            Attempts := 0, CreatedAt := nowCreated }
        { svc := { s with codes := codes1.set phone smsCode }, rng := gen.2,
          code := some smsCode, err := none }
    | none =>
      let gen := GenerateCode s rng
      let smsCode : SMSCode :=
        { Phone := phone, Code := gen.1, ExpiresAt := nowExpiry.Add s.codeTTL,
          Attempts := 0, CreatedAt := nowCreated }
      { svc := { s with codes := s.codes.set phone smsCode }, rng := gen.2,
        code := some smsCode, err := none }

/-- What `VerifyCode` returns and leaves behind. -/
structure VerifyResult where
  svc : SMSService
  ok : Bool
  err : Option String

/-- Go `VerifyCode`. -/
def VerifyCode (s : SMSService) (now : Time) (phone inputCode : String) : VerifyResult :=
  match s.codes phone with
  | none => { svc := s, ok := false, err := some errNoCodeFound }
  | some smsCode =>
    if now.After smsCode.ExpiresAt then
      { svc := { s with codes := s.codes.delete phone }, ok := false, err := some errCodeExpired }
    else
      let smsCode1 : SMSCode := { smsCode with Attempts := smsCode.Attempts + 1 }
      let codes1 := s.codes.set phone smsCode1
      if smsCode1.Attempts > s.maxAttempts then
        { svc := { s with codes := codes1.delete phone }, ok := false,
          err := some errAttemptsExceeded }
      else if smsCode1.Code ≠ inputCode then
        { svc := { s with codes := codes1 }, ok := false, err := some errCodeMismatch }
      else
        { svc := { s with codes := codes1.delete phone }, ok := true, err := none }

/-- Go `CleanupExpiredCodes`: one reading of the clock, then every entry
whose `ExpiresAt` lies before it is deleted. -/
def CleanupExpiredCodes (s : SMSService) (now : Time) : SMSService :=
  { s with
    codes := fun phone =>
      match s.codes phone with
      | some code => if now.After code.ExpiresAt then none else some code
      | none => none }

/-- Go `GetRemainingAttempts`. -/
def GetRemainingAttempts (s : SMSService) (phone : String) : GoInt :=
  match s.codes phone with
  | some code => s.maxAttempts - code.Attempts
  | none => s.maxAttempts

/-- One call of an operation of the service, with the clock readings and
the random source it meets. -/
inductive Call where
  | send (nowCheck nowExpiry nowCreated : Time) (rng : RandReader) (phone : String)
  | verify (now : Time) (phone inputCode : String)
  | cleanup (now : Time)
  | remaining (phone : String)

/-- The service after a call. -/
def Call.run (s : SMSService) : Call → SMSService
  | .send nowCheck nowExpiry nowCreated rng phone =>
    (SendVerificationCode s nowCheck nowExpiry nowCreated rng phone).svc
  | .verify now phone inputCode => (VerifyCode s now phone inputCode).svc
  | .cleanup now => CleanupExpiredCodes s now
  | .remaining _ => s

/-- The service after a sequence of calls, first call first. -/
def runCalls (s : SMSService) (calls : List Call) : SMSService :=
  calls.foldl Call.run s

/-- The property of a service state kept by every operation: the limit is
the one of `NewSMSService`, and every record has between 0 and `maxAttempts`
attempts, sits under the key equal to its `Phone`, and that key is a phone
accepted by `ValidateKyrgyzstanPhone`. -/
def StoreInvariant (s : SMSService) : Prop :=
  s.maxAttempts = 3 ∧
  ∀ (phone : String) (r : SMSCode), s.codes phone = some r →
    0 ≤ r.Attempts ∧ r.Attempts ≤ s.maxAttempts ∧ r.Phone = phone ∧
      ValidateKyrgyzstanPhone s phone = true

/-! ## Tokens (`apps/api/internal/auth/jwt.go`)

The package `github.com/golang-jwt/jwt/v5` is a dependency of the
repository. Its signing and parsing are described here at the level of what
a token string carries: the algorithm named in its header, the key its
signature was computed with, and the claims of its payload. The signature
is the HMAC of header and payload, which depends on the key only through
the key block that `hmac.New` prepares from it (a key longer than a block of
the hash is replaced by its hash, and the key is followed by zero bytes up
to the length of a block); two signatures of the same header and payload
are taken to be equal exactly when their key blocks are. A payload decodes
to the claims it was encoded from. -/

/-- Go `time.Second`, in nanoseconds. -/
def Second : Duration := 1000000000

/-- Go `time.Hour`, in nanoseconds. -/
def Hour : Duration := 60 * Minute

/-- Go `uuid.UUID`: sixteen bytes, read as one big-endian number. -/
abbrev UUID := Fin (2 ^ 128)

/-- The lower-case hexadecimal digit of a number below 16. -/
def hexDigit (n : Nat) : Char :=
  if n < 10 then Char.ofNat (48 + n) else Char.ofNat (87 + n)

/-- The hexadecimal digits of a UUID from position `i`, `n` of them. -/
def UUID.hex (u : UUID) (i n : Nat) : List Char :=
  (List.range n).map (fun j => hexDigit ((u.val / 16 ^ (31 - (i + j))) % 16))

/-- Go `uuid.UUID.String`: the form `xxxxxxxx-xxxx-xxxx-xxxx-xxxxxxxxxxxx`. -/
def UUID.String (u : UUID) : String :=
  String.mk (u.hex 0 8 ++ ['-'] ++ u.hex 8 4 ++ ['-'] ++ u.hex 12 4 ++ ['-'] ++ u.hex 16 4 ++
    ['-'] ++ u.hex 20 12)

/-- Go `jwt.NewNumericDate`: the instant truncated to the precision of one
second (`jwt.TimePrecision`). -/
def NewNumericDate (t : Time) : Time := t - t % Second

/-- Go `jwt.RegisteredClaims`; the `*NumericDate` fields are `none` when the
pointer is nil (the claim is absent). -/
structure RegisteredClaims where
  Issuer : String
  Subject : String
  Audience : List String
  ExpiresAt : Option Time
  NotBefore : Option Time
  IssuedAt : Option Time
  ID : String
deriving DecidableEq, Repr

/-- Go `TokenClaims`; the field `Type` is written `Type_`. -/
structure TokenClaims where
  UserID : UUID
  Phone : String
  Role : String
  Type_ : String
  Registered : RegisteredClaims
deriving DecidableEq, Repr

/-- Go `TokenManager`. -/
structure TokenManager where
  secretKey : String
  accessTokenTTL : Duration
  refreshTokenTTL : Duration
deriving DecidableEq, Repr

/-- Go `NewTokenManager`. -/
def NewTokenManager (secretKey : String) (accessTTL refreshTTL : Duration) : TokenManager :=
  { secretKey := secretKey, accessTokenTTL := accessTTL, refreshTokenTTL := refreshTTL }

/-- The `error` values met in the token code: the two sentinels of the
package and any other error. -/
inductive TokenError where
  | ErrInvalidToken
  | ErrExpiredToken
  | other (msg : String)
deriving DecidableEq, Repr

/-- A token string, by what it carries: `jws alg key claims` is a compact
JWS whose header names `alg`, whose payload encodes `claims` and whose
signature is the MAC of header and payload under `key`; `other raw` is any
string that is not of that form. -/
inductive TokenString where
  | jws (alg : String) (key : String) (claims : TokenClaims)
  | other (raw : String)
deriving DecidableEq, Repr

/-- The empty Go string. -/
def TokenString.empty : TokenString := TokenString.other ""

/-- Go `[]byte`: a list of numbers below 256. -/
abbrev Bytes := List Nat

/-- The bytes of one character in UTF-8. -/
def utf8Char (c : Char) : Bytes :=
  let v := c.toNat
  if v < 128 then [v]
  else if v < 2048 then [192 + v / 64, 128 + v % 64]
  else if v < 65536 then [224 + v / 4096, 128 + v / 64 % 64, 128 + v % 64]
  else [240 + v / 262144, 128 + v / 4096 % 64, 128 + v / 64 % 64, 128 + v % 64]

/-- Go `[]byte(s)` for a string of characters: its UTF-8 bytes. -/
def stringBytes (s : String) : Bytes := (s.data.map utf8Char).flatten

/-- Whether a number is prime, by trial division. -/
def isPrime (n : Nat) : Bool :=
  decide (2 ≤ n) && (List.range n).all (fun d => decide (d < 2) || n % d != 0)

/-- The first `n` primes, for `n` up to 80. -/
def firstPrimes (n : Nat) : List Nat := ((List.range 420).filter isPrime).take n

/-- The integer part of the `k`-th root of `n`, for roots below `2^80`. -/
def iroot (k n : Nat) : Nat :=
  (List.range 80).foldl
    (fun r i => if (r + 2 ^ (79 - i)) ^ k ≤ n then r + 2 ^ (79 - i) else r) 0

/-- The first `w` bits of the fractional part of the `k`-th root of `p`. -/
def rootFraction (k w p : Nat) : Nat := iroot k (p * 2 ^ (k * w)) % 2 ^ w

/-- One of the hash functions SHA-256, SHA-384 and SHA-512 of FIPS 180-4,
which are behind Go `crypto/sha256` and `crypto/sha512`: the word size in
bits, the number of rounds, the initial hash value, the number of words of
the result, and the shift amounts of the four sigma functions. -/
structure Sha2 where
  w : Nat
  rounds : Nat
  initial : List Nat
  outWords : Nat
  bigSigma0 : Nat × Nat × Nat
  bigSigma1 : Nat × Nat × Nat
  smallSigma0 : Nat × Nat × Nat
  smallSigma1 : Nat × Nat × Nat

/-- Rotation of a word of `w` bits to the right. -/
def rotr (w x n : Nat) : Nat := (x >>> n ||| x <<< (w - n)) % 2 ^ w

/-- The round constants: the fractional parts of the cube roots of the
first primes. -/
def Sha2.K (p : Sha2) : List Nat := (firstPrimes p.rounds).map (rootFraction 3 p.w)

/-- The functions written with a capital sigma: three rotations. -/
def Sha2.Sigma (p : Sha2) (c : Nat × Nat × Nat) (x : Nat) : Nat :=
  rotr p.w x c.1 ^^^ rotr p.w x c.2.1 ^^^ rotr p.w x c.2.2

/-- The functions written with a small sigma: two rotations and a shift. -/
def Sha2.sigma (p : Sha2) (c : Nat × Nat × Nat) (x : Nat) : Nat :=
  rotr p.w x c.1 ^^^ rotr p.w x c.2.1 ^^^ x >>> c.2.2

/-- The number a byte sequence stands for, first byte highest. -/
def fromBytes (bytes : Bytes) : Nat := bytes.foldl (fun a b => a * 256 + b) 0

/-- The `len` lowest bytes of a number, highest first. -/
def toBytes (len n : Nat) : Bytes :=
  (List.range len).map (fun i => n / 256 ^ (len - 1 - i) % 256)

/-- The length of a block in bytes: sixteen words. -/
def Sha2.blockSize (p : Sha2) : Nat := 16 * (p.w / 8)

/-- The message followed by the byte `0x80`, zero bytes and its length in
bits, a whole number of blocks. -/
def Sha2.pad (p : Sha2) (msg : Bytes) : Bytes :=
  let lenBytes := 2 * (p.w / 8)
  let zeros := (p.blockSize - (msg.length + 1 + lenBytes) % p.blockSize) % p.blockSize
  msg ++ [128] ++ List.replicate zeros 0 ++ toBytes lenBytes (8 * msg.length)

/-- The message schedule of a block. -/
def Sha2.schedule (p : Sha2) (block : Bytes) : List Nat :=
  (List.range (p.rounds - 16)).foldl
    (fun W _ =>
      let t := W.length
      W ++ [(p.sigma p.smallSigma1 (W.getD (t - 2) 0) + W.getD (t - 7) 0 +
        p.sigma p.smallSigma0 (W.getD (t - 15) 0) + W.getD (t - 16) 0) % 2 ^ p.w])
    ((block.toChunks (p.w / 8)).map fromBytes)

/-- One round on the eight working variables, with the constant and the
schedule word of the round. -/
def Sha2.round (p : Sha2) (s : List Nat) (kw : Nat × Nat) : List Nat :=
  match s with
  | [a, b, c, d, e, f, g, h] =>
    let ch := (e &&& f) ^^^ ((2 ^ p.w - 1 - e) &&& g)
    let maj := (a &&& b) ^^^ (a &&& c) ^^^ (b &&& c)
    let t1 := h + p.Sigma p.bigSigma1 e + ch + kw.1 + kw.2
    let t2 := p.Sigma p.bigSigma0 a + maj
    [(t1 + t2) % 2 ^ p.w, a, b, c, (d + t1) % 2 ^ p.w, e, f, g]
  | _ => s

/-- The hash value after one more block. -/
def Sha2.compress (p : Sha2) (H : List Nat) (block : Bytes) : List Nat :=
  List.zipWith (fun x y => (x + y) % 2 ^ p.w) H
    ((p.K.zip (p.schedule block)).foldl p.round H)

/-- The digest of a message. -/
def Sha2.sum (p : Sha2) (msg : Bytes) : Bytes :=
  (((((p.pad msg).toChunks p.blockSize).foldl p.compress p.initial).take p.outWords).map
    (toBytes (p.w / 8))).flatten

/-- SHA-256. -/
def sha256 : Sha2 :=
  { w := 32, rounds := 64, initial := (firstPrimes 8).map (rootFraction 2 32), outWords := 8,
    bigSigma0 := (2, 13, 22), bigSigma1 := (6, 11, 25),
    smallSigma0 := (7, 18, 3), smallSigma1 := (17, 19, 10) }

/-- SHA-512. -/
def sha512 : Sha2 :=
  { w := 64, rounds := 80, initial := (firstPrimes 8).map (rootFraction 2 64), outWords := 8,
    bigSigma0 := (28, 34, 39), bigSigma1 := (14, 18, 41),
    smallSigma0 := (1, 8, 7), smallSigma1 := (19, 61, 6) }

/-- SHA-384: SHA-512 from another initial value, cut to six words. -/
def sha384 : Sha2 :=
  { sha512 with initial := ((firstPrimes 16).drop 8).map (rootFraction 2 64), outWords := 6 }

/-- The hash of an HMAC signing method of the package: `HS256` signs with
SHA-256, `HS384` with SHA-384, `HS512` with SHA-512. -/
def hmacHash (alg : String) : Sha2 :=
  if alg = "HS256" then sha256 else if alg = "HS384" then sha384 else sha512

/-- Go `hmac.New(h, key)`, the key block it fills `ipad` and `opad` from: a
key longer than a block is replaced by its hash, and the key is copied into
a block of zero bytes. -/
def hmacKeyBlock (alg : String) (key : Bytes) : Bytes :=
  let h := hmacHash alg
  let key1 := if key.length > h.blockSize then h.sum key else key
  key1 ++ List.replicate (h.blockSize - key1.length) 0

/-- The errors of `jwt.ParseWithClaims`. -/
inductive JwtError where
  | ErrTokenMalformed
  | ErrTokenUnverifiable
  | ErrTokenSignatureInvalid
  | ErrTokenExpired
  | ErrTokenNotValidYet
deriving DecidableEq, Repr

/-- The algorithms whose `Verify` takes the `[]byte` key handed over by the
key function of `ValidateToken`. -/
def hmacMethods : List String := ["HS256", "HS384", "HS512"]

/-- The algorithms registered in the package with another kind of key. -/
def otherMethods : List String :=
  ["none", "RS256", "RS384", "RS512", "PS256", "PS384", "PS512", "ES256", "ES384", "ES512",
    "EdDSA"]

/-- Go `jwt.Validator.Validate` with the default options and the clock
reading `now`: `exp`, when present, must be after `now`; `nbf`, when
present, must not be after `now`; `iat`, `aud`, `iss` and `sub` are not
checked. -/
def validateClaims (claims : RegisteredClaims) (now : Time) : Except JwtError Unit :=
  let expOk : Bool :=
    match claims.ExpiresAt with
    | some exp => now.Before exp
    | none => true
  let nbfOk : Bool :=
    match claims.NotBefore with
    | some nbf => !now.Before nbf
    | none => true
  if !expOk then .error JwtError.ErrTokenExpired
  else if !nbfOk then .error JwtError.ErrTokenNotValidYet
  else .ok ()

/-- Go `jwt.ParseWithClaims(tokenString, &TokenClaims, keyFunc)` with a key
function that returns `[]byte(key)`, at the clock reading `now`. The
signature of an HMAC token verifies when the key it was computed with and
`key` give the same key block. `.ok claims` stands for a token with `Valid`
set and no error. -/
def ParseWithClaims (tokenString : TokenString) (key : String) (now : Time) :
    Except JwtError TokenClaims :=
  match tokenString with
  | .other _ => .error JwtError.ErrTokenMalformed
  | .jws alg signedWith claims =>
    if alg ∈ otherMethods then .error JwtError.ErrTokenSignatureInvalid
    else if alg ∉ hmacMethods then .error JwtError.ErrTokenUnverifiable
    else if hmacKeyBlock alg (stringBytes signedWith) ≠ hmacKeyBlock alg (stringBytes key) then
      .error JwtError.ErrTokenSignatureInvalid
    else
      match validateClaims claims.Registered now with
      | .error e => .error e
      | .ok _ => .ok claims

/-- What `generateToken` returns. -/
structure SignResult where
  token : TokenString
  err : Option TokenError
deriving DecidableEq, Repr

/-- Go `token.SignedString([]byte(key))` for `jwt.SigningMethodHS256`: with
a byte-slice key the signing does not fail, and the signature is the HMAC
under the key block of `key`. -/
def SignedString (claims : TokenClaims) (key : String) : SignResult :=
  { token := TokenString.jws "HS256" key claims, err := none }

/-- Go `generateToken`; `now` is its reading of `time.Now()`. -/
def generateToken (tm : TokenManager) (now : Time) (userID : UUID) (phone role tokenType : String)
    (ttl : Duration) : SignResult :=
  let claims : TokenClaims :=
    { UserID := userID
      Phone := phone
      Role := role
      Type_ := tokenType
      Registered :=
        { Issuer := "skypark-api"
          Subject := userID.String
          Audience := []
          ExpiresAt := some (NewNumericDate (now.Add ttl))
          NotBefore := some (NewNumericDate now)
          IssuedAt := some (NewNumericDate now)
          ID := "" } }
  SignedString claims tm.secretKey

/-- Go `GenerateAccessToken`. -/
def GenerateAccessToken (tm : TokenManager) (now : Time) (userID : UUID) (phone role : String) :
    SignResult :=
  generateToken tm now userID phone role "access" tm.accessTokenTTL

/-- Go `GenerateRefreshToken`. -/
def GenerateRefreshToken (tm : TokenManager) (now : Time) (userID : UUID) (phone role : String) :
    SignResult :=
  generateToken tm now userID phone role "refresh" tm.refreshTokenTTL

/-- What `ValidateToken` returns. -/
structure ValidateResult where
  claims : Option TokenClaims
  err : Option TokenError
deriving DecidableEq, Repr

/-- Go `ValidateToken`. `nowParse` is the clock reading of the validator
inside `jwt.ParseWithClaims`, `nowCheck` the one of the expiry test that
follows. The result is `none` when the call panics: `claims.ExpiresAt.Time`
dereferences a nil pointer if the token has no `exp` claim. -/
def ValidateToken (tm : TokenManager) (nowParse nowCheck : Time) (tokenString : TokenString) :
    Option ValidateResult :=
  match ParseWithClaims tokenString tm.secretKey nowParse with
  | .error _ => some { claims := none, err := some TokenError.ErrInvalidToken }
  | .ok claims =>
    match claims.Registered.ExpiresAt with
    | none => none
    | some exp =>
      if exp.Before nowCheck then
        some { claims := none, err := some TokenError.ErrExpiredToken }
      else
        some { claims := some claims, err := none }

/-- What `RefreshTokens` returns. -/
structure RefreshResult where
  access : TokenString
  refresh : TokenString
  err : Option TokenError
deriving DecidableEq, Repr

/-- Go `RefreshTokens`. `nowParse` and `nowCheck` are the clock readings of
`ValidateToken`, `nowAccess` and `nowRefresh` those of the two calls of
`generateToken`. The result is `none` when `ValidateToken` panics. -/
def RefreshTokens (tm : TokenManager) (nowParse nowCheck nowAccess nowRefresh : Time)
    (refreshToken : TokenString) : Option RefreshResult :=
  match ValidateToken tm nowParse nowCheck refreshToken with
  | none => none
  | some { claims := _, err := some err } =>
    some { access := TokenString.empty, refresh := TokenString.empty, err := some err }
  | some { claims := none, err := none } => none
  | some { claims := some claims, err := none } =>
    if claims.Type_ ≠ "refresh" then
      some { access := TokenString.empty, refresh := TokenString.empty,
             err := some TokenError.ErrInvalidToken }
    else
      let access := GenerateAccessToken tm nowAccess claims.UserID claims.Phone claims.Role
      match access.err with
      | some err =>
        some { access := TokenString.empty, refresh := TokenString.empty, err := some err }
      | none =>
        let newRefresh := GenerateRefreshToken tm nowRefresh claims.UserID claims.Phone claims.Role
        match newRefresh.err with
        | some err =>
          some { access := TokenString.empty, refresh := TokenString.empty, err := some err }
        | none => some { access := access.token, refresh := newRefresh.token, err := none }

/-- The token manager built in `main`, with the given secret: access tokens
live 15 minutes, refresh tokens 7 days. -/
def mainTokenManager (jwtSecret : String) : TokenManager :=
  NewTokenManager jwtSecret (15 * Minute) (7 * 24 * Hour)

/-- A user id used in the instances below. -/
def exampleUserID : UUID := ⟨0x123e4567e89b12d3a456426614174000, by decide⟩

/-! ## HTTP layer (`middleware.go`, `handlers.go`) -/

/-- The values written by `c.JSON`: what `gin.H` and the nested maps hold. -/
inductive JSON where
  | null
  | bool (b : Bool)
  | int (n : GoInt)
  | str (s : String)
  | time (t : Time)
  | uuid (u : UUID)
  | token (t : TokenString)
  | obj (fields : List (String × JSON))

/-- The values stored in the request context by `c.Set`. -/
inductive CtxValue where
  | uuid (u : UUID)
  | str (s : String)
  | claims (c : TokenClaims)
deriving DecidableEq, Repr

/-- The part of `gin.Context` the handlers act on: the keys set by `c.Set`,
the response written by `c.JSON`, whether `c.Abort` was called and whether
`c.Next` was called. -/
structure Context where
  Keys : List (String × CtxValue)
  status : Option Nat
  body : Option JSON
  aborted : Bool
  next : Bool

/-- A context of a request that no handler has touched yet. -/
def Context.new : Context :=
  { Keys := [], status := none, body := none, aborted := false, next := false }

/-- Go `c.JSON(code, obj)`. -/
def Context.JSON (c : Context) (code : Nat) (obj : JSON) : Context :=
  { c with status := some code, body := some obj }

/-- Go `c.Abort()`. -/
def Context.Abort (c : Context) : Context := { c with aborted := true }

/-- Go `c.Next()`: the handlers that follow are run. -/
def Context.Next (c : Context) : Context := { c with next := true }

/-- Go `c.Set(key, value)`. -/
def Context.Set (c : Context) (key : String) (value : CtxValue) : Context :=
  { c with Keys := (key, value) :: c.Keys.filter (fun kv => kv.1 ≠ key) }

/-- Go `c.Get(key)`. -/
def Context.Get (c : Context) (key : String) : Option CtxValue :=
  (c.Keys.find? (fun kv => kv.1 = key)).map Prod.snd

/-- Go `http.StatusUnauthorized` and the other status codes in use. -/
def StatusUnauthorized : Nat := 401

/-- Go `http.StatusBadRequest`. -/
def StatusBadRequest : Nat := 400

/-- Go `http.StatusForbidden`. -/
def StatusForbidden : Nat := 403

/-- Go `http.StatusInternalServerError`. -/
def StatusInternalServerError : Nat := 500

/-- Go `http.StatusOK`. -/
def StatusOK : Nat := 200

/-- The body `gin.H` with `success: false` and an `error` map of `code` and
`message`. -/
def errorBody (code message : String) : JSON :=
  JSON.obj [("success", JSON.bool false),
    ("error", JSON.obj [("code", JSON.str code), ("message", JSON.str message)])]

/-- The pieces of a character list between occurrences of `sep`. -/
def splitChars (sep : Char) : List Char → List (List Char)
  | [] => [[]]
  | c :: cs =>
    if c = sep then [] :: splitChars sep cs
    else
      match splitChars sep cs with
      | [] => [[c]]
      | p :: ps => (c :: p) :: ps

/-- Go `strings.Split(s, sep)` for a separator of one character. -/
def stringsSplit (s : String) (sep : Char) : List String :=
  (splitChars sep s.data).map String.mk

/-- Go `AuthRequired`, the handler it returns. `authHeader` is the value of
`c.GetHeader("Authorization")`, `tokenOf` tells what each string is as a
token, `nowParse` and `nowCheck` are the clock readings of `ValidateToken`.
The result is `none` when `ValidateToken` panics. -/
def AuthRequired (tm : TokenManager) (tokenOf : String → TokenString) (nowParse nowCheck : Time)
    (authHeader : String) (c : Context) : Option Context :=
  if authHeader = "" then
    some ((c.JSON StatusUnauthorized
      (errorBody "AUTH_REQUIRED" "Authorization header is required")).Abort)
  else
    match stringsSplit authHeader ' ' with
    | [p0, token] =>
      if p0 ≠ "Bearer" then
        some ((c.JSON StatusUnauthorized
          (errorBody "INVALID_TOKEN_FORMAT" "Invalid authorization header format")).Abort)
      else
        match ValidateToken tm nowParse nowCheck (tokenOf token) with
        | none => none
        | some { claims := _, err := some err } =>
          let codeMessage : String × String :=
            match err with
            | TokenError.ErrExpiredToken => ("TOKEN_EXPIRED", "Token has expired")
            | TokenError.ErrInvalidToken => ("INVALID_TOKEN", "Invalid token")
            | TokenError.other _ => ("AUTH_ERROR", "Authentication error")
          some ((c.JSON StatusUnauthorized (errorBody codeMessage.1 codeMessage.2)).Abort)
        | some { claims := none, err := none } => none
        | some { claims := some claims, err := none } =>
          if claims.Type_ ≠ "access" then
            some ((c.JSON StatusUnauthorized
              (errorBody "INVALID_TOKEN_TYPE" "Access token required")).Abort)
          else
            some ((((c.Set "user_id" (CtxValue.uuid claims.UserID)).Set "user_phone"
              (CtxValue.str claims.Phone)).Set "user_role" (CtxValue.str claims.Role)).Set
              "token_claims" (CtxValue.claims claims)).Next
    | _ =>
      some ((c.JSON StatusUnauthorized
        (errorBody "INVALID_TOKEN_FORMAT" "Invalid authorization header format")).Abort)

/-- The context after a refusal of `AuthRequired`: status 401, the error
body with the given code and message, and the chain aborted. -/
def Context.refuse (c : Context) (code message : String) : Context :=
  (c.JSON StatusUnauthorized (errorBody code message)).Abort

/-- The context after `AuthRequired` has let a request pass with the given
claims: the four keys set and the following handlers run. -/
def Context.proceed (c : Context) (claims : TokenClaims) : Context :=
  ((((c.Set "user_id" (CtxValue.uuid claims.UserID)).Set "user_phone"
    (CtxValue.str claims.Phone)).Set "user_role" (CtxValue.str claims.Role)).Set
    "token_claims" (CtxValue.claims claims)).Next

/-- A reading of token strings used in the instances below: the string
`good` is an access token issued at instant 0 by the manager of `main` with
secret `k`, the string `old` a refresh token of the same manager, every
other string is no token. -/
def exampleTokenOf (s : String) : TokenString :=
  if s = "good" then
    (GenerateAccessToken (mainTokenManager "k") 0 exampleUserID "+996700123456"
      "customer").token
  else if s = "old" then
    (GenerateRefreshToken (mainTokenManager "k") 0 exampleUserID "+996700123456"
      "customer").token
  else TokenString.other s

/-- A reading of token strings used in an instance below: the string
`noexp` is a token with the header `HS256` and a payload without `exp`,
`nbf` and `iat`, signed with the secret `k`; every other string is no
token. -/
def noExpiryTokenOf (s : String) : TokenString :=
  if s = "noexp" then
    TokenString.jws "HS256" "k"
      { UserID := exampleUserID, Phone := "+996700123456", Role := "customer",
        Type_ := "access",
        Registered :=
          { Issuer := "skypark-api", Subject := exampleUserID.String, Audience := [],
            ExpiresAt := none, NotBefore := none, IssuedAt := none, ID := "" } }
  else TokenString.other s

/-! ## Users and the login handler (`models/types.go`, `handlers.go`)

The database behind `gorm` is an external service. It is described by the
rows of the `users` table; whether a statement fails for a reason of its
own (connection, timeout) is an input of the handler, as are the values the
database and the libraries supply. -/

/-- Go `models.UserStatusActive`. -/
def UserStatusActive : String := "active"

/-- Go `models.UserRoleCustomer`. -/
def UserRoleCustomer : String := "customer"

/-- Go `models.LoyaltyTierBeginner`. -/
def LoyaltyTierBeginner : String := "beginner"

/-- The zero value of `time.Time`: January 1 of year 1, UTC. -/
def zeroTime : Time := -62135596800 * Second

/-- Go `uuid.Nil`, the zero value of `uuid.UUID`. -/
def uuidNil : UUID := ⟨0, by decide⟩

/-- Go `models.User` with its `BaseModel`: the columns the handlers of the
package `auth` read or write. -/
structure User where
  ID : UUID
  CreatedAt : Time
  UpdatedAt : Time
  DeletedAt : Option Time
  PhoneNumber : String
  Email : Option String
  FirstName : String
  LastName : String
  DateOfBirth : Option Time
  Status : String
  Role : String
  IsPhoneVerified : Bool
  LoyaltyTier : String
  LoyaltyPoints : GoInt
  LastLoginAt : Option Time
deriving DecidableEq, Repr

/-- The rows of the table `users`. -/
structure DB where
  users : List User
deriving DecidableEq, Repr

/-- The errors of a `gorm` statement: `gorm.ErrRecordNotFound` or any
other. -/
inductive DbError where
  | ErrRecordNotFound
  | other (msg : String)
deriving DecidableEq, Repr

/-- The row with the least primary key, which is the one `First` takes. -/
def leastID : List User → Option User
  | [] => none
  | u :: us =>
    match leastID us with
    | none => some u
    | some v => if u.ID ≤ v.ID then some u else some v

/-- Go `db.Where("phone_number = ? AND deleted_at IS NULL", phone).First(&user)`;
`fault` is the error of a statement that fails for a reason of its own. -/
def DB.firstByPhone (db : DB) (phone : String) (fault : Option String) : Except DbError User :=
  match fault with
  | some msg => .error (DbError.other msg)
  | none =>
    match leastID (db.users.filter
        (fun u => decide (u.PhoneNumber = phone) && u.DeletedAt.isNone)) with
    | none => .error DbError.ErrRecordNotFound
    | some user => .ok user

/-- Go `db.Create(&user)`: the row is inserted with the primary key `newID`
drawn by the database and the timestamps `now`, unless the statement fails
by itself or breaks the primary key or one of the `unique` columns
`phone_number` and `email`. Returns the table and the row as read back. -/
def DB.create (db : DB) (user : User) (newID : UUID) (now : Time) (fault : Option String) :
    Except DbError (DB × User) :=
  match fault with
  | some msg => .error (DbError.other msg)
  | none =>
    if db.users.any (fun u => decide (u.ID = newID)) then
      .error (DbError.other "duplicate key value violates unique constraint")
    else if db.users.any (fun u => decide (u.PhoneNumber = user.PhoneNumber)) then
      .error (DbError.other "duplicate key value violates unique constraint")
    else if user.Email.isSome && db.users.any (fun u => decide (u.Email = user.Email)) then
      .error (DbError.other "duplicate key value violates unique constraint")
    else
      let row : User := { user with ID := newID, CreatedAt := now, UpdatedAt := now }
      .ok ({ users := db.users ++ [row] }, row)

/-- Go `db.Model(&user).Update("last_login_at", t)`, whose error is not
looked at: the row with the primary key of `user` gets the new value and a
new `updated_at`, unless the statement fails. -/
def DB.updateLastLogin (db : DB) (id : UUID) (t nowUpdate : Time) (fails : Bool) : DB :=
  if fails then db
  else
    { users := db.users.map (fun u =>
        if u.ID = id then { u with LastLoginAt := some t, UpdatedAt := nowUpdate } else u) }

/-- Go `AuthHandlers`. -/
structure AuthHandlers where
  db : DB
  tokenManager : TokenManager
  smsService : SMSService

/-- The request body of `VerifyAndLogin` after binding. -/
structure LoginRequest where
  Phone : String
  Code : String
  FirstName : String
  LastName : String
  Email : String
  DateOfBirth : String
deriving DecidableEq, Repr

/-- What one call of `VerifyAndLogin` meets outside the handler: the outcome
of `c.ShouldBindJSON`, the clock readings, the outcome of
`time.Parse("2006-01-02", ·)`, and what the database supplies. -/
structure LoginEnv where
  bound : Except String LoginRequest
  nowVerify : Time
  findFault : Option String
  parseDate : String → Option Time
  newID : UUID
  nowCreate : Time
  createFault : Option String
  nowAccess : Time
  nowRefresh : Time
  nowLogin : Time
  nowUpdate : Time
  updateFails : Bool

/-- What `VerifyAndLogin` leaves behind: the handlers with their services
and the context with the response. -/
structure LoginResult where
  h : AuthHandlers
  c : Context

/-- The part of `VerifyAndLogin` from the status test on, run with the user
found or created. -/
def loginAs (h : AuthHandlers) (env : LoginEnv) (c : Context) (user : User) : LoginResult :=
  if user.Status ≠ UserStatusActive then
    { h := h,
      c := c.JSON StatusForbidden
        (errorBody "ACCOUNT_SUSPENDED" "Your account has been suspended") }
  else
    let access := GenerateAccessToken h.tokenManager env.nowAccess user.ID user.PhoneNumber
      user.Role
    match access.err with
    | some _ =>
      { h := h,
        c := c.JSON StatusInternalServerError
          (errorBody "TOKEN_GENERATION_FAILED" "Failed to generate access token") }
    | none =>
      let refresh := GenerateRefreshToken h.tokenManager env.nowRefresh user.ID user.PhoneNumber
        user.Role
      match refresh.err with
      | some _ =>
        { h := h,
          c := c.JSON StatusInternalServerError
            (errorBody "TOKEN_GENERATION_FAILED" "Failed to generate refresh token") }
      | none =>
        { h := { h with
                 db := h.db.updateLastLogin user.ID env.nowLogin env.nowUpdate env.updateFails },
          c := c.JSON StatusOK
            (JSON.obj [("success", JSON.bool true),
              ("data", JSON.obj
                [("user", JSON.obj
                  [("id", JSON.uuid user.ID),
                    ("phone", JSON.str user.PhoneNumber),
                    ("first_name", JSON.str user.FirstName),
                    ("last_name", JSON.str user.LastName),
                    ("email", match user.Email with
                      | some e => JSON.str e
                      | none => JSON.null),
                    ("role", JSON.str user.Role),
                    ("loyalty_tier", JSON.str user.LoyaltyTier),
                    ("is_verified", JSON.bool user.IsPhoneVerified),
                    ("created_at", JSON.time user.CreatedAt)]),
                  ("tokens", JSON.obj
                    [("access_token", JSON.token access.token),
                      ("refresh_token", JSON.token refresh.token),
                      ("token_type", JSON.str "Bearer")])]),
              ("message", JSON.str "Authentication successful")]) }

/-- Go `VerifyAndLogin`. -/
def VerifyAndLogin (h : AuthHandlers) (env : LoginEnv) (c : Context) : LoginResult :=
  match env.bound with
  | .error details =>
    { h := h,
      c := c.JSON StatusBadRequest
        (JSON.obj [("success", JSON.bool false),
          ("error", JSON.obj
            [("code", JSON.str "INVALID_REQUEST"),
              ("message", JSON.str "Invalid request format"),
              ("details", JSON.str details)])]) }
  | .ok req =>
    let verified := VerifyCode h.smsService env.nowVerify req.Phone req.Code
    let h1 : AuthHandlers := { h with smsService := verified.svc }
    if verified.err.isSome || !verified.ok then
      { h := h1,
        c := c.JSON StatusBadRequest
          (JSON.obj [("success", JSON.bool false),
            ("error", JSON.obj
              [("code", JSON.str "INVALID_SMS_CODE"),
                ("message", JSON.str "Invalid or expired SMS code"),
                ("remaining_attempts",
                  JSON.int (GetRemainingAttempts h1.smsService req.Phone))])]) }
    else
      match h1.db.firstByPhone req.Phone env.findFault with
      | .error DbError.ErrRecordNotFound =>
        let email : Option String := if req.Email ≠ "" then some req.Email else none
        let user : User :=
          { ID := uuidNil, CreatedAt := zeroTime, UpdatedAt := zeroTime, DeletedAt := none,
            PhoneNumber := req.Phone, Email := email, FirstName := req.FirstName,
            LastName := req.LastName, DateOfBirth := none, Status := UserStatusActive,
            Role := UserRoleCustomer, IsPhoneVerified := true,
            LoyaltyTier := LoyaltyTierBeginner, LoyaltyPoints := 0, LastLoginAt := none }
        let user : User :=
          if req.DateOfBirth ≠ "" then
            match env.parseDate req.DateOfBirth with
            | some dob => { user with DateOfBirth := some dob }
            | none => user
          else user
        match h1.db.create user env.newID env.nowCreate env.createFault with
        | .error _ =>
          { h := h1,
            c := c.JSON StatusInternalServerError
              (errorBody "USER_CREATION_FAILED" "Failed to create user account") }
        | .ok (db1, created) => loginAs { h1 with db := db1 } env c created
      | .error (DbError.other _) =>
        { h := h1,
          c := c.JSON StatusInternalServerError
            (errorBody "DATABASE_ERROR" "Database error occurred") }
      | .ok user => loginAs h1 env c user

/-- The body of the answer of `VerifyAndLogin` to a failed verification. -/
def invalidSMSCodeBody (remaining : GoInt) : JSON :=
  JSON.obj [("success", JSON.bool false),
    ("error", JSON.obj
      [("code", JSON.str "INVALID_SMS_CODE"),
        ("message", JSON.str "Invalid or expired SMS code"),
        ("remaining_attempts", JSON.int remaining)])]

/-- A user with the phone `+996700123456` and the given status, used in the
instances below. -/
def exampleUser (status : String) : User :=
  { ID := exampleUserID, CreatedAt := 0, UpdatedAt := 0, DeletedAt := none,
    PhoneNumber := "+996700123456", Email := none, FirstName := "Aida", LastName := "K",
    DateOfBirth := none, Status := status, Role := UserRoleCustomer, IsPhoneVerified := true,
    LoyaltyTier := LoyaltyTierBeginner, LoyaltyPoints := 0, LastLoginAt := none }

/-- Handlers with the manager of `main`, the given code service and the
given rows of `users`. -/
def exampleHandlers (svc : SMSService) (users : List User) : AuthHandlers :=
  { db := { users := users }, tokenManager := mainTokenManager "k", smsService := svc }

/-- A call of `VerifyAndLogin` for the phone `+996700123456` with the given
code at the given instant, with no fault of the database. -/
def exampleEnv (code : String) (now : Time) : LoginEnv :=
  { bound := .ok { Phone := "+996700123456", Code := code, FirstName := "", LastName := "",
                   Email := "", DateOfBirth := "" },
    nowVerify := now, findFault := none, parseDate := fun _ => none,
    newID := ⟨1, by decide⟩, nowCreate := now, createFault := none, nowAccess := now,
    nowRefresh := now, nowLogin := now, nowUpdate := now, updateFails := false }

/-- The constraint `unique` of the column `phone_number`: rows with the same
phone number are the same row. -/
def DB.uniquePhones (db : DB) : Prop :=
  ∀ u ∈ db.users, ∀ v ∈ db.users, u.PhoneNumber = v.PhoneNumber → u = v

/-- The ASCII decimal digit of a draw. -/
def digitChar (n : Fin 10) : Char := Char.ofNat (48 + n.val)

/-- Go `OptionalAuth`, the handler it returns; the arguments are those of
`AuthRequired`. The result is `none` when `ValidateToken` panics. -/
def OptionalAuth (tm : TokenManager) (tokenOf : String → TokenString) (nowParse nowCheck : Time)
    (authHeader : String) (c : Context) : Option Context :=
  if authHeader = "" then some c.Next
  else
    match stringsSplit authHeader ' ' with
    | [p0, token] =>
      if p0 ≠ "Bearer" then some c.Next
      else
        match ValidateToken tm nowParse nowCheck (tokenOf token) with
        | none => none
        | some { claims := _, err := some _ } => some c.Next
        | some { claims := none, err := none } => none
        | some { claims := some claims, err := none } =>
          if claims.Type_ = "access" then
            some ((((c.Set "user_id" (CtxValue.uuid claims.UserID)).Set "user_phone"
              (CtxValue.str claims.Phone)).Set "user_role" (CtxValue.str claims.Role)).Set
              "token_claims" (CtxValue.claims claims)).Next
          else some c.Next
    | _ => some c.Next

/-- The condition under which a header carries accepted access claims: it
splits on single spaces into `Bearer` and a token, `ValidateToken` returns
the claims for that token with no error, and their `Type` is "access". -/
def bearerAccepted (tm : TokenManager) (tokenOf : String → TokenString) (nowParse nowCheck : Time)
    (authHeader : String) (claims : TokenClaims) : Prop :=
  authHeader ≠ "" ∧
  ∃ token : String, stringsSplit authHeader ' ' = ["Bearer", token] ∧
    ValidateToken tm nowParse nowCheck (tokenOf token) =
      some { claims := some claims, err := none } ∧
    claims.Type_ = "access"

/-- Go `c.GetString(key)`: the value under the key when it is a string, the
empty string when the key is absent or holds a value of another type. -/
def Context.GetString (c : Context) (key : String) : String :=
  match c.Get key with
  | some (CtxValue.str s) => s
  | _ => ""

/-- Go `userID := c.GetString("user_id")`, the first statement of the
handlers of `/tickets` and `/payments` in `main`; the value is the argument
of their `user_id = ?` filter. -/
def protectedUserID (c : Context) : String := c.GetString "user_id"

/-- What one call of `SendSMSCode` meets outside the handler: the outcome
of `c.ShouldBindJSON` (the phone of the request), the clock readings of
`SendVerificationCode` and the random source. -/
structure SendEnv where
  bound : Except String String
  nowCheck : Time
  nowExpiry : Time
  nowCreated : Time
  rng : RandReader

/-- What `SendSMSCode` leaves behind. -/
structure SendSMSResult where
  h : AuthHandlers
  rng : RandReader
  c : Context

/-- Go `SendSMSCode`. The result is `none` if the handler panics, which
takes a nil record returned with a nil error. -/
def SendSMSCode (h : AuthHandlers) (env : SendEnv) (c : Context) : Option SendSMSResult :=
  match env.bound with
  | .error details =>
    some
      { h := h, rng := env.rng,
        c := c.JSON StatusBadRequest
          (JSON.obj [("success", JSON.bool false),
            ("error", JSON.obj
              [("code", JSON.str "INVALID_REQUEST"),
                ("message", JSON.str "Invalid request format"),
                ("details", JSON.str details)])]) }
  | .ok phone =>
    let sent := SendVerificationCode h.smsService env.nowCheck env.nowExpiry env.nowCreated
      env.rng phone
    let h1 : AuthHandlers := { h with smsService := sent.svc }
    match sent.err with
    | some err =>
      some
        { h := h1, rng := sent.rng,
          c := c.JSON StatusBadRequest (errorBody "SMS_SEND_FAILED" err) }
    | none =>
      match sent.code with
      | none => none
      | some smsCode =>
        some
          { h := h1, rng := sent.rng,
            c := c.JSON StatusOK
              (JSON.obj [("success", JSON.bool true),
                ("data", JSON.obj
                  [("phone", JSON.str smsCode.Phone),
                    ("expires_at", JSON.time smsCode.ExpiresAt),
                    ("remaining_attempts",
                      JSON.int (GetRemainingAttempts h1.smsService phone))]),
                ("message", JSON.str "SMS verification code sent successfully")]) }

/-- The body of the answer of `SendSMSCode` to a request that was served. -/
def sendSMSCodeBody (phone : String) (expiresAt : Time) (remaining : GoInt) : JSON :=
  JSON.obj [("success", JSON.bool true),
    ("data", JSON.obj
      [("phone", JSON.str phone),
        ("expires_at", JSON.time expiresAt),
        ("remaining_attempts", JSON.int remaining)]),
    ("message", JSON.str "SMS verification code sent successfully")]

/-- The user `VerifyAndLogin` hands to `db.Create` when the lookup finds no
row: the value of the variable `user` after the date of birth is parsed. -/
def registrationUser (req : LoginRequest) (parseDate : String → Option Time) : User :=
  let email : Option String := if req.Email ≠ "" then some req.Email else none
  let user : User :=
    { ID := uuidNil, CreatedAt := zeroTime, UpdatedAt := zeroTime, DeletedAt := none,
      PhoneNumber := req.Phone, Email := email, FirstName := req.FirstName,
      LastName := req.LastName, DateOfBirth := none, Status := UserStatusActive,
      Role := UserRoleCustomer, IsPhoneVerified := true,
      LoyaltyTier := LoyaltyTierBeginner, LoyaltyPoints := 0, LastLoginAt := none }
  if req.DateOfBirth ≠ "" then
    match parseDate req.DateOfBirth with
    | some dob => { user with DateOfBirth := some dob }
    | none => user
  else user

/-- The body of the answer of `VerifyAndLogin` to a login that went
through. -/
def loginBody (user : User) (accessToken refreshToken : TokenString) : JSON :=
  JSON.obj [("success", JSON.bool true),
    ("data", JSON.obj
      [("user", JSON.obj
        [("id", JSON.uuid user.ID),
          ("phone", JSON.str user.PhoneNumber),
          ("first_name", JSON.str user.FirstName),
          ("last_name", JSON.str user.LastName),
          ("email", match user.Email with
            | some e => JSON.str e
            | none => JSON.null),
          ("role", JSON.str user.Role),
          ("loyalty_tier", JSON.str user.LoyaltyTier),
          ("is_verified", JSON.bool user.IsPhoneVerified),
          ("created_at", JSON.time user.CreatedAt)]),
        ("tokens", JSON.obj
          [("access_token", JSON.token accessToken),
            ("refresh_token", JSON.token refreshToken),
            ("token_type", JSON.str "Bearer")])]),
    ("message", JSON.str "Authentication successful")]

/-! ## Calls of `VerifyCode` that overlap

`SMSService` has no lock and gin serves every request in a goroutine of its
own, so the statements of two calls can alternate. Here a call is cut into
its statements, each an atomic step on the store that the goroutines share;
the map holds pointers and the records live in a heap, as in the source. -/

/-- The service as the goroutines see it: `codes` maps a phone to the
address of its record, `heap` holds the records. -/
structure SharedStore where
  codes : String → Option Nat
  heap : Nat → SMSCode
  codeTTL : Duration
  codeLen : GoInt
  maxAttempts : GoInt

/-- The service a shared store stands for. -/
def SharedStore.toService (sh : SharedStore) : SMSService :=
  { codes := fun phone => (sh.codes phone).map sh.heap
    codeTTL := sh.codeTTL
    codeLen := sh.codeLen
    maxAttempts := sh.maxAttempts }

/-- No two keys of the map hold the same pointer: every record is allocated
by `SendVerificationCode` for one key. -/
def SharedStore.noAlias (sh : SharedStore) : Prop :=
  ∀ (p q : String) (a : Nat), sh.codes p = some a → sh.codes q = some a → p = q

/-- Go `delete(s.codes, phone)` on the shared store. -/
def SharedStore.delete (sh : SharedStore) (phone : String) : SharedStore :=
  { sh with codes := fun q => if q = phone then none else sh.codes q }

/-- Go `smsCode.Attempts++` through the pointer `a`. -/
def SharedStore.increment (sh : SharedStore) (a : Nat) : SharedStore :=
  { sh with
    heap := fun b =>
      if b = a then { sh.heap a with Attempts := (sh.heap a).Attempts + 1 } else sh.heap b }

/-- Where a call of `VerifyCode` stands: the statement it runs next, with
the pointer `smsCode` it holds, or the values it has returned. -/
inductive VerifyPC where
  | atLookup
  | atExists (smsCode : Option Nat)
  | atExpiry (smsCode : Nat)
  | atExpiredDelete
  | atIncrement (smsCode : Nat)
  | atLimit (smsCode : Nat)
  | atExceededDelete
  | atCompare (smsCode : Nat)
  | atMatchedDelete
  | returned (ok : Bool) (err : Option String)
deriving DecidableEq, Repr

/-- A call of `VerifyCode` under way: its arguments, its reading of the
clock and where it stands. -/
structure VerifyCall where
  now : Time
  phone : String
  inputCode : String
  pc : VerifyPC
deriving DecidableEq, Repr

/-- A call that has not run a statement yet. -/
def VerifyCall.start (now : Time) (phone inputCode : String) : VerifyCall :=
  { now := now, phone := phone, inputCode := inputCode, pc := VerifyPC.atLookup }

/-- One statement of `VerifyCode`:
`atLookup` is `smsCode, exists := s.codes[phone]`;
`atExists` is `if !exists`;
`atExpiry` is `if time.Now().After(smsCode.ExpiresAt)`;
`atExpiredDelete`, `atExceededDelete` and `atMatchedDelete` are the three
`delete(s.codes, phone)` with the `return` that follows each;
`atIncrement` is `smsCode.Attempts++`;
`atLimit` is `if smsCode.Attempts > s.maxAttempts`;
`atCompare` is `if smsCode.Code != inputCode`. -/
def VerifyCall.step (sh : SharedStore) (call : VerifyCall) : SharedStore × VerifyCall :=
  match call.pc with
  | .atLookup => (sh, { call with pc := .atExists (sh.codes call.phone) })
  | .atExists none => (sh, { call with pc := .returned false (some errNoCodeFound) })
  | .atExists (some a) => (sh, { call with pc := .atExpiry a })
  | .atExpiry a =>
    if call.now.After (sh.heap a).ExpiresAt then (sh, { call with pc := .atExpiredDelete })
    else (sh, { call with pc := .atIncrement a })
  | .atExpiredDelete =>
    (sh.delete call.phone, { call with pc := .returned false (some errCodeExpired) })
  | .atIncrement a => (sh.increment a, { call with pc := .atLimit a })
  | .atLimit a =>
    if (sh.heap a).Attempts > sh.maxAttempts then (sh, { call with pc := .atExceededDelete })
    else (sh, { call with pc := .atCompare a })
  | .atExceededDelete =>
    (sh.delete call.phone, { call with pc := .returned false (some errAttemptsExceeded) })
  | .atCompare a =>
    if (sh.heap a).Code ≠ call.inputCode then
      (sh, { call with pc := .returned false (some errCodeMismatch) })
    else (sh, { call with pc := .atMatchedDelete })
  | .atMatchedDelete => (sh.delete call.phone, { call with pc := .returned true none })
  | .returned ok err => (sh, { call with pc := .returned ok err })

/-- Two calls under way on one store. -/
structure TwoCalls where
  sh : SharedStore
  a : VerifyCall
  b : VerifyCall

/-- One statement of the first call (`first = true`) or of the second. -/
def TwoCalls.step (t : TwoCalls) (first : Bool) : TwoCalls :=
  if first then
    { t with sh := (t.a.step t.sh).1, a := (t.a.step t.sh).2 }
  else
    { t with sh := (t.b.step t.sh).1, b := (t.b.step t.sh).2 }

/-- The two calls after a schedule, which tells whose statement runs
next. -/
def TwoCalls.run (t : TwoCalls) (schedule : List Bool) : TwoCalls :=
  schedule.foldl TwoCalls.step t

/-- The number of statements after which every call has returned. -/
def verifySteps : Nat := 7

/-- The schedule that runs the first call to its return and then the
second. -/
def serialSchedule : List Bool :=
  List.replicate verifySteps true ++ List.replicate verifySteps false

/-- A schedule in which both calls read the map before either deletes the
record. -/
def overlapSchedule : List Bool :=
  [true, false] ++ List.replicate verifySteps true ++ List.replicate verifySteps false

/-- A shared store in the configuration of `NewSMSService` whose map holds
`exampleCode attempts` at address 0 under its phone. -/
def exampleShared (attempts : GoInt) : SharedStore :=
  { codes := fun phone => if phone = "+996700123456" then some 0 else none
    heap := fun _ =>
      { Phone := "+996700123456", Code := "123456", ExpiresAt := 1000, Attempts := attempts,
        CreatedAt := 0 }
    codeTTL := 5 * Minute
    codeLen := 6
    maxAttempts := 3 }

/-- Two calls of `VerifyCode` with the right code for the example record,
both at instant 10, neither started. -/
def exampleTwoCalls : TwoCalls :=
  { sh := exampleShared 0
    a := VerifyCall.start 10 "+996700123456" "123456"
    b := VerifyCall.start 10 "+996700123456" "123456" }

/-- A call run by itself for `verifySteps` statements, no statement of
another call in between. -/
def VerifyCall.runAlone (sh : SharedStore) (call : VerifyCall) : SharedStore × VerifyCall :=
  (fun x : SharedStore × VerifyCall => x.2.step x.1)^[verifySteps] (sh, call)

/-! ## Example states used by the instances below -/

/-- A record for the phone `+996700123456` with code `123456`, expiring at
instant 1000, with the given number of attempts. -/
def exampleCode (attempts : GoInt) : SMSCode :=
  { Phone := "+996700123456", Code := "123456", ExpiresAt := 1000, Attempts := attempts,
    CreatedAt := 0 }

/-- A service in the configuration of `NewSMSService` holding `exampleCode`. -/
def exampleService (attempts : GoInt) : SMSService :=
  { NewSMSService with codes := CodeMap.empty.set "+996700123456" (exampleCode attempts) }

/-- A reader whose draws are 3, 0, 7, 4, 1, 8, 5, 2, 9, 6, ... -/
def exampleReader : RandReader := fun i => some ⟨(i * 7 + 3) % 10, Nat.mod_lt _ (by decide)⟩

/-- A call of `SendSMSCode` for the phone `+996700123456` at instant 0, used
in the instances below. -/
def exampleSendEnv : SendEnv :=
  { bound := .ok "+996700123456", nowCheck := 0, nowExpiry := 0, nowCreated := 0,
    rng := exampleReader }

/-! ## Arithmetic of `int` -/

theorem wrapInt_of_range (x : Int) (h1 : -9223372036854775808 ≤ x)
    (h2 : x ≤ 9223372036854775807) : wrapInt x = x := by
  unfold wrapInt; omega

theorem GoInt.toInt_injective : Function.Injective GoInt.toInt := by
  intro a b h
  cases a; cases b; simp only at h; subst h; rfl

theorem GoInt.lt_iff (a b : GoInt) : a < b ↔ a.toInt < b.toInt := Iff.rfl

theorem GoInt.le_iff (a b : GoInt) : a ≤ b ↔ a.toInt ≤ b.toInt := Iff.rfl

theorem GoInt.eq_iff (a b : GoInt) : a = b ↔ a.toInt = b.toInt :=
  GoInt.toInt_injective.eq_iff.symm

theorem GoInt.toInt_add (a b : GoInt) : (a + b).toInt = wrapInt (a.toInt + b.toInt) := rfl

theorem GoInt.toInt_sub (a b : GoInt) : (a - b).toInt = wrapInt (a.toInt - b.toInt) := rfl

theorem GoInt.toInt_zero : (0 : GoInt).toInt = 0 := by decide

theorem GoInt.toInt_one : (1 : GoInt).toInt = 1 := by decide

theorem GoInt.toInt_two : (2 : GoInt).toInt = 2 := by decide

theorem GoInt.toInt_three : (3 : GoInt).toInt = 3 := by decide

theorem MaxInt64_toInt : MaxInt64.toInt = 9223372036854775807 := by decide

theorem MinInt64_toInt : MinInt64.toInt = -9223372036854775808 := by decide

/-- Below the largest `int`, `x + 1` is the next integer. -/
theorem GoInt.toInt_succ (a : GoInt) (h : a ≠ MaxInt64) : (a + 1).toInt = a.toInt + 1 := by
  have h1 := a.lo
  have h2 := a.hi
  have h3 : a.toInt ≠ 9223372036854775807 := fun e =>
    h (GoInt.toInt_injective (e.trans MaxInt64_toInt.symm))
  rw [GoInt.toInt_add, GoInt.toInt_one]
  exact wrapInt_of_range _ (by omega) (by omega)

/-- At the largest `int`, `x + 1` is the smallest. -/
theorem MaxInt64_succ : MaxInt64 + 1 = MinInt64 := by decide

theorem GoInt.ne_MaxInt64_of_lt (a m : GoInt) (h : a < m) : a ≠ MaxInt64 := by
  intro e
  have h1 := m.hi
  rw [GoInt.lt_iff, e, MaxInt64_toInt] at h
  omega

theorem GoInt.succ_le_of_lt (a m : GoInt) (h : a < m) : a + 1 ≤ m := by
  rw [GoInt.le_iff, GoInt.toInt_succ a (GoInt.ne_MaxInt64_of_lt a m h)]
  rw [GoInt.lt_iff] at h
  omega

theorem GoInt.not_lt_succ_of_lt (a m : GoInt) (h : a < m) : ¬ m < a + 1 :=
  not_lt.mpr (GoInt.succ_le_of_lt a m h)

theorem GoInt.lt_succ_of_le (a m : GoInt) (h : m ≤ a) (hmax : a ≠ MaxInt64) : m < a + 1 := by
  rw [GoInt.lt_iff, GoInt.toInt_succ a hmax]
  rw [GoInt.le_iff] at h
  omega

theorem GoInt.lt_succ_iff (a m : GoInt) (hmax : a ≠ MaxInt64) : m < a + 1 ↔ m ≤ a := by
  rw [GoInt.lt_iff, GoInt.toInt_succ a hmax, GoInt.le_iff]
  omega

/-- Every `int` is at least the successor of the largest. -/
theorem GoInt.not_lt_MaxInt64_succ (m : GoInt) : ¬ m < MaxInt64 + 1 := by
  have h1 := m.lo
  rw [MaxInt64_succ, GoInt.lt_iff, MinInt64_toInt]
  omega

/-! ## Map lemmas -/

theorem CodeMap.set_self (m : CodeMap) (k : String) (v : SMSCode) : m.set k v k = some v := by
  simp [CodeMap.set]

theorem CodeMap.set_other (m : CodeMap) (k q : String) (v : SMSCode) (h : q ≠ k) :
    m.set k v q = m q := by
  simp [CodeMap.set, h]

theorem CodeMap.delete_self (m : CodeMap) (k : String) : m.delete k k = none := by
  simp [CodeMap.delete]

theorem CodeMap.delete_other (m : CodeMap) (k q : String) (h : q ≠ k) :
    m.delete k q = m q := by
  simp [CodeMap.delete, h]

theorem CodeMap.delete_set (m : CodeMap) (k : String) (v : SMSCode) :
    (m.set k v).delete k = m.delete k := by
  funext q
  by_cases h : q = k <;> simp [CodeMap.delete, CodeMap.set, h]

theorem CodeMap.set_delete (m : CodeMap) (k : String) (v : SMSCode) :
    (m.delete k).set k v = m.set k v := by
  funext q
  by_cases h : q = k <;> simp [CodeMap.delete, CodeMap.set, h]

/-! ## The branches of `VerifyCode` -/

theorem VerifyCode_none (s : SMSService) (now : Time) (phone inputCode : String)
    (h : s.codes phone = none) :
    VerifyCode s now phone inputCode = { svc := s, ok := false, err := some errNoCodeFound } := by
  simp [VerifyCode, h]

theorem VerifyCode_expired (s : SMSService) (now : Time) (phone inputCode : String) (r : SMSCode)
    (h : s.codes phone = some r) (hexp : r.ExpiresAt < now) :
    VerifyCode s now phone inputCode =
      { svc := { s with codes := s.codes.delete phone }, ok := false,
        err := some errCodeExpired } := by
  simp [VerifyCode, h, Time.After, hexp]

theorem VerifyCode_exceeded (s : SMSService) (now : Time) (phone inputCode : String) (r : SMSCode)
    (h : s.codes phone = some r) (hexp : ¬ r.ExpiresAt < now) (hatt : s.maxAttempts ≤ r.Attempts)
    (hmax : r.Attempts ≠ MaxInt64) :
    VerifyCode s now phone inputCode =
      { svc := { s with codes := s.codes.delete phone }, ok := false,
        err := some errAttemptsExceeded } := by
  have h1 : s.maxAttempts < r.Attempts + 1 := GoInt.lt_succ_of_le _ _ hatt hmax
  simp [VerifyCode, h, Time.After, hexp, h1, CodeMap.delete_set]

theorem VerifyCode_over_limit (s : SMSService) (now : Time) (phone inputCode : String)
    (r : SMSCode) (h : s.codes phone = some r) (hexp : ¬ r.ExpiresAt < now)
    (hlim : s.maxAttempts < r.Attempts + 1) :
    VerifyCode s now phone inputCode =
      { svc := { s with codes := s.codes.delete phone }, ok := false,
        err := some errAttemptsExceeded } := by
  simp [VerifyCode, h, Time.After, hexp, hlim, CodeMap.delete_set]

theorem VerifyCode_within_mismatch (s : SMSService) (now : Time) (phone inputCode : String)
    (r : SMSCode) (h : s.codes phone = some r) (hexp : ¬ r.ExpiresAt < now)
    (hlim : ¬ s.maxAttempts < r.Attempts + 1) (hne : r.Code ≠ inputCode) :
    VerifyCode s now phone inputCode =
      { svc := { s with codes := s.codes.set phone { r with Attempts := r.Attempts + 1 } },
        ok := false, err := some errCodeMismatch } := by
  simp [VerifyCode, h, Time.After, hexp, hlim, hne]

theorem VerifyCode_within_match (s : SMSService) (now : Time) (phone inputCode : String)
    (r : SMSCode) (h : s.codes phone = some r) (hexp : ¬ r.ExpiresAt < now)
    (hlim : ¬ s.maxAttempts < r.Attempts + 1) (heq : r.Code = inputCode) :
    VerifyCode s now phone inputCode =
      { svc := { s with codes := s.codes.delete phone }, ok := true, err := none } := by
  simp [VerifyCode, h, Time.After, hexp, hlim, heq, CodeMap.delete_set]

theorem VerifyCode_wrapped_mismatch (s : SMSService) (now : Time) (phone inputCode : String)
    (r : SMSCode) (h : s.codes phone = some r) (hexp : ¬ r.ExpiresAt < now)
    (hmax : r.Attempts = MaxInt64) (hne : r.Code ≠ inputCode) :
    VerifyCode s now phone inputCode =
      { svc := { s with codes := s.codes.set phone { r with Attempts := MinInt64 } },
        ok := false, err := some errCodeMismatch } := by
  have h1 : ¬ s.maxAttempts < r.Attempts + 1 := by
    rw [hmax]; exact GoInt.not_lt_MaxInt64_succ _
  have h2 : r.Attempts + 1 = MinInt64 := by rw [hmax]; exact MaxInt64_succ
  rw [h2] at h1
  simp [VerifyCode, h, Time.After, hexp, h1, hne, h2]

theorem VerifyCode_wrapped_match (s : SMSService) (now : Time) (phone inputCode : String)
    (r : SMSCode) (h : s.codes phone = some r) (hexp : ¬ r.ExpiresAt < now)
    (hmax : r.Attempts = MaxInt64) (heq : r.Code = inputCode) :
    VerifyCode s now phone inputCode =
      { svc := { s with codes := s.codes.delete phone }, ok := true, err := none } := by
  have h1 : ¬ s.maxAttempts < r.Attempts + 1 := by
    rw [hmax]; exact GoInt.not_lt_MaxInt64_succ _
  simp [VerifyCode, h, Time.After, hexp, h1, heq, CodeMap.delete_set]

theorem VerifyCode_mismatch (s : SMSService) (now : Time) (phone inputCode : String) (r : SMSCode)
    (h : s.codes phone = some r) (hexp : ¬ r.ExpiresAt < now) (hatt : r.Attempts < s.maxAttempts)
    (hne : r.Code ≠ inputCode) :
    VerifyCode s now phone inputCode =
      { svc := { s with codes := s.codes.set phone { r with Attempts := r.Attempts + 1 } },
        ok := false, err := some errCodeMismatch } := by
  have h1 : ¬ s.maxAttempts < r.Attempts + 1 := GoInt.not_lt_succ_of_lt _ _ hatt
  simp [VerifyCode, h, Time.After, hexp, h1, hne]

theorem VerifyCode_match (s : SMSService) (now : Time) (phone inputCode : String) (r : SMSCode)
    (h : s.codes phone = some r) (hexp : ¬ r.ExpiresAt < now) (hatt : r.Attempts < s.maxAttempts)
    (heq : r.Code = inputCode) :
    VerifyCode s now phone inputCode =
      { svc := { s with codes := s.codes.delete phone }, ok := true, err := none } := by
  have h1 : ¬ s.maxAttempts < r.Attempts + 1 := GoInt.not_lt_succ_of_lt _ _ hatt
  simp [VerifyCode, h, Time.After, hexp, h1, heq, CodeMap.delete_set]

/-! ## The branches of `SendVerificationCode` -/

theorem SendVerificationCode_invalid (s : SMSService) (nowCheck nowExpiry nowCreated : Time)
    (rng : RandReader) (phone : String) (hv : ValidateKyrgyzstanPhone s phone = false) :
    SendVerificationCode s nowCheck nowExpiry nowCreated rng phone =
      { svc := s, rng := rng, code := none, err := some errInvalidPhone } := by
  simp [SendVerificationCode, hv]

theorem SendVerificationCode_reuse (s : SMSService) (nowCheck nowExpiry nowCreated : Time)
    (rng : RandReader) (phone : String) (r : SMSCode)
    (hv : ValidateKyrgyzstanPhone s phone = true) (h : s.codes phone = some r)
    (ht : nowCheck < r.ExpiresAt) (ha : r.Attempts < s.maxAttempts) :
    SendVerificationCode s nowCheck nowExpiry nowCreated rng phone =
      { svc := s, rng := rng, code := some r, err := none } := by
  simp [SendVerificationCode, hv, h, Time.Before, ht, ha]

theorem SendVerificationCode_fresh (s : SMSService) (nowCheck nowExpiry nowCreated : Time)
    (rng : RandReader) (phone : String)
    (hv : ValidateKyrgyzstanPhone s phone = true)
    (h : ∀ r : SMSCode, s.codes phone = some r →
      ¬ (nowCheck < r.ExpiresAt ∧ r.Attempts < s.maxAttempts)) :
    SendVerificationCode s nowCheck nowExpiry nowCreated rng phone =
      { svc :=
          { s with
            codes := s.codes.set phone
              { Phone := phone, Code := (GenerateCode s rng).1,
                ExpiresAt := nowExpiry + s.codeTTL, Attempts := 0,
                CreatedAt := nowCreated } },
        rng := (GenerateCode s rng).2,
        code := some { Phone := phone, Code := (GenerateCode s rng).1,
                       ExpiresAt := nowExpiry + s.codeTTL, Attempts := 0,
                       CreatedAt := nowCreated },
        err := none } := by
  cases hc : s.codes phone with
  | none => simp [SendVerificationCode, hv, hc, Time.Add]
  | some r =>
    have hr := h r hc
    have hcond : (nowCheck.Before r.ExpiresAt && decide (r.Attempts < s.maxAttempts)) = false := by
      simp only [Time.Before, Bool.and_eq_false_iff, decide_eq_false_iff_not]
      by_cases ht : nowCheck < r.ExpiresAt
      · exact Or.inr (fun ha => hr ⟨ht, ha⟩)
      · exact Or.inl ht
    simp [SendVerificationCode, hv, hc, hcond, Time.Add, CodeMap.set_delete]

theorem SendVerificationCode_stored (s : SMSService) (nowCheck nowExpiry nowCreated : Time)
    (rng : RandReader) (phone : String) (c : SMSCode)
    (h : (SendVerificationCode s nowCheck nowExpiry nowCreated rng phone).code = some c) :
    (SendVerificationCode s nowCheck nowExpiry nowCreated rng phone).svc.codes phone = some c := by
  cases hv : ValidateKyrgyzstanPhone s phone with
  | false => simp [SendVerificationCode_invalid s nowCheck nowExpiry nowCreated rng phone hv] at h
  | true =>
    by_cases hr : ∃ r : SMSCode, s.codes phone = some r ∧
        nowCheck < r.ExpiresAt ∧ r.Attempts < s.maxAttempts
    · obtain ⟨r, h1, h2, h3⟩ := hr
      rw [SendVerificationCode_reuse s nowCheck nowExpiry nowCreated rng phone r hv h1 h2 h3] at h ⊢
      replace h : r = c := by simpa using h
      rw [← h]; exact h1
    · have hf : ∀ r : SMSCode, s.codes phone = some r →
          ¬ (nowCheck < r.ExpiresAt ∧ r.Attempts < s.maxAttempts) :=
        fun r h1 h2 => hr ⟨r, h1, h2⟩
      rw [SendVerificationCode_fresh s nowCheck nowExpiry nowCreated rng phone hv hf] at h ⊢
      have h2 := Option.some.inj h
      rw [← h2]; exact CodeMap.set_self _ _ _

theorem SendVerificationCode_config (s : SMSService) (nowCheck nowExpiry nowCreated : Time)
    (rng : RandReader) (phone : String) :
    (SendVerificationCode s nowCheck nowExpiry nowCreated rng phone).svc.maxAttempts =
      s.maxAttempts := by
  unfold SendVerificationCode
  split
  · rfl
  · split
    · split <;> rfl
    · rfl

/-! ## Wrong candidates in a row -/

theorem VerifyCode_three_wrong (s : SMSService) (phone : String) (r : SMSCode)
    (h : s.codes phone = some r) (h0 : r.Attempts = 0) (hmax : s.maxAttempts = 3)
    (t1 t2 t3 t4 : Time) (w1 w2 w3 c4 : String)
    (ht1 : ¬ r.ExpiresAt < t1) (ht2 : ¬ r.ExpiresAt < t2) (ht3 : ¬ r.ExpiresAt < t3)
    (ht4 : ¬ r.ExpiresAt < t4)
    (hw1 : r.Code ≠ w1) (hw2 : r.Code ≠ w2) (hw3 : r.Code ≠ w3) :
    VerifyCode s t1 phone w1 =
      { svc := { s with codes := s.codes.set phone { r with Attempts := 1 } },
        ok := false, err := some errCodeMismatch } ∧
    VerifyCode (VerifyCode s t1 phone w1).svc t2 phone w2 =
      { svc := { s with codes := s.codes.set phone { r with Attempts := 2 } },
        ok := false, err := some errCodeMismatch } ∧
    VerifyCode (VerifyCode (VerifyCode s t1 phone w1).svc t2 phone w2).svc t3 phone w3 =
      { svc := { s with codes := s.codes.set phone { r with Attempts := 3 } },
        ok := false, err := some errCodeMismatch } ∧
    VerifyCode (VerifyCode (VerifyCode (VerifyCode s t1 phone w1).svc t2 phone w2).svc
        t3 phone w3).svc t4 phone c4 =
      { svc := { s with codes := s.codes.delete phone },
        ok := false, err := some errAttemptsExceeded } := by
  have hset : ∀ (a b : SMSCode), (s.codes.set phone a).set phone b = s.codes.set phone b := by
    intro a b
    funext q
    by_cases hq : q = phone <;> simp [CodeMap.set, hq]
  have hdel : ∀ a : SMSCode, (s.codes.set phone a).delete phone = s.codes.delete phone :=
    fun a => CodeMap.delete_set s.codes phone a
  have e1 := VerifyCode_mismatch s t1 phone w1 r h ht1 (by rw [h0, hmax]; decide) hw1
  have e2 := VerifyCode_mismatch
    { s with codes := s.codes.set phone { r with Attempts := r.Attempts + 1 } } t2 phone w2
    { r with Attempts := r.Attempts + 1 } (CodeMap.set_self _ _ _) ht2
    (by show r.Attempts + 1 < s.maxAttempts; rw [h0, hmax]; decide) hw2
  have e3 := VerifyCode_mismatch
    { s with codes := s.codes.set phone { r with Attempts := r.Attempts + 1 + 1 } } t3 phone w3
    { r with Attempts := r.Attempts + 1 + 1 } (CodeMap.set_self _ _ _) ht3
    (by show r.Attempts + 1 + 1 < s.maxAttempts; rw [h0, hmax]; decide) hw3
  have e4 := VerifyCode_exceeded
    { s with codes := s.codes.set phone { r with Attempts := r.Attempts + 1 + 1 + 1 } } t4 phone c4
    { r with Attempts := r.Attempts + 1 + 1 + 1 } (CodeMap.set_self _ _ _) ht4
    (by show s.maxAttempts ≤ r.Attempts + 1 + 1 + 1; rw [h0, hmax]; decide)
    (by show r.Attempts + 1 + 1 + 1 ≠ MaxInt64; rw [h0]; decide)
  simp only [hset, hdel] at e2 e3 e4
  rw [e1, e2, e3, e4]
  have a1 : (0 : GoInt) + 1 = 1 := by decide
  have a2 : (1 : GoInt) + 1 = 2 := by decide
  have a3 : (2 : GoInt) + 1 = 3 := by decide
  simp [h0, a1, a2, a3]

/-! ## Matching the phone patterns -/

theorem matchClasses_nil (cs : List Char) : matchClasses [] cs = true ↔ cs = [] := by
  cases cs <;> simp [matchClasses]

theorem matchClasses_cons (k : CharClass) (ks : List CharClass) (cs : List Char) :
    matchClasses (k :: ks) cs = true ↔
      ∃ c rest, cs = c :: rest ∧ k.matches c = true ∧ matchClasses ks rest = true := by
  cases cs with
  | nil => simp [matchClasses]
  | cons c rest =>
    simp only [matchClasses, Bool.and_eq_true, List.cons.injEq]
    constructor
    · rintro ⟨h1, h2⟩
      exact ⟨c, rest, ⟨rfl, rfl⟩, h1, h2⟩
    · rintro ⟨c2, rest2, ⟨rfl, rfl⟩, h1, h2⟩
      exact ⟨h1, h2⟩

theorem digitClass_matches (c : Char) : digitClass.matches c = true ↔ '0' ≤ c ∧ c ≤ '9' := by
  simp [CharClass.matches, digitClass]

theorem lit_matches (a c : Char) : CharClass.matches [(a, a)] c = true ↔ c = a := by
  simp only [CharClass.matches, List.any_cons, List.any_nil, Bool.or_false, Bool.and_eq_true,
    decide_eq_true_eq]
  constructor
  · rintro ⟨h1, h2⟩
    exact le_antisymm h2 h1
  · rintro rfl
    exact ⟨le_refl _, le_refl _⟩

theorem matchClasses_digits (n : Nat) (cs : List Char) :
    matchClasses (List.replicate n digitClass) cs = true ↔
      cs.length = n ∧ ∀ c ∈ cs, '0' ≤ c ∧ c ≤ '9' := by
  induction n generalizing cs with
  | zero =>
    rw [List.replicate_zero, matchClasses_nil]
    constructor
    · rintro rfl
      simp
    · rintro ⟨h, _⟩
      exact List.length_eq_zero.mp h
  | succ n ih =>
    rw [List.replicate_succ, matchClasses_cons]
    constructor
    · rintro ⟨c, rest, rfl, hc, hrest⟩
      have := (ih rest).mp hrest
      refine ⟨by simp [this.1], ?_⟩
      intro d hd
      rcases List.mem_cons.mp hd with rfl | hd
      · exact (digitClass_matches _).mp hc
      · exact this.2 d hd
    · rintro ⟨hlen, hall⟩
      cases cs with
      | nil => simp at hlen
      | cons c rest =>
        refine ⟨c, rest, rfl, (digitClass_matches c).mpr (hall c (List.mem_cons_self _ _)), ?_⟩
        refine (ih rest).mpr ⟨by simpa using hlen, ?_⟩
        intro d hd
        exact hall d (List.mem_cons_of_mem _ hd)

theorem patternGeneral_expand : patternGeneral.expand =
    [('+', '+')] :: [('9', '9')] :: [('9', '9')] :: [('6', '6')] :: List.replicate 9 digitClass :=
  rfl

theorem patternMobile_expand : patternMobile.expand =
    [('+', '+')] :: [('9', '9')] :: [('9', '9')] :: [('6', '6')] :: [('5', '5'), ('7', '7')] ::
      List.replicate 8 digitClass :=
  rfl

theorem patternBishkek_expand : patternBishkek.expand =
    [('+', '+')] :: [('9', '9')] :: [('9', '9')] :: [('6', '6')] :: [('2', '2')] ::
      List.replicate 8 digitClass :=
  rfl

theorem MatchString_general (phone : String) :
    MatchString patternGeneral phone = true ↔
      ∃ ds : List Char, ds.length = 9 ∧ (∀ c ∈ ds, '0' ≤ c ∧ c ≤ '9') ∧
        phone = String.mk ('+' :: '9' :: '9' :: '6' :: ds) := by
  unfold MatchString
  rw [patternGeneral_expand]
  simp only [matchClasses_cons, lit_matches, matchClasses_digits]
  constructor
  · rintro ⟨c1, r1, h1, rfl, c2, r2, rfl, rfl, c3, r3, rfl, rfl, c4, r4, rfl, rfl, hlen, hall⟩
    exact ⟨r4, hlen, hall, by rw [← h1]⟩
  · rintro ⟨ds, hlen, hall, rfl⟩
    exact ⟨_, _, rfl, rfl, _, _, rfl, rfl, _, _, rfl, rfl, _, _, rfl, rfl, hlen, hall⟩

theorem fiveSeven_digit (c : Char) (h : CharClass.matches [('5', '5'), ('7', '7')] c = true) :
    digitClass.matches c = true := by
  have h2 : c = '5' ∨ c = '7' := by
    simp only [CharClass.matches, List.any_cons, List.any_nil, Bool.or_false, Bool.or_eq_true,
      Bool.and_eq_true, decide_eq_true_eq] at h
    rcases h with ⟨h1, h2⟩ | ⟨h1, h2⟩
    · exact Or.inl (le_antisymm h2 h1)
    · exact Or.inr (le_antisymm h2 h1)
  rcases h2 with rfl | rfl <;> decide

theorem two_digit (c : Char) (h : CharClass.matches [('2', '2')] c = true) :
    digitClass.matches c = true := by
  rw [(lit_matches '2' c).mp h]
  decide

theorem MatchString_general_of_fifth (k : CharClass) (phone : String)
    (hk : ∀ c, k.matches c = true → digitClass.matches c = true)
    (h : matchClasses ([('+', '+')] :: [('9', '9')] :: [('9', '9')] :: [('6', '6')] :: k ::
      List.replicate 8 digitClass) phone.data = true) :
    MatchString patternGeneral phone = true := by
  unfold MatchString
  rw [patternGeneral_expand]
  have e : List.replicate 9 digitClass = digitClass :: List.replicate 8 digitClass := rfl
  rw [e]
  simp only [matchClasses_cons] at h ⊢
  obtain ⟨c1, r1, h1, m1, c2, r2, h2, m2, c3, r3, h3, m3, c4, r4, h4, m4, c5, r5, h5, m5, m6⟩ := h
  exact ⟨c1, r1, h1, m1, c2, r2, h2, m2, c3, r3, h3, m3, c4, r4, h4, m4, c5, r5, h5, hk c5 m5, m6⟩

theorem Validate_eq_general (s : SMSService) (phone : String) :
    ValidateKyrgyzstanPhone s phone = MatchString patternGeneral phone := by
  cases hg : MatchString patternGeneral phone with
  | true => simp [ValidateKyrgyzstanPhone, hg]
  | false =>
    have hm : MatchString patternMobile phone = false := by
      cases hm : MatchString patternMobile phone with
      | false => rfl
      | true =>
        have := MatchString_general_of_fifth _ phone fiveSeven_digit
          (by rw [← patternMobile_expand]; exact hm)
        rw [hg] at this; exact this.symm
    have hb : MatchString patternBishkek phone = false := by
      cases hb : MatchString patternBishkek phone with
      | false => rfl
      | true =>
        have := MatchString_general_of_fifth _ phone two_digit
          (by rw [← patternBishkek_expand]; exact hb)
        rw [hg] at this; exact this.symm
    simp [ValidateKyrgyzstanPhone, hg, hm, hb]

theorem isDigit_iff (c : Char) : c.isDigit = true ↔ '0' ≤ c ∧ c ≤ '9' := by
  simp only [Char.isDigit, Bool.and_eq_true, decide_eq_true_eq, ge_iff_le]
  exact Iff.rfl

/-! ## Verification -/

/-- C1, as the claim states it, fails where the counter wraps: in the store
of `NewSMSService` holding an unexpired record whose `Attempts` is
`math.MaxInt64` (a value the holder of the `*SMSCode` returned by
`SendVerificationCode` can write), `VerifyCode` with the stored code returns
`(true, nil)`, although no record of the phone has `Attempts` below
`maxAttempts`. -/
theorem VerifyCode_success_at_wrapped_counter :
    ((VerifyCode (exampleService MaxInt64) 10 "+996700123456" "123456").ok = true ∧
      (VerifyCode (exampleService MaxInt64) 10 "+996700123456" "123456").err = none) ∧
    ¬ ∃ r : SMSCode, (exampleService MaxInt64).codes "+996700123456" = some r ∧
        Time.After 10 r.ExpiresAt = false ∧ r.Attempts < (exampleService MaxInt64).maxAttempts ∧
        "123456" = r.Code := by
  refine ⟨by decide, ?_⟩
  rintro ⟨r, hr, -, hatt, -⟩
  have e : exampleCode MaxInt64 = r := by
    have h2 : (exampleService MaxInt64).codes "+996700123456" = some (exampleCode MaxInt64) := by
      decide
    rw [h2] at hr
    exact Option.some.inj hr
  subst e
  revert hatt
  decide

/-- C1, amended: `VerifyCode` returns `(true, nil)` exactly when the phone has
a record, the current time is not after its `ExpiresAt`, its `Attempts`
before the call is below `maxAttempts` or is `math.MaxInt64` (where
`Attempts++` wraps around to `math.MinInt64` and so passes the limit test),
and the candidate equals the stored `Code`; `maxAttempts` is 3 in the service
built by `NewSMSService`. -/
theorem VerifyCode_success_iff :
    NewSMSService.maxAttempts = 3 ∧
    ∀ (s : SMSService) (now : Time) (phone candidate : String),
      ((VerifyCode s now phone candidate).ok = true ∧
          (VerifyCode s now phone candidate).err = none) ↔
        ∃ r : SMSCode, s.codes phone = some r ∧ now.After r.ExpiresAt = false ∧
          (r.Attempts < s.maxAttempts ∨ r.Attempts = MaxInt64) ∧ candidate = r.Code := by
  refine ⟨rfl, ?_⟩
  intro s now phone candidate
  cases h : s.codes phone with
  | none => simp [VerifyCode_none s now phone candidate h]
  | some r =>
    by_cases hexp : r.ExpiresAt < now
    · simp [VerifyCode_expired s now phone candidate r h hexp, Time.After, hexp]
    · have hle : now ≤ r.ExpiresAt := not_lt.mp hexp
      by_cases hatt : r.Attempts < s.maxAttempts
      · by_cases hc : r.Code = candidate
        · simp [VerifyCode_match s now phone candidate r h hexp hatt hc, Time.After, hle,
            hatt, hc]
        · have hc2 : ¬ candidate = r.Code := fun e => hc e.symm
          simp [VerifyCode_mismatch s now phone candidate r h hexp hatt hc, hc2]
      · have hge : s.maxAttempts ≤ r.Attempts := not_lt.mp hatt
        by_cases hmax : r.Attempts = MaxInt64
        · by_cases hc : r.Code = candidate
          · simp [VerifyCode_wrapped_match s now phone candidate r h hexp hmax hc, Time.After,
              hle, hmax, hc]
          · have hc2 : ¬ candidate = r.Code := fun e => hc e.symm
            simp [VerifyCode_wrapped_mismatch s now phone candidate r h hexp hmax hc, hc2]
        · simp [VerifyCode_exceeded s now phone candidate r h hexp hge hmax, hatt, hmax]

/-- C2: a successful `VerifyCode` leaves the store with the record of that
phone removed and every other entry as it was, and the same call repeated
right after (at any time, with no send in between) returns false with the
error "no verification code found for this phone number" and changes
nothing. -/
theorem VerifyCode_single_use (s : SMSService) (now now2 : Time) (phone c : String)
    (hok : (VerifyCode s now phone c).ok = true ∧ (VerifyCode s now phone c).err = none) :
    (VerifyCode s now phone c).svc = { s with codes := s.codes.delete phone } ∧
    (VerifyCode s now phone c).svc.codes phone = none ∧
    (∀ q : String, q ≠ phone → (VerifyCode s now phone c).svc.codes q = s.codes q) ∧
    VerifyCode (VerifyCode s now phone c).svc now2 phone c =
      { svc := (VerifyCode s now phone c).svc, ok := false, err := some errNoCodeFound } := by
  have hsvc : (VerifyCode s now phone c).svc = { s with codes := s.codes.delete phone } := by
    cases h : s.codes phone with
    | none => simp [VerifyCode_none s now phone c h] at hok
    | some r =>
      by_cases hexp : r.ExpiresAt < now
      · simp [VerifyCode_expired s now phone c r h hexp] at hok
      · by_cases hatt : r.Attempts < s.maxAttempts
        · by_cases hc : r.Code = c
          · simp [VerifyCode_match s now phone c r h hexp hatt hc]
          · simp [VerifyCode_mismatch s now phone c r h hexp hatt hc] at hok
        · have hge : s.maxAttempts ≤ r.Attempts := not_lt.mp hatt
          by_cases hmax : r.Attempts = MaxInt64
          · by_cases hc : r.Code = c
            · simp [VerifyCode_wrapped_match s now phone c r h hexp hmax hc]
            · simp [VerifyCode_wrapped_mismatch s now phone c r h hexp hmax hc] at hok
          · simp [VerifyCode_exceeded s now phone c r h hexp hge hmax] at hok
  have hnone : (VerifyCode s now phone c).svc.codes phone = none := by
    rw [hsvc]; exact CodeMap.delete_self s.codes phone
  refine ⟨hsvc, hnone, ?_, VerifyCode_none _ now2 phone c hnone⟩
  intro q hq
  rw [hsvc]; exact CodeMap.delete_other s.codes phone q hq

/-- Instance of C2: the right code at the first attempt. -/
theorem VerifyCode_single_use_witness :
    (VerifyCode (exampleService 0) 10 "+996700123456" "123456").svc.codes "+996700123456" = none ∧
    VerifyCode (VerifyCode (exampleService 0) 10 "+996700123456" "123456").svc 11
        "+996700123456" "123456" =
      { svc := (VerifyCode (exampleService 0) 10 "+996700123456" "123456").svc, ok := false,
        err := some errNoCodeFound } :=
  have h := VerifyCode_single_use (exampleService 0) 10 11 "+996700123456" "123456"
    (by decide)
  ⟨h.2.1, h.2.2.2⟩

/-- C3, as the claim states it, fails where the counter wraps: for the
unexpired record with `Attempts = math.MaxInt64`, which is at least
`maxAttempts`, `VerifyCode` does not answer "maximum verification attempts
exceeded": a wrong candidate gets "invalid verification code" and the record
stays in the store, with `Attempts = math.MinInt64`. -/
theorem VerifyCode_not_exceeded_at_wrapped_counter :
    (exampleService MaxInt64).codes "+996700123456" = some (exampleCode MaxInt64) ∧
    Time.After 10 (exampleCode MaxInt64).ExpiresAt = false ∧
    (exampleService MaxInt64).maxAttempts ≤ (exampleCode MaxInt64).Attempts ∧
    (VerifyCode (exampleService MaxInt64) 10 "+996700123456" "000000").err =
      some errCodeMismatch ∧
    errCodeMismatch ≠ errAttemptsExceeded ∧
    (VerifyCode (exampleService MaxInt64) 10 "+996700123456" "000000").svc.codes
      "+996700123456" = some (exampleCode MinInt64) := by
  decide

/-- C3, amended: for an unexpired record whose `Attempts` is already at least
`maxAttempts` and is not `math.MaxInt64` (so that `Attempts++` does not wrap
around), `VerifyCode` returns false with the error "maximum verification
attempts exceeded" whatever the candidate (the stored code included), and
the record is removed from the store. -/
theorem VerifyCode_attempts_exceeded (s : SMSService) (now : Time) (phone candidate : String)
    (r : SMSCode) (h : s.codes phone = some r) (hexp : now.After r.ExpiresAt = false)
    (hatt : s.maxAttempts ≤ r.Attempts) (hmax : r.Attempts ≠ MaxInt64) :
    VerifyCode s now phone candidate =
      { svc := { s with codes := s.codes.delete phone }, ok := false,
        err := some errAttemptsExceeded } ∧
    (VerifyCode s now phone candidate).svc.codes phone = none ∧
    VerifyCode s now phone r.Code = VerifyCode s now phone candidate := by
  have hexp2 : ¬ r.ExpiresAt < now := by simpa [Time.After] using hexp
  have h1 := VerifyCode_exceeded s now phone candidate r h hexp2 hatt hmax
  have h2 := VerifyCode_exceeded s now phone r.Code r h hexp2 hatt hmax
  refine ⟨h1, ?_, h2.trans h1.symm⟩
  rw [h1]; exact CodeMap.delete_self s.codes phone

/-- Instance of C3: the right code after three attempts. -/
theorem VerifyCode_attempts_exceeded_witness :
    (VerifyCode (exampleService 3) 10 "+996700123456" "123456").err = some errAttemptsExceeded ∧
    (VerifyCode (exampleService 3) 10 "+996700123456" "123456").svc.codes "+996700123456" =
      none :=
  have h := VerifyCode_attempts_exceeded (exampleService 3) 10 "+996700123456" "123456"
    (exampleCode 3) (by decide) (by decide) (by decide) (by decide)
  ⟨congrArg VerifyResult.err h.1, h.2.1⟩

/-- C4: from a record just created by `SendVerificationCode` (so with
`Attempts = 0`) in a service with `maxAttempts = 3`, all calls made before
the code expires: three `VerifyCode` calls with wrong candidates each return
false with the error "invalid verification code" and keep the record (with
1, 2, 3 attempts); a fourth call, whatever its candidate, returns false with
the error "maximum verification attempts exceeded" and removes the record. -/
theorem VerifyCode_fourth_attempt_exceeded (s0 : SMSService)
    (nowCheck nowExpiry nowCreated : Time) (rng : RandReader) (phone : String) (c0 : SMSCode)
    (t1 t2 t3 t4 : Time) (w1 w2 w3 c4 : String)
    (hmax : s0.maxAttempts = 3)
    (hv : ValidateKyrgyzstanPhone s0 phone = true)
    (hnew : ∀ r : SMSCode, s0.codes phone = some r →
      ¬ (nowCheck.Before r.ExpiresAt = true ∧ r.Attempts < s0.maxAttempts))
    (hc0 : (SendVerificationCode s0 nowCheck nowExpiry nowCreated rng phone).code = some c0)
    (ht1 : t1.After c0.ExpiresAt = false) (ht2 : t2.After c0.ExpiresAt = false)
    (ht3 : t3.After c0.ExpiresAt = false) (ht4 : t4.After c0.ExpiresAt = false)
    (hw1 : w1 ≠ c0.Code) (hw2 : w2 ≠ c0.Code) (hw3 : w3 ≠ c0.Code) :
    c0.Attempts = 0 ∧
    VerifyCode (SendVerificationCode s0 nowCheck nowExpiry nowCreated rng phone).svc t1 phone w1 =
      { svc := { (SendVerificationCode s0 nowCheck nowExpiry nowCreated rng phone).svc with
                 codes := (SendVerificationCode s0 nowCheck nowExpiry nowCreated rng phone).svc.codes.set
                   phone { c0 with Attempts := 1 } },
        ok := false, err := some errCodeMismatch } ∧
    VerifyCode (VerifyCode (SendVerificationCode s0 nowCheck nowExpiry nowCreated rng phone).svc
        t1 phone w1).svc t2 phone w2 =
      { svc := { (SendVerificationCode s0 nowCheck nowExpiry nowCreated rng phone).svc with
                 codes := (SendVerificationCode s0 nowCheck nowExpiry nowCreated rng phone).svc.codes.set
                   phone { c0 with Attempts := 2 } },
        ok := false, err := some errCodeMismatch } ∧
    VerifyCode (VerifyCode (VerifyCode
        (SendVerificationCode s0 nowCheck nowExpiry nowCreated rng phone).svc
        t1 phone w1).svc t2 phone w2).svc t3 phone w3 =
      { svc := { (SendVerificationCode s0 nowCheck nowExpiry nowCreated rng phone).svc with
                 codes := (SendVerificationCode s0 nowCheck nowExpiry nowCreated rng phone).svc.codes.set
                   phone { c0 with Attempts := 3 } },
        ok := false, err := some errCodeMismatch } ∧
    VerifyCode (VerifyCode (VerifyCode (VerifyCode
        (SendVerificationCode s0 nowCheck nowExpiry nowCreated rng phone).svc
        t1 phone w1).svc t2 phone w2).svc t3 phone w3).svc t4 phone c4 =
      { svc := { (SendVerificationCode s0 nowCheck nowExpiry nowCreated rng phone).svc with
                 codes := (SendVerificationCode s0 nowCheck nowExpiry nowCreated rng phone).svc.codes.delete
                   phone },
        ok := false, err := some errAttemptsExceeded } := by
  have hstored := SendVerificationCode_stored s0 nowCheck nowExpiry nowCreated rng phone c0 hc0
  have hcfg := SendVerificationCode_config s0 nowCheck nowExpiry nowCreated rng phone
  have hf : ∀ r : SMSCode, s0.codes phone = some r →
      ¬ (nowCheck < r.ExpiresAt ∧ r.Attempts < s0.maxAttempts) := by
    intro r hr hcon
    exact hnew r hr ⟨by simpa [Time.Before] using hcon.1, hcon.2⟩
  have h0 : c0.Attempts = 0 := by
    rw [SendVerificationCode_fresh s0 nowCheck nowExpiry nowCreated rng phone hv hf] at hc0
    have h2 := Option.some.inj hc0
    rw [← h2]
  have conv : ∀ t : Time, t.After c0.ExpiresAt = false → ¬ c0.ExpiresAt < t := by
    intro t ht
    simpa [Time.After] using ht
  exact ⟨h0, VerifyCode_three_wrong _ phone c0 hstored h0 (hcfg.trans hmax) t1 t2 t3 t4 w1 w2 w3 c4
    (conv t1 ht1) (conv t2 ht2) (conv t3 ht3) (conv t4 ht4)
    (fun e => hw1 e.symm) (fun e => hw2 e.symm) (fun e => hw3 e.symm)⟩

/-- Instance of C4: a code sent by a new service, three wrong candidates and
then the right one. -/
theorem VerifyCode_fourth_attempt_exceeded_witness :
    (VerifyCode (VerifyCode (VerifyCode (VerifyCode
        (SendVerificationCode NewSMSService 0 0 0 exampleReader "+996700123456").svc
        1 "+996700123456" "000000").svc 2 "+996700123456" "111111").svc
        3 "+996700123456" "222222").svc 4 "+996700123456" "307418").err =
      some errAttemptsExceeded :=
  congrArg VerifyResult.err
    (VerifyCode_fourth_attempt_exceeded NewSMSService 0 0 0 exampleReader "+996700123456"
      { Phone := "+996700123456", Code := "307418", ExpiresAt := 300000000000, Attempts := 0,
        CreatedAt := 0 }
      1 2 3 4 "000000" "111111" "222222" "307418"
      (by decide) (by decide) (by intro r hr; simp [NewSMSService, CodeMap.empty] at hr)
      (by decide) (by decide) (by decide) (by decide) (by decide)
      (by decide) (by decide) (by decide)).2.2.2.2

/-- C5: for an unexpired record with `Attempts` below `maxAttempts` and a
candidate different from the stored `Code`, `VerifyCode` returns false with
the error "invalid verification code"; the store afterwards is the previous
one except that the record of this phone has `Attempts` one higher, with the
same `Code` and `ExpiresAt`; the record stays and no other entry changes. -/
theorem VerifyCode_mismatch_counts_attempt (s : SMSService) (now : Time)
    (phone candidate : String) (r : SMSCode)
    (h : s.codes phone = some r) (hexp : now.After r.ExpiresAt = false)
    (hatt : r.Attempts < s.maxAttempts) (hne : candidate ≠ r.Code) :
    VerifyCode s now phone candidate =
      { svc := { s with codes := s.codes.set phone { r with Attempts := r.Attempts + 1 } },
        ok := false, err := some errCodeMismatch } ∧
    (VerifyCode s now phone candidate).svc.codes phone =
      some { Phone := r.Phone, Code := r.Code, ExpiresAt := r.ExpiresAt,
             Attempts := r.Attempts + 1, CreatedAt := r.CreatedAt } ∧
    (∀ q : String, q ≠ phone → (VerifyCode s now phone candidate).svc.codes q = s.codes q) := by
  have hexp2 : ¬ r.ExpiresAt < now := by simpa [Time.After] using hexp
  have e := VerifyCode_mismatch s now phone candidate r h hexp2 hatt (fun e => hne e.symm)
  refine ⟨e, ?_, ?_⟩
  · rw [e]; exact CodeMap.set_self _ _ _
  · intro q hq
    rw [e]; exact CodeMap.set_other _ _ _ _ hq

/-- Instance of C5: a wrong candidate at the first attempt. -/
theorem VerifyCode_mismatch_counts_attempt_witness :
    (VerifyCode (exampleService 0) 10 "+996700123456" "654321").svc.codes "+996700123456" =
      some { Phone := "+996700123456", Code := "123456", ExpiresAt := 1000, Attempts := 0 + 1,
             CreatedAt := 0 } :=
  (VerifyCode_mismatch_counts_attempt (exampleService 0) 10 "+996700123456" "654321"
    (exampleCode 0) (by decide) (by decide) (by decide) (by decide)).2.1

/-- C6: for a record whose `ExpiresAt` is strictly before the current time,
`VerifyCode` returns false with the error "verification code has expired"
for every candidate and every value of `Attempts` (the attempt test is not
reached and nothing is counted), the record is removed with every other
entry kept, and a later `VerifyCode` on that phone returns false with the
error "no verification code found for this phone number". -/
theorem VerifyCode_expired_purges (s : SMSService) (now now2 : Time)
    (phone candidate candidate2 : String) (r : SMSCode)
    (h : s.codes phone = some r) (hexp : r.ExpiresAt < now) :
    VerifyCode s now phone candidate =
      { svc := { s with codes := s.codes.delete phone }, ok := false,
        err := some errCodeExpired } ∧
    (VerifyCode s now phone candidate).svc.codes phone = none ∧
    (∀ q : String, q ≠ phone → (VerifyCode s now phone candidate).svc.codes q = s.codes q) ∧
    VerifyCode (VerifyCode s now phone candidate).svc now2 phone candidate2 =
      { svc := (VerifyCode s now phone candidate).svc, ok := false,
        err := some errNoCodeFound } := by
  have e := VerifyCode_expired s now phone candidate r h hexp
  have hnone : (VerifyCode s now phone candidate).svc.codes phone = none := by
    rw [e]; exact CodeMap.delete_self _ _
  refine ⟨e, hnone, ?_, VerifyCode_none _ now2 phone candidate2 hnone⟩
  intro q hq
  rw [e]; exact CodeMap.delete_other _ _ _ hq

/-- Instance of C6: the right code after the expiry, on a record that has
also used up its attempts. -/
theorem VerifyCode_expired_purges_witness :
    VerifyCode (exampleService 7) 1001 "+996700123456" "123456" =
      { svc := { exampleService 7 with
                 codes := (exampleService 7).codes.delete "+996700123456" },
        ok := false, err := some errCodeExpired } :=
  (VerifyCode_expired_purges (exampleService 7) 1001 1002 "+996700123456" "123456" "123456"
    (exampleCode 7) (by decide) (by decide)).1

/-! ## Sending -/

/-- C7: for a valid phone whose stored record is not yet expired (current
time strictly before `ExpiresAt`) and has `Attempts` below `maxAttempts`,
`SendVerificationCode` returns that very record with no error, draws no
code and leaves the store as it is; hence a second send for the phone of a
first successful send, made before the returned expiry and within the
attempt budget, returns the same record (same code, same expiry). -/
theorem SendVerificationCode_resend_idempotent :
    (∀ (s : SMSService) (nowCheck nowExpiry nowCreated : Time) (rng : RandReader)
        (phone : String) (r : SMSCode),
      ValidateKyrgyzstanPhone s phone = true → s.codes phone = some r →
      nowCheck.Before r.ExpiresAt = true → r.Attempts < s.maxAttempts →
      SendVerificationCode s nowCheck nowExpiry nowCreated rng phone =
        { svc := s, rng := rng, code := some r, err := none }) ∧
    (∀ (s : SMSService) (nowCheck nowExpiry nowCreated : Time) (rng : RandReader)
        (phone : String) (c1 : SMSCode) (nowCheck2 nowExpiry2 nowCreated2 : Time)
        (rng2 : RandReader),
      (SendVerificationCode s nowCheck nowExpiry nowCreated rng phone).code = some c1 →
      nowCheck2.Before c1.ExpiresAt = true → c1.Attempts < s.maxAttempts →
      SendVerificationCode (SendVerificationCode s nowCheck nowExpiry nowCreated rng phone).svc
          nowCheck2 nowExpiry2 nowCreated2 rng2 phone =
        { svc := (SendVerificationCode s nowCheck nowExpiry nowCreated rng phone).svc,
          rng := rng2, code := some c1, err := none }) := by
  constructor
  · intro s nowCheck nowExpiry nowCreated rng phone r hv h ht ha
    exact SendVerificationCode_reuse s nowCheck nowExpiry nowCreated rng phone r hv h
      (by simpa [Time.Before] using ht) ha
  · intro s nowCheck nowExpiry nowCreated rng phone c1 nowCheck2 nowExpiry2 nowCreated2 rng2
      hc1 ht ha
    have hv : ValidateKyrgyzstanPhone s phone = true := by
      cases hv : ValidateKyrgyzstanPhone s phone with
      | true => rfl
      | false =>
        simp [SendVerificationCode_invalid s nowCheck nowExpiry nowCreated rng phone hv] at hc1
    have hstored := SendVerificationCode_stored s nowCheck nowExpiry nowCreated rng phone c1 hc1
    have hcfg := SendVerificationCode_config s nowCheck nowExpiry nowCreated rng phone
    exact SendVerificationCode_reuse _ nowCheck2 nowExpiry2 nowCreated2 rng2 phone c1 hv hstored
      (by simpa [Time.Before] using ht) (by rw [hcfg]; exact ha)

/-- Instance of C7: a second send one minute after the first. -/
theorem SendVerificationCode_resend_idempotent_witness :
    SendVerificationCode
        (SendVerificationCode NewSMSService 0 0 0 exampleReader "+996700123456").svc
        Minute Minute Minute exampleReader.tail "+996700123456" =
      { svc := (SendVerificationCode NewSMSService 0 0 0 exampleReader "+996700123456").svc,
        rng := exampleReader.tail,
        code := some { Phone := "+996700123456", Code := "307418", ExpiresAt := 300000000000,
                       Attempts := 0, CreatedAt := 0 },
        err := none } :=
  SendVerificationCode_resend_idempotent.2 NewSMSService 0 0 0 exampleReader "+996700123456"
    { Phone := "+996700123456", Code := "307418", ExpiresAt := 300000000000, Attempts := 0,
      CreatedAt := 0 }
    Minute Minute Minute exampleReader.tail (by decide) (by decide) (by decide)

/-- C8: for a valid phone with no record, or whose record is expired
(current time not before `ExpiresAt`) or has `Attempts` at least
`maxAttempts`, `SendVerificationCode` returns no error and a new record with
`Phone` the phone, `Code` the code drawn by `GenerateCode`, `ExpiresAt` the
current time plus `codeTTL` and `Attempts` 0; the store afterwards maps the
phone to that record (in place of any old one) and is unchanged elsewhere;
`codeTTL` is five minutes in the service built by `NewSMSService`. -/
theorem SendVerificationCode_fresh_record (s : SMSService)
    (nowCheck nowExpiry nowCreated : Time) (rng : RandReader) (phone : String)
    (hv : ValidateKyrgyzstanPhone s phone = true)
    (hold : s.codes phone = none ∨
      ∃ r : SMSCode, s.codes phone = some r ∧
        (nowCheck.Before r.ExpiresAt = false ∨ s.maxAttempts ≤ r.Attempts)) :
    SendVerificationCode s nowCheck nowExpiry nowCreated rng phone =
      { svc :=
          { s with
            codes := s.codes.set phone
              { Phone := phone, Code := (GenerateCode s rng).1,
                ExpiresAt := nowExpiry + s.codeTTL, Attempts := 0,
                CreatedAt := nowCreated } },
        rng := (GenerateCode s rng).2,
        code := some { Phone := phone, Code := (GenerateCode s rng).1,
                       ExpiresAt := nowExpiry + s.codeTTL, Attempts := 0,
                       CreatedAt := nowCreated },
        err := none } ∧
    (SendVerificationCode s nowCheck nowExpiry nowCreated rng phone).svc.codes phone =
      (SendVerificationCode s nowCheck nowExpiry nowCreated rng phone).code ∧
    (∀ q : String, q ≠ phone →
      (SendVerificationCode s nowCheck nowExpiry nowCreated rng phone).svc.codes q = s.codes q) ∧
    NewSMSService.codeTTL = 5 * Minute := by
  have hf : ∀ r : SMSCode, s.codes phone = some r →
      ¬ (nowCheck < r.ExpiresAt ∧ r.Attempts < s.maxAttempts) := by
    intro r hr hcon
    rcases hold with hnone | ⟨r2, hr2, hcase⟩
    · rw [hnone] at hr; exact Option.noConfusion hr
    · rw [hr2] at hr
      have e : r2 = r := Option.some.inj hr
      subst e
      rcases hcase with hb | hm
      · have : ¬ nowCheck < r2.ExpiresAt := by simpa [Time.Before] using hb
        exact this hcon.1
      · exact absurd hcon.2 (not_lt.mpr hm)
  have e := SendVerificationCode_fresh s nowCheck nowExpiry nowCreated rng phone hv hf
  refine ⟨e, ?_, ?_, rfl⟩
  · rw [e]; exact CodeMap.set_self _ _ _
  · intro q hq
    rw [e]; exact CodeMap.set_other _ _ _ _ hq

/-- Instance of C8: a send that replaces an expired record. -/
theorem SendVerificationCode_fresh_record_witness :
    (SendVerificationCode (exampleService 1) 2000 2000 2000 exampleReader
        "+996700123456").code =
      some { Phone := "+996700123456", Code := (GenerateCode (exampleService 1) exampleReader).1,
             ExpiresAt := 2000 + (exampleService 1).codeTTL, Attempts := 0, CreatedAt := 2000 } :=
  congrArg SendResult.code
    (SendVerificationCode_fresh_record (exampleService 1) 2000 2000 2000 exampleReader
      "+996700123456" (by decide)
      (Or.inr ⟨exampleCode 1, by decide, Or.inl (by decide)⟩)).1

/-- C10: for a phone that `ValidateKyrgyzstanPhone` rejects,
`SendVerificationCode` returns no record and the error "invalid phone
number format for Kyrgyzstan", reads nothing from the random source and
leaves the service as it is, whatever the store holds. -/
theorem SendVerificationCode_invalid_phone (s : SMSService)
    (nowCheck nowExpiry nowCreated : Time) (rng : RandReader) (phone : String)
    (hv : ValidateKyrgyzstanPhone s phone = false) :
    SendVerificationCode s nowCheck nowExpiry nowCreated rng phone =
      { svc := s, rng := rng, code := none, err := some errInvalidPhone } :=
  SendVerificationCode_invalid s nowCheck nowExpiry nowCreated rng phone hv

/-- Instance of C10: a number without the country code. -/
theorem SendVerificationCode_invalid_phone_witness :
    SendVerificationCode (exampleService 0) 10 10 10 exampleReader "0700123456" =
      { svc := exampleService 0, rng := exampleReader, code := none,
        err := some errInvalidPhone } :=
  SendVerificationCode_invalid_phone (exampleService 0) 10 10 10 exampleReader "0700123456"
    (by decide)

/-! ## Phone validation -/

/-- C9: `ValidateKyrgyzstanPhone` returns true exactly for the strings made
of `+996` followed by nine ASCII decimal digits, which have 13 characters;
for every other string it returns false. It is a total function to `Bool`,
so it never fails. -/
theorem ValidateKyrgyzstanPhone_iff (s : SMSService) (phone : String) :
    (ValidateKyrgyzstanPhone s phone = true ↔
      ∃ ds : List Char, ds.length = 9 ∧ (∀ c ∈ ds, c.isDigit = true) ∧
        phone = String.mk ('+' :: '9' :: '9' :: '6' :: ds)) ∧
    (ValidateKyrgyzstanPhone s phone = false ↔
      ¬ ∃ ds : List Char, ds.length = 9 ∧ (∀ c ∈ ds, c.isDigit = true) ∧
        phone = String.mk ('+' :: '9' :: '9' :: '6' :: ds)) ∧
    (ValidateKyrgyzstanPhone s phone = true → phone.length = 13) := by
  have key : ValidateKyrgyzstanPhone s phone = true ↔
      ∃ ds : List Char, ds.length = 9 ∧ (∀ c ∈ ds, c.isDigit = true) ∧
        phone = String.mk ('+' :: '9' :: '9' :: '6' :: ds) := by
    rw [Validate_eq_general, MatchString_general]
    simp only [isDigit_iff]
  refine ⟨key, ?_, ?_⟩
  · rw [← key]
    cases ValidateKyrgyzstanPhone s phone <;> simp
  · intro h
    obtain ⟨ds, hlen, _, rfl⟩ := key.mp h
    simp [String.length, hlen]

/-- Instance of C9: a mobile number of the accepted form has 13 characters. -/
theorem ValidateKyrgyzstanPhone_iff_witness :
    ValidateKyrgyzstanPhone NewSMSService "+996700123456" = true ∧
    "+996700123456".length = 13 :=
  ⟨by decide, (ValidateKyrgyzstanPhone_iff NewSMSService "+996700123456").2.2 (by decide)⟩

/-! ## Reachable states -/

theorem VerifyCode_svc_cases (s : SMSService) (now : Time) (phone inputCode : String) :
    (VerifyCode s now phone inputCode).svc = s ∨
    (VerifyCode s now phone inputCode).svc = { s with codes := s.codes.delete phone } ∨
    ∃ r : SMSCode, s.codes phone = some r ∧
      (r.Attempts < s.maxAttempts ∨ r.Attempts = MaxInt64) ∧
      (VerifyCode s now phone inputCode).svc =
        { s with codes := s.codes.set phone { r with Attempts := r.Attempts + 1 } } := by
  cases h : s.codes phone with
  | none => exact Or.inl (by rw [VerifyCode_none s now phone inputCode h])
  | some r =>
    by_cases hexp : r.ExpiresAt < now
    · exact Or.inr (Or.inl (by rw [VerifyCode_expired s now phone inputCode r h hexp]))
    · by_cases hatt : r.Attempts < s.maxAttempts
      · by_cases hc : r.Code = inputCode
        · exact Or.inr (Or.inl (by rw [VerifyCode_match s now phone inputCode r h hexp hatt hc]))
        · exact Or.inr (Or.inr ⟨r, rfl, Or.inl hatt,
            by rw [VerifyCode_mismatch s now phone inputCode r h hexp hatt hc]⟩)
      · by_cases hmax : r.Attempts = MaxInt64
        · by_cases hc : r.Code = inputCode
          · exact Or.inr (Or.inl
              (by rw [VerifyCode_wrapped_match s now phone inputCode r h hexp hmax hc]))
          · exact Or.inr (Or.inr ⟨r, rfl, Or.inr hmax,
              by rw [VerifyCode_wrapped_mismatch s now phone inputCode r h hexp hmax hc, hmax,
                MaxInt64_succ]⟩)
        · exact Or.inr (Or.inl
            (by rw [VerifyCode_exceeded s now phone inputCode r h hexp (not_lt.mp hatt) hmax]))

theorem SendVerificationCode_svc_cases (s : SMSService) (nowCheck nowExpiry nowCreated : Time)
    (rng : RandReader) (phone : String) :
    (SendVerificationCode s nowCheck nowExpiry nowCreated rng phone).svc = s ∨
    (ValidateKyrgyzstanPhone s phone = true ∧
      (SendVerificationCode s nowCheck nowExpiry nowCreated rng phone).svc =
        { s with
          codes := s.codes.set phone
            { Phone := phone, Code := (GenerateCode s rng).1,
              ExpiresAt := nowExpiry + s.codeTTL, Attempts := 0,
              CreatedAt := nowCreated } }) := by
  cases hv : ValidateKyrgyzstanPhone s phone with
  | false =>
    exact Or.inl (by rw [SendVerificationCode_invalid s nowCheck nowExpiry nowCreated rng phone hv])
  | true =>
    by_cases hr : ∃ r : SMSCode, s.codes phone = some r ∧
        nowCheck < r.ExpiresAt ∧ r.Attempts < s.maxAttempts
    · obtain ⟨r, h1, h2, h3⟩ := hr
      exact Or.inl
        (by rw [SendVerificationCode_reuse s nowCheck nowExpiry nowCreated rng phone r hv h1 h2 h3])
    · have hf : ∀ r : SMSCode, s.codes phone = some r →
          ¬ (nowCheck < r.ExpiresAt ∧ r.Attempts < s.maxAttempts) :=
        fun r h1 h2 => hr ⟨r, h1, h2⟩
      exact Or.inr ⟨rfl,
        by rw [SendVerificationCode_fresh s nowCheck nowExpiry nowCreated rng phone hv hf]⟩

theorem StoreInvariant_init : StoreInvariant NewSMSService := by
  refine ⟨rfl, ?_⟩
  intro phone r h
  simp [NewSMSService, CodeMap.empty] at h

theorem StoreInvariant_delete (s : SMSService) (k : String) (h : StoreInvariant s) :
    StoreInvariant { s with codes := s.codes.delete k } := by
  refine ⟨h.1, ?_⟩
  intro phone r hr
  by_cases hq : phone = k
  · subst hq
    simp [CodeMap.delete] at hr
  · have hr2 : s.codes phone = some r := by simpa [CodeMap.delete, hq] using hr
    exact h.2 phone r hr2

theorem StoreInvariant_set (s : SMSService) (k : String) (v : SMSCode) (h : StoreInvariant s)
    (hv : 0 ≤ v.Attempts ∧ v.Attempts ≤ s.maxAttempts ∧ v.Phone = k ∧
      ValidateKyrgyzstanPhone s k = true) :
    StoreInvariant { s with codes := s.codes.set k v } := by
  refine ⟨h.1, ?_⟩
  intro phone r hr
  by_cases hq : phone = k
  · subst hq
    have : v = r := by simpa [CodeMap.set] using hr
    subst this
    exact hv
  · have hr2 : s.codes phone = some r := by simpa [CodeMap.set, hq] using hr
    exact h.2 phone r hr2

theorem StoreInvariant_verify (s : SMSService) (now : Time) (phone inputCode : String)
    (h : StoreInvariant s) : StoreInvariant (VerifyCode s now phone inputCode).svc := by
  rcases VerifyCode_svc_cases s now phone inputCode with e | e | ⟨r, hr, hatt, e⟩
  · rw [e]; exact h
  · rw [e]; exact StoreInvariant_delete s phone h
  · rw [e]
    have hold := h.2 phone r hr
    have hlt : r.Attempts < s.maxAttempts := by
      rcases hatt with hlt | hmax
      · exact hlt
      · have h3 := hold.2.1
        rw [hmax, h.1] at h3
        exact absurd h3 (by decide)
    have hne := GoInt.ne_MaxInt64_of_lt _ _ hlt
    refine StoreInvariant_set s phone _ h
      ⟨?_, GoInt.succ_le_of_lt _ _ hlt, hold.2.2.1, hold.2.2.2⟩
    show (0 : GoInt) ≤ r.Attempts + 1
    have h0 := hold.1
    rw [GoInt.le_iff, GoInt.toInt_zero] at h0 ⊢
    rw [GoInt.toInt_succ _ hne]
    omega

theorem StoreInvariant_send (s : SMSService) (nowCheck nowExpiry nowCreated : Time)
    (rng : RandReader) (phone : String) (h : StoreInvariant s) :
    StoreInvariant (SendVerificationCode s nowCheck nowExpiry nowCreated rng phone).svc := by
  rcases SendVerificationCode_svc_cases s nowCheck nowExpiry nowCreated rng phone with e | ⟨hv, e⟩
  · rw [e]; exact h
  · rw [e]
    exact StoreInvariant_set s phone _ h
      ⟨le_refl 0, by show (0 : GoInt) ≤ s.maxAttempts; rw [h.1]; decide, rfl, hv⟩

theorem StoreInvariant_cleanup (s : SMSService) (now : Time) (h : StoreInvariant s) :
    StoreInvariant (CleanupExpiredCodes s now) := by
  refine ⟨h.1, ?_⟩
  intro phone r hr
  cases hc : s.codes phone with
  | none => simp [CleanupExpiredCodes, hc] at hr
  | some c =>
    simp only [CleanupExpiredCodes, hc] at hr
    split at hr
    · exact Option.noConfusion hr
    · have e : c = r := Option.some.inj hr
      subst e
      exact h.2 phone c hc

theorem StoreInvariant_run (s : SMSService) (call : Call) (h : StoreInvariant s) :
    StoreInvariant (call.run s) := by
  cases call with
  | send nowCheck nowExpiry nowCreated rng phone =>
    exact StoreInvariant_send s nowCheck nowExpiry nowCreated rng phone h
  | verify now phone inputCode => exact StoreInvariant_verify s now phone inputCode h
  | cleanup now => exact StoreInvariant_cleanup s now h
  | remaining phone => exact h

theorem StoreInvariant_runCalls (calls : List Call) (s : SMSService) (h : StoreInvariant s) :
    StoreInvariant (runCalls s calls) := by
  induction calls generalizing s with
  | nil => exact h
  | cons call rest ih => exact ih (call.run s) (StoreInvariant_run s call h)

/-- C11: for a phone with no record, `VerifyCode` returns false with the
error "no verification code found for this phone number" whatever the
candidate and the time, and leaves the service as it is. -/
theorem VerifyCode_no_record (s : SMSService) (now : Time) (phone candidate : String)
    (h : s.codes phone = none) :
    VerifyCode s now phone candidate =
      { svc := s, ok := false, err := some errNoCodeFound } ∧
    (VerifyCode s now phone candidate).svc.codes = s.codes := by
  have e := VerifyCode_none s now phone candidate h
  exact ⟨e, by rw [e]⟩

/-- Instance of C11: a verification on a new service. -/
theorem VerifyCode_no_record_witness :
    VerifyCode NewSMSService 10 "+996700123456" "123456" =
      { svc := NewSMSService, ok := false, err := some errNoCodeFound } :=
  (VerifyCode_no_record NewSMSService 10 "+996700123456" "123456" (by decide)).1

/-- C12: in every state reached from `NewSMSService` by a sequence of
`SendVerificationCode`, `VerifyCode`, `CleanupExpiredCodes` and
`GetRemainingAttempts` calls (any arguments, any clock readings, any random
draws), `maxAttempts` is 3 and every stored record has
`0 ≤ Attempts ≤ 3`, is stored under the key equal to its `Phone`, and that
key is accepted by `ValidateKyrgyzstanPhone`; the store being a map, a phone
has at most one record. -/
theorem runCalls_store_invariant (calls : List Call) (phone : String) (r : SMSCode)
    (h : (runCalls NewSMSService calls).codes phone = some r) :
    (runCalls NewSMSService calls).maxAttempts = 3 ∧
    0 ≤ r.Attempts ∧ r.Attempts ≤ 3 ∧ r.Phone = phone ∧
    ValidateKyrgyzstanPhone (runCalls NewSMSService calls) phone = true ∧
    (∀ r2 : SMSCode, (runCalls NewSMSService calls).codes phone = some r2 → r2 = r) := by
  have inv := StoreInvariant_runCalls calls NewSMSService StoreInvariant_init
  have hr := inv.2 phone r h
  refine ⟨inv.1, hr.1, ?_, hr.2.2.1, hr.2.2.2, ?_⟩
  · rw [← inv.1]; exact hr.2.1
  · intro r2 h2
    rw [h] at h2
    exact (Option.some.inj h2).symm

/-- Instance of C12: a send followed by three wrong candidates. -/
theorem runCalls_store_invariant_witness :
    (0 : GoInt) ≤ 3 ∧ (3 : GoInt) ≤ 3 ∧
    ValidateKyrgyzstanPhone
      (runCalls NewSMSService
        [Call.send 0 0 0 exampleReader "+996700123456",
          Call.verify 1 "+996700123456" "000000", Call.verify 2 "+996700123456" "111111",
          Call.remaining "+996700123456", Call.cleanup 3,
          Call.verify 4 "+996700123456" "222222"])
      "+996700123456" = true :=
  have h := runCalls_store_invariant
    [Call.send 0 0 0 exampleReader "+996700123456",
      Call.verify 1 "+996700123456" "000000", Call.verify 2 "+996700123456" "111111",
      Call.remaining "+996700123456", Call.cleanup 3,
      Call.verify 4 "+996700123456" "222222"]
    "+996700123456"
    { Phone := "+996700123456", Code := "307418", ExpiresAt := 300000000000, Attempts := 3,
      CreatedAt := 0 }
    (by decide)
  ⟨h.2.1, h.2.2.1, h.2.2.2.2.1⟩

/-! ## Tokens -/

theorem NewNumericDate_le (t : Time) : NewNumericDate t ≤ t := by
  have h : (0 : Int) ≤ t % 1000000000 := Int.emod_nonneg t (by decide)
  show (t - t % 1000000000 : Int) ≤ t
  exact Int.sub_le_self t h

theorem ParseWithClaims_HS256 (key : String) (claims : TokenClaims) (now : Time) :
    ParseWithClaims (TokenString.jws "HS256" key claims) key now =
      match validateClaims claims.Registered now with
      | .error e => .error e
      | .ok _ => .ok claims := by
  simp [ParseWithClaims, otherMethods, hmacMethods]

theorem ValidateToken_generateToken (tm : TokenManager) (nowIssue nowParse nowCheck : Time)
    (userID : UUID) (phone role tokenType : String) (ttl : Duration)
    (h1 : nowIssue ≤ nowParse)
    (h2 : nowParse < NewNumericDate (nowIssue + ttl))
    (h3 : ¬ NewNumericDate (nowIssue + ttl) < nowCheck) :
    ValidateToken tm nowParse nowCheck
        (generateToken tm nowIssue userID phone role tokenType ttl).token =
      some
        { claims := some
            { UserID := userID, Phone := phone, Role := role, Type_ := tokenType,
              Registered :=
                { Issuer := "skypark-api", Subject := userID.String, Audience := [],
                  ExpiresAt := some (NewNumericDate (nowIssue + ttl)),
                  NotBefore := some (NewNumericDate nowIssue),
                  IssuedAt := some (NewNumericDate nowIssue), ID := "" } },
          err := none } := by
  have h4 : ¬ nowParse < NewNumericDate nowIssue :=
    not_lt.mpr (le_trans (NewNumericDate_le nowIssue) h1)
  simp [ValidateToken, generateToken, SignedString, ParseWithClaims_HS256, validateClaims,
    Time.Before, Time.Add, h2, h3, h4]

theorem ValidateToken_err_cases (tm : TokenManager) (nowParse nowCheck : Time)
    (tokenString : TokenString) (r : ValidateResult)
    (h : ValidateToken tm nowParse nowCheck tokenString = some r) :
    r = { claims := none, err := some TokenError.ErrInvalidToken } ∨
    r = { claims := none, err := some TokenError.ErrExpiredToken } ∨
    ∃ claims : TokenClaims, r = { claims := some claims, err := none } := by
  unfold ValidateToken at h
  split at h
  · exact Or.inl (Option.some.inj h).symm
  · split at h
    · exact Option.noConfusion h
    · split at h
      · exact Or.inr (Or.inl (Option.some.inj h).symm)
      · exact Or.inr (Or.inr ⟨_, (Option.some.inj h).symm⟩)

/-- C13: a token made by `GenerateAccessToken` and validated by
`ValidateToken` of the same manager, not before it was issued and before
its expiry, yields claims with `Type` "access" and the user id, phone and
role it was made for; a token made by `GenerateRefreshToken` likewise
yields `Type` "refresh" and the same three values. -/
theorem ValidateToken_roundtrip :
    (∀ (tm : TokenManager) (nowIssue nowParse nowCheck : Time) (userID : UUID)
        (phone role : String),
      nowIssue ≤ nowParse →
      nowParse.Before (NewNumericDate (nowIssue.Add tm.accessTokenTTL)) = true →
      (NewNumericDate (nowIssue.Add tm.accessTokenTTL)).Before nowCheck = false →
      ∃ claims : TokenClaims,
        ValidateToken tm nowParse nowCheck
            (GenerateAccessToken tm nowIssue userID phone role).token =
          some { claims := some claims, err := none } ∧
        claims.Type_ = "access" ∧ claims.UserID = userID ∧ claims.Phone = phone ∧
          claims.Role = role) ∧
    (∀ (tm : TokenManager) (nowIssue nowParse nowCheck : Time) (userID : UUID)
        (phone role : String),
      nowIssue ≤ nowParse →
      nowParse.Before (NewNumericDate (nowIssue.Add tm.refreshTokenTTL)) = true →
      (NewNumericDate (nowIssue.Add tm.refreshTokenTTL)).Before nowCheck = false →
      ∃ claims : TokenClaims,
        ValidateToken tm nowParse nowCheck
            (GenerateRefreshToken tm nowIssue userID phone role).token =
          some { claims := some claims, err := none } ∧
        claims.Type_ = "refresh" ∧ claims.UserID = userID ∧ claims.Phone = phone ∧
          claims.Role = role) := by
  constructor
  · intro tm nowIssue nowParse nowCheck userID phone role h1 h2 h3
    have h2a : nowParse < NewNumericDate (nowIssue + tm.accessTokenTTL) := by
      simpa [Time.Before, Time.Add] using h2
    have h3a : ¬ NewNumericDate (nowIssue + tm.accessTokenTTL) < nowCheck := by
      simpa [Time.Before, Time.Add] using h3
    exact ⟨_, ValidateToken_generateToken tm nowIssue nowParse nowCheck userID phone role
      "access" tm.accessTokenTTL h1 h2a h3a, rfl, rfl, rfl, rfl⟩
  · intro tm nowIssue nowParse nowCheck userID phone role h1 h2 h3
    have h2a : nowParse < NewNumericDate (nowIssue + tm.refreshTokenTTL) := by
      simpa [Time.Before, Time.Add] using h2
    have h3a : ¬ NewNumericDate (nowIssue + tm.refreshTokenTTL) < nowCheck := by
      simpa [Time.Before, Time.Add] using h3
    exact ⟨_, ValidateToken_generateToken tm nowIssue nowParse nowCheck userID phone role
      "refresh" tm.refreshTokenTTL h1 h2a h3a, rfl, rfl, rfl, rfl⟩

/-- Instance of C13: an access token of the manager of `main`, validated
one minute after it was issued. -/
theorem ValidateToken_roundtrip_witness :
    ∃ claims : TokenClaims,
      ValidateToken (mainTokenManager "k") Minute Minute
          (GenerateAccessToken (mainTokenManager "k") 0 exampleUserID "+996700123456"
            "customer").token =
        some { claims := some claims, err := none } ∧
      claims.Type_ = "access" ∧ claims.UserID = exampleUserID ∧
        claims.Phone = "+996700123456" ∧ claims.Role = "customer" :=
  ValidateToken_roundtrip.1 (mainTokenManager "k") 0 Minute Minute exampleUserID
    "+996700123456" "customer" (by decide) (by decide) (by decide)

theorem ValidateToken_parse_error (tm : TokenManager) (nowParse nowCheck : Time)
    (tokenString : TokenString) (e : JwtError)
    (h : ParseWithClaims tokenString tm.secretKey nowParse = .error e) :
    ValidateToken tm nowParse nowCheck tokenString =
      some { claims := none, err := some TokenError.ErrInvalidToken } := by
  simp [ValidateToken, h]

theorem ParseWithClaims_expired (alg key : String) (claims : TokenClaims) (now exp : Time)
    (hexp : claims.Registered.ExpiresAt = some exp) (h : ¬ now < exp) :
    ∃ e : JwtError, ParseWithClaims (TokenString.jws alg key claims) key now = .error e := by
  unfold ParseWithClaims
  simp only []
  split
  · exact ⟨_, rfl⟩
  · split
    · exact ⟨_, rfl⟩
    · split
      · exact ⟨_, rfl⟩
      · simp [validateClaims, hexp, Time.Before, h]

/-- C14, at a failing input: an access token of the manager of `main`
issued at instant 0 expires after 15 minutes; validated at minute 16 it is
answered with `ErrInvalidToken`, not with `ErrExpiredToken`, because the
parser has already refused it as expired. -/
theorem ValidateToken_expired_reports_invalid :
    ValidateToken (mainTokenManager "k") (16 * Minute) (16 * Minute)
        (GenerateAccessToken (mainTokenManager "k") 0 exampleUserID "+996700123456"
          "customer").token =
      some { claims := none, err := some TokenError.ErrInvalidToken } := by
  decide

theorem ParseWithClaims_signature (alg key secret : String) (claims : TokenClaims) (now : Time)
    (hk : hmacKeyBlock alg (stringBytes key) ≠ hmacKeyBlock alg (stringBytes secret)) :
    ∃ e : JwtError, ParseWithClaims (TokenString.jws alg key claims) secret now = .error e := by
  unfold ParseWithClaims
  simp only []
  split
  · exact ⟨_, rfl⟩
  · split
    · exact ⟨_, rfl⟩
    · exact ⟨_, rfl⟩

theorem ParseWithClaims_same_block (alg key secret : String) (claims : TokenClaims) (now : Time)
    (hk : hmacKeyBlock alg (stringBytes key) = hmacKeyBlock alg (stringBytes secret)) :
    ParseWithClaims (TokenString.jws alg key claims) secret now =
      ParseWithClaims (TokenString.jws alg secret claims) secret now := by
  unfold ParseWithClaims
  simp only [hk]

/-- A key of at most a block that does not end in a zero byte is read off
its key block: two such keys with the same block are the same key. -/
theorem zero_fill_injective (k1 k2 : Bytes) (n : Nat)
    (z1 : k1.getLast? ≠ some 0) (z2 : k2.getLast? ≠ some 0)
    (h : k1 ++ List.replicate (n - k1.length) 0 = k2 ++ List.replicate (n - k2.length) 0) :
    k1 = k2 := by
  have key : ∀ (a b : Bytes) (p q : Nat), a.getLast? ≠ some 0 → b.getLast? ≠ some 0 →
      a ++ List.replicate p 0 = b ++ List.replicate q 0 → a.length ≤ b.length → a = b := by
    intro a b p q za zb hab hlen
    obtain ⟨t, rfl⟩ : ∃ t, b = a ++ t := by
      have h1 : a = (a ++ List.replicate p 0).take a.length := by simp
      have h2 : (b ++ List.replicate q 0).take a.length = b.take a.length := by
        rw [List.take_append_of_le_length hlen]
      refine ⟨b.drop a.length, ?_⟩
      rw [hab, h2] at h1
      conv_lhs => rw [← List.take_append_drop a.length b]
      rw [← h1]
    cases ht : t.getLast? with
    | none =>
      have : t = [] := List.getLast?_eq_none_iff.mp ht
      simp [this]
    | some x =>
      exfalso
      have hmem : x ∈ t := List.mem_of_getLast?_eq_some ht
      have hrep : List.replicate p 0 = t ++ List.replicate q 0 := by
        rw [List.append_assoc] at hab
        exact List.append_cancel_left hab
      have hx : x ∈ List.replicate p 0 := by
        rw [hrep]; exact List.mem_append_left _ hmem
      have hx0 : x = 0 := (List.mem_replicate.mp hx).2
      have hlast : (a ++ t).getLast? = some 0 := by
        have hne : t ≠ [] := by
          intro e; rw [e] at ht; exact Option.noConfusion ht
        rw [List.getLast?_append_of_ne_nil _ hne, ht, hx0]
      exact zb hlast
  rcases Nat.le_total k1.length k2.length with hle | hle
  · exact key k1 k2 _ _ z1 z2 h hle
  · exact (key k2 k1 _ _ z2 z1 h.symm hle).symm

/-- C15, as the claim states it, fails for a secret that HMAC cannot tell
from the manager's: the manager of `main` with the secret `k` accepts the
access token signed with the different secret `k` followed by a zero byte,
because `hmac.New` fills both keys with zero bytes to the same block. -/
theorem ValidateToken_accepts_zero_filled_secret :
    (mainTokenManager "k\x00").secretKey ≠ (mainTokenManager "k").secretKey ∧
    ValidateToken (mainTokenManager "k") Minute Minute
        (GenerateAccessToken (mainTokenManager "k\x00") 0 exampleUserID "+996700123456"
          "admin").token =
      some
        { claims := some
            { UserID := exampleUserID, Phone := "+996700123456", Role := "admin",
              Type_ := "access",
              Registered :=
                { Issuer := "skypark-api", Subject := exampleUserID.String, Audience := [],
                  ExpiresAt := some (15 * Minute), NotBefore := some 0, IssuedAt := some 0,
                  ID := "" } },
          err := none } := by
  decide

/-- C15, amended: whenever the parser returns an error for the token string
under the secret of the manager, `ValidateToken` returns no claims and
`ErrInvalidToken`; this is the case of every string that is not a token, of
every token whose header names an algorithm outside the HMAC family, and of
every token signed with a secret from which `hmac.New` prepares another key
block than from the manager's, as it does for two different secrets of at
most a block (64 bytes for `HS256`) neither of which ends in a zero byte. A
token signed with a secret that gives the same key block is treated as one
signed with the manager's secret. -/
theorem ValidateToken_rejected_is_invalid :
    (∀ (tm : TokenManager) (nowParse nowCheck : Time) (tokenString : TokenString)
        (e : JwtError),
      ParseWithClaims tokenString tm.secretKey nowParse = .error e →
      ValidateToken tm nowParse nowCheck tokenString =
        some { claims := none, err := some TokenError.ErrInvalidToken }) ∧
    (∀ (tm : TokenManager) (nowParse nowCheck : Time) (alg key : String)
        (claims : TokenClaims),
      hmacKeyBlock alg (stringBytes key) ≠ hmacKeyBlock alg (stringBytes tm.secretKey) →
      ValidateToken tm nowParse nowCheck (TokenString.jws alg key claims) =
        some { claims := none, err := some TokenError.ErrInvalidToken }) ∧
    (∀ (tm : TokenManager) (nowParse nowCheck : Time) (key : String) (claims : TokenClaims),
      stringBytes key ≠ stringBytes tm.secretKey →
      (stringBytes key).length ≤ 64 → (stringBytes tm.secretKey).length ≤ 64 →
      (stringBytes key).getLast? ≠ some 0 → (stringBytes tm.secretKey).getLast? ≠ some 0 →
      ValidateToken tm nowParse nowCheck (TokenString.jws "HS256" key claims) =
        some { claims := none, err := some TokenError.ErrInvalidToken }) ∧
    (∀ (tm : TokenManager) (nowParse nowCheck : Time) (alg key : String)
        (claims : TokenClaims),
      hmacKeyBlock alg (stringBytes key) = hmacKeyBlock alg (stringBytes tm.secretKey) →
      ValidateToken tm nowParse nowCheck (TokenString.jws alg key claims) =
        ValidateToken tm nowParse nowCheck (TokenString.jws alg tm.secretKey claims)) ∧
    (∀ (tm : TokenManager) (nowParse nowCheck : Time) (raw : String),
      ValidateToken tm nowParse nowCheck (TokenString.other raw) =
        some { claims := none, err := some TokenError.ErrInvalidToken }) ∧
    (∀ (tm : TokenManager) (nowParse nowCheck : Time) (alg key : String)
        (claims : TokenClaims),
      alg ∉ hmacMethods →
      ValidateToken tm nowParse nowCheck (TokenString.jws alg key claims) =
        some { claims := none, err := some TokenError.ErrInvalidToken }) := by
  have hblock : ∀ (tm : TokenManager) (nowParse nowCheck : Time) (alg key : String)
      (claims : TokenClaims),
      hmacKeyBlock alg (stringBytes key) ≠ hmacKeyBlock alg (stringBytes tm.secretKey) →
      ValidateToken tm nowParse nowCheck (TokenString.jws alg key claims) =
        some { claims := none, err := some TokenError.ErrInvalidToken } := by
    intro tm nowParse nowCheck alg key claims hk
    obtain ⟨e, he⟩ := ParseWithClaims_signature alg key tm.secretKey claims nowParse hk
    exact ValidateToken_parse_error tm nowParse nowCheck _ e he
  refine ⟨ValidateToken_parse_error, hblock, ?_, ?_, ?_, ?_⟩
  · intro tm nowParse nowCheck key claims hne h1 h2 z1 z2
    apply hblock
    intro hk
    apply hne
    have e1 : hmacKeyBlock "HS256" (stringBytes key) =
        stringBytes key ++ List.replicate (64 - (stringBytes key).length) 0 := by
      simp [hmacKeyBlock, hmacHash, sha256, Sha2.blockSize, Nat.not_lt.mpr h1]
    have e2 : hmacKeyBlock "HS256" (stringBytes tm.secretKey) =
        stringBytes tm.secretKey ++
          List.replicate (64 - (stringBytes tm.secretKey).length) 0 := by
      simp [hmacKeyBlock, hmacHash, sha256, Sha2.blockSize, Nat.not_lt.mpr h2]
    rw [e1, e2] at hk
    exact zero_fill_injective _ _ 64 z1 z2 hk
  · intro tm nowParse nowCheck alg key claims hk
    simp only [ValidateToken, ParseWithClaims_same_block alg key tm.secretKey claims nowParse hk]
  · intro tm nowParse nowCheck raw
    exact ValidateToken_parse_error tm nowParse nowCheck _ JwtError.ErrTokenMalformed rfl
  · intro tm nowParse nowCheck alg key claims ha
    have : ∃ e : JwtError,
        ParseWithClaims (TokenString.jws alg key claims) tm.secretKey nowParse = .error e := by
      unfold ParseWithClaims
      simp only []
      split
      · exact ⟨_, rfl⟩
      · exact ⟨_, rfl⟩
    obtain ⟨e, he⟩ := this
    exact ValidateToken_parse_error tm nowParse nowCheck _ e he

/-- Instance of C15 as amended: an unexpired token signed with another
secret. -/
theorem ValidateToken_rejected_is_invalid_witness :
    ValidateToken (mainTokenManager "k") Minute Minute
        (GenerateAccessToken (mainTokenManager "other") 0 exampleUserID "+996700123456"
          "admin").token =
      some { claims := none, err := some TokenError.ErrInvalidToken } :=
  ValidateToken_rejected_is_invalid.2.2.1 (mainTokenManager "k") Minute Minute "other" _
    (by decide) (by decide) (by decide) (by decide) (by decide)

theorem ValidateToken_expired_at_parse (tm : TokenManager) (nowParse nowCheck : Time)
    (alg : String) (claims : TokenClaims) (exp : Time)
    (hexp : claims.Registered.ExpiresAt = some exp) (h : ¬ nowParse < exp) :
    ValidateToken tm nowParse nowCheck (TokenString.jws alg tm.secretKey claims) =
      some { claims := none, err := some TokenError.ErrInvalidToken } := by
  obtain ⟨e, he⟩ := ParseWithClaims_expired alg tm.secretKey claims nowParse exp hexp h
  exact ValidateToken_parse_error tm nowParse nowCheck _ e he

theorem RefreshTokens_of_error (tm : TokenManager) (nowParse nowCheck nowAccess nowRefresh : Time)
    (refreshToken : TokenString) (err : TokenError)
    (h : ValidateToken tm nowParse nowCheck refreshToken =
      some { claims := none, err := some err }) :
    RefreshTokens tm nowParse nowCheck nowAccess nowRefresh refreshToken =
      some { access := TokenString.empty, refresh := TokenString.empty, err := some err } := by
  simp [RefreshTokens, h]

theorem RefreshTokens_of_wrong_type (tm : TokenManager)
    (nowParse nowCheck nowAccess nowRefresh : Time) (refreshToken : TokenString)
    (claims : TokenClaims)
    (h : ValidateToken tm nowParse nowCheck refreshToken =
      some { claims := some claims, err := none })
    (ht : claims.Type_ ≠ "refresh") :
    RefreshTokens tm nowParse nowCheck nowAccess nowRefresh refreshToken =
      some { access := TokenString.empty, refresh := TokenString.empty,
             err := some TokenError.ErrInvalidToken } := by
  simp [RefreshTokens, h, ht]

theorem RefreshTokens_of_refresh (tm : TokenManager)
    (nowParse nowCheck nowAccess nowRefresh : Time) (refreshToken : TokenString)
    (claims : TokenClaims)
    (h : ValidateToken tm nowParse nowCheck refreshToken =
      some { claims := some claims, err := none })
    (ht : claims.Type_ = "refresh") :
    RefreshTokens tm nowParse nowCheck nowAccess nowRefresh refreshToken =
      some { access :=
               (GenerateAccessToken tm nowAccess claims.UserID claims.Phone claims.Role).token,
             refresh :=
               (GenerateRefreshToken tm nowRefresh claims.UserID claims.Phone claims.Role).token,
             err := none } := by
  simp [RefreshTokens, h, ht, GenerateAccessToken, GenerateRefreshToken, generateToken,
    SignedString]

/-- C16: for a token that `ValidateToken` accepts with a `Type` other than
"refresh", `RefreshTokens` returns two empty strings and `ErrInvalidToken`
and no token is made; this is the case of every access token validated in
its lifetime; for a token that `ValidateToken` rejects, `RefreshTokens`
returns two empty strings and the error of `ValidateToken`. -/
theorem RefreshTokens_rejects :
    (∀ (tm : TokenManager) (nowParse nowCheck nowAccess nowRefresh : Time)
        (refreshToken : TokenString) (claims : TokenClaims),
      ValidateToken tm nowParse nowCheck refreshToken =
        some { claims := some claims, err := none } →
      claims.Type_ ≠ "refresh" →
      RefreshTokens tm nowParse nowCheck nowAccess nowRefresh refreshToken =
        some { access := TokenString.empty, refresh := TokenString.empty,
               err := some TokenError.ErrInvalidToken }) ∧
    (∀ (tm : TokenManager) (nowIssue nowParse nowCheck nowAccess nowRefresh : Time)
        (userID : UUID) (phone role : String),
      nowIssue ≤ nowParse →
      nowParse.Before (NewNumericDate (nowIssue.Add tm.accessTokenTTL)) = true →
      (NewNumericDate (nowIssue.Add tm.accessTokenTTL)).Before nowCheck = false →
      RefreshTokens tm nowParse nowCheck nowAccess nowRefresh
          (GenerateAccessToken tm nowIssue userID phone role).token =
        some { access := TokenString.empty, refresh := TokenString.empty,
               err := some TokenError.ErrInvalidToken }) ∧
    (∀ (tm : TokenManager) (nowParse nowCheck nowAccess nowRefresh : Time)
        (refreshToken : TokenString) (err : TokenError),
      ValidateToken tm nowParse nowCheck refreshToken =
        some { claims := none, err := some err } →
      RefreshTokens tm nowParse nowCheck nowAccess nowRefresh refreshToken =
        some { access := TokenString.empty, refresh := TokenString.empty,
               err := some err }) := by
  refine ⟨RefreshTokens_of_wrong_type, ?_, RefreshTokens_of_error⟩
  intro tm nowIssue nowParse nowCheck nowAccess nowRefresh userID phone role h1 h2 h3
  have h2a : nowParse < NewNumericDate (nowIssue + tm.accessTokenTTL) := by
    simpa [Time.Before, Time.Add] using h2
  have h3a : ¬ NewNumericDate (nowIssue + tm.accessTokenTTL) < nowCheck := by
    simpa [Time.Before, Time.Add] using h3
  have hv := ValidateToken_generateToken tm nowIssue nowParse nowCheck userID phone role
    "access" tm.accessTokenTTL h1 h2a h3a
  exact RefreshTokens_of_wrong_type tm nowParse nowCheck nowAccess nowRefresh _ _ hv
    (by show "access" ≠ "refresh"; decide)

/-- Instance of C16: an access token handed to `RefreshTokens` one minute
after it was issued. -/
theorem RefreshTokens_rejects_witness :
    RefreshTokens (mainTokenManager "k") Minute Minute Minute Minute
        (GenerateAccessToken (mainTokenManager "k") 0 exampleUserID "+996700123456"
          "customer").token =
      some { access := TokenString.empty, refresh := TokenString.empty,
             err := some TokenError.ErrInvalidToken } :=
  RefreshTokens_rejects.2.1 (mainTokenManager "k") 0 Minute Minute Minute Minute exampleUserID
    "+996700123456" "customer" (by decide) (by decide) (by decide)

/-- C17: for a token that `ValidateToken` accepts with `Type` "refresh",
`RefreshTokens` returns no error, the access token made by
`GenerateAccessToken` and the refresh token made by `GenerateRefreshToken`
for the user id, phone and role of the claims; each of the two, validated
not before it was issued and before its expiry, yields `Type` "access",
respectively "refresh", and the user id, phone and role of the token that
was handed in. -/
theorem RefreshTokens_rotates (tm : TokenManager)
    (nowParse nowCheck nowAccess nowRefresh : Time) (refreshToken : TokenString)
    (claims : TokenClaims)
    (hv : ValidateToken tm nowParse nowCheck refreshToken =
      some { claims := some claims, err := none })
    (ht : claims.Type_ = "refresh") :
    ∃ access refresh : TokenString,
      RefreshTokens tm nowParse nowCheck nowAccess nowRefresh refreshToken =
        some { access := access, refresh := refresh, err := none } ∧
      (∀ t1 t2 : Time, nowAccess ≤ t1 →
        t1.Before (NewNumericDate (nowAccess.Add tm.accessTokenTTL)) = true →
        (NewNumericDate (nowAccess.Add tm.accessTokenTTL)).Before t2 = false →
        ∃ c : TokenClaims,
          ValidateToken tm t1 t2 access = some { claims := some c, err := none } ∧
          c.Type_ = "access" ∧ c.UserID = claims.UserID ∧ c.Phone = claims.Phone ∧
            c.Role = claims.Role) ∧
      (∀ t1 t2 : Time, nowRefresh ≤ t1 →
        t1.Before (NewNumericDate (nowRefresh.Add tm.refreshTokenTTL)) = true →
        (NewNumericDate (nowRefresh.Add tm.refreshTokenTTL)).Before t2 = false →
        ∃ c : TokenClaims,
          ValidateToken tm t1 t2 refresh = some { claims := some c, err := none } ∧
          c.Type_ = "refresh" ∧ c.UserID = claims.UserID ∧ c.Phone = claims.Phone ∧
            c.Role = claims.Role) := by
  refine ⟨_, _, RefreshTokens_of_refresh tm nowParse nowCheck nowAccess nowRefresh refreshToken
    claims hv ht, ?_, ?_⟩
  · intro t1 t2 h1 h2 h3
    have h2a : t1 < NewNumericDate (nowAccess + tm.accessTokenTTL) := by
      simpa [Time.Before, Time.Add] using h2
    have h3a : ¬ NewNumericDate (nowAccess + tm.accessTokenTTL) < t2 := by
      simpa [Time.Before, Time.Add] using h3
    exact ⟨_, ValidateToken_generateToken tm nowAccess t1 t2 claims.UserID claims.Phone
      claims.Role "access" tm.accessTokenTTL h1 h2a h3a, rfl, rfl, rfl, rfl⟩
  · intro t1 t2 h1 h2 h3
    have h2a : t1 < NewNumericDate (nowRefresh + tm.refreshTokenTTL) := by
      simpa [Time.Before, Time.Add] using h2
    have h3a : ¬ NewNumericDate (nowRefresh + tm.refreshTokenTTL) < t2 := by
      simpa [Time.Before, Time.Add] using h3
    exact ⟨_, ValidateToken_generateToken tm nowRefresh t1 t2 claims.UserID claims.Phone
      claims.Role "refresh" tm.refreshTokenTTL h1 h2a h3a, rfl, rfl, rfl, rfl⟩

/-- Instance of C17: a refresh token of the manager of `main` exchanged one
hour after it was issued. -/
theorem RefreshTokens_rotates_witness :
    ∃ access refresh : TokenString,
      RefreshTokens (mainTokenManager "k") Hour Hour Hour Hour
          (GenerateRefreshToken (mainTokenManager "k") 0 exampleUserID "+996700123456"
            "customer").token =
        some { access := access, refresh := refresh, err := none } :=
  have h := RefreshTokens_rotates (mainTokenManager "k") Hour Hour Hour Hour
    (GenerateRefreshToken (mainTokenManager "k") 0 exampleUserID "+996700123456"
      "customer").token
    { UserID := exampleUserID, Phone := "+996700123456", Role := "customer", Type_ := "refresh",
      Registered :=
        { Issuer := "skypark-api", Subject := exampleUserID.String, Audience := [],
          ExpiresAt := some (7 * 24 * Hour), NotBefore := some 0, IssuedAt := some 0,
          ID := "" } }
    (by decide) (by decide)
  ⟨h.choose, h.choose_spec.choose, h.choose_spec.choose_spec.1⟩

/-! ## The middleware -/

theorem Context.Get_proceed (c : Context) (claims : TokenClaims) :
    (c.proceed claims).Get "user_id" = some (CtxValue.uuid claims.UserID) ∧
    (c.proceed claims).Get "user_phone" = some (CtxValue.str claims.Phone) ∧
    (c.proceed claims).Get "user_role" = some (CtxValue.str claims.Role) := by
  simp [Context.proceed, Context.Get, Context.Set, Context.Next, List.find?, List.filter]

theorem AuthRequired_empty (tm : TokenManager) (tokenOf : String → TokenString)
    (nowParse nowCheck : Time) (c : Context) :
    AuthRequired tm tokenOf nowParse nowCheck "" c =
      some (c.refuse "AUTH_REQUIRED" "Authorization header is required") := by
  simp [AuthRequired, Context.refuse]

theorem AuthRequired_format (tm : TokenManager) (tokenOf : String → TokenString)
    (nowParse nowCheck : Time) (authHeader : String) (c : Context)
    (h0 : authHeader ≠ "")
    (h : ¬ ∃ token : String, stringsSplit authHeader ' ' = ["Bearer", token]) :
    AuthRequired tm tokenOf nowParse nowCheck authHeader c =
      some (c.refuse "INVALID_TOKEN_FORMAT" "Invalid authorization header format") := by
  unfold AuthRequired
  rw [if_neg h0]
  split
  · rename_i p0 token hs
    by_cases hp : p0 = "Bearer"
    · exact absurd ⟨token, by rw [hs, hp]⟩ h
    · simp [hp, Context.refuse]
  · rfl

theorem AuthRequired_bearer (tm : TokenManager) (tokenOf : String → TokenString)
    (nowParse nowCheck : Time) (authHeader token : String) (c : Context)
    (h0 : authHeader ≠ "") (h : stringsSplit authHeader ' ' = ["Bearer", token]) :
    AuthRequired tm tokenOf nowParse nowCheck authHeader c =
      match ValidateToken tm nowParse nowCheck (tokenOf token) with
      | none => none
      | some { claims := _, err := some TokenError.ErrExpiredToken } =>
        some (c.refuse "TOKEN_EXPIRED" "Token has expired")
      | some { claims := _, err := some TokenError.ErrInvalidToken } =>
        some (c.refuse "INVALID_TOKEN" "Invalid token")
      | some { claims := _, err := some (TokenError.other _) } =>
        some (c.refuse "AUTH_ERROR" "Authentication error")
      | some { claims := none, err := none } => none
      | some { claims := some claims, err := none } =>
        if claims.Type_ ≠ "access" then
          some (c.refuse "INVALID_TOKEN_TYPE" "Access token required")
        else some (c.proceed claims) := by
  unfold AuthRequired
  rw [if_neg h0, h]
  simp only [ne_eq, not_true_eq_false, ↓reduceIte]
  cases hv : ValidateToken tm nowParse nowCheck (tokenOf token) with
  | none => rfl
  | some r =>
    obtain ⟨cl, er⟩ := r
    cases er with
    | some e => cases e <;> cases cl <;> rfl
    | none =>
      cases cl with
      | none => rfl
      | some claims => rfl

/-- C18: the decisions of `AuthRequired`. An empty header is refused with
401 `AUTH_REQUIRED`; a header that does not split on single spaces into
`Bearer` and one more part with 401 `INVALID_TOKEN_FORMAT`; otherwise, for
every result that `ValidateToken` returns for the second part:
`ErrExpiredToken` gives 401 `TOKEN_EXPIRED`, `ErrInvalidToken` gives 401
`INVALID_TOKEN`, claims whose `Type` is not "access" give 401
`INVALID_TOKEN_TYPE`, and claims of `Type` "access" let the request
proceed; these are all the results there are. A refusal has status 401,
aborts the chain and leaves the keys of the context as they were; a request
that proceeds has `user_id`, `user_phone` and `user_role` set to the
`UserID`, `Phone` and `Role` of the claims. -/
theorem AuthRequired_decision (tm : TokenManager) (tokenOf : String → TokenString)
    (nowParse nowCheck : Time) (authHeader : String) (c : Context) :
    (authHeader = "" →
      AuthRequired tm tokenOf nowParse nowCheck authHeader c =
        some (c.refuse "AUTH_REQUIRED" "Authorization header is required")) ∧
    (authHeader ≠ "" →
      (¬ ∃ token : String, stringsSplit authHeader ' ' = ["Bearer", token]) →
      AuthRequired tm tokenOf nowParse nowCheck authHeader c =
        some (c.refuse "INVALID_TOKEN_FORMAT" "Invalid authorization header format")) ∧
    (∀ (token : String) (r : ValidateResult),
      authHeader ≠ "" → stringsSplit authHeader ' ' = ["Bearer", token] →
      ValidateToken tm nowParse nowCheck (tokenOf token) = some r →
      (r.err = some TokenError.ErrExpiredToken →
        AuthRequired tm tokenOf nowParse nowCheck authHeader c =
          some (c.refuse "TOKEN_EXPIRED" "Token has expired")) ∧
      (r.err = some TokenError.ErrInvalidToken →
        AuthRequired tm tokenOf nowParse nowCheck authHeader c =
          some (c.refuse "INVALID_TOKEN" "Invalid token")) ∧
      (∀ claims : TokenClaims, r = { claims := some claims, err := none } →
        claims.Type_ ≠ "access" →
        AuthRequired tm tokenOf nowParse nowCheck authHeader c =
          some (c.refuse "INVALID_TOKEN_TYPE" "Access token required")) ∧
      (∀ claims : TokenClaims, r = { claims := some claims, err := none } →
        claims.Type_ = "access" →
        AuthRequired tm tokenOf nowParse nowCheck authHeader c =
          some (c.proceed claims)) ∧
      (r.err = some TokenError.ErrExpiredToken ∨ r.err = some TokenError.ErrInvalidToken ∨
        ∃ claims : TokenClaims, r = { claims := some claims, err := none })) ∧
    (∀ code message : String,
      (c.refuse code message).status = some 401 ∧ (c.refuse code message).aborted = true ∧
      (c.refuse code message).next = c.next ∧ (c.refuse code message).Keys = c.Keys) ∧
    (∀ claims : TokenClaims,
      (c.proceed claims).next = true ∧ (c.proceed claims).aborted = c.aborted ∧
      (c.proceed claims).status = c.status ∧
      (c.proceed claims).Get "user_id" = some (CtxValue.uuid claims.UserID) ∧
      (c.proceed claims).Get "user_phone" = some (CtxValue.str claims.Phone) ∧
      (c.proceed claims).Get "user_role" = some (CtxValue.str claims.Role)) := by
  refine ⟨?_, ?_, ?_, ?_, ?_⟩
  · intro h
    rw [h]
    exact AuthRequired_empty tm tokenOf nowParse nowCheck c
  · intro h0 h
    exact AuthRequired_format tm tokenOf nowParse nowCheck authHeader c h0 h
  · intro token r h0 hs hv
    have e := AuthRequired_bearer tm tokenOf nowParse nowCheck authHeader token c h0 hs
    rw [hv] at e
    have hcases := ValidateToken_err_cases tm nowParse nowCheck (tokenOf token) r hv
    refine ⟨?_, ?_, ?_, ?_, ?_⟩
    · intro he
      rcases hcases with rfl | rfl | ⟨claims, rfl⟩
      · simp at he
      · exact e
      · simp at he
    · intro he
      rcases hcases with rfl | rfl | ⟨claims, rfl⟩
      · exact e
      · simp at he
      · simp at he
    · intro claims hr ht
      subst hr
      rw [e]
      simp [ht]
    · intro claims hr ht
      subst hr
      rw [e]
      simp [ht]
    · rcases hcases with rfl | rfl | ⟨claims, rfl⟩
      · exact Or.inr (Or.inl rfl)
      · exact Or.inl rfl
      · exact Or.inr (Or.inr ⟨claims, rfl⟩)
  · intro code message
    exact ⟨rfl, rfl, rfl, rfl⟩
  · intro claims
    have h := Context.Get_proceed c claims
    exact ⟨rfl, rfl, rfl, h.1, h.2.1, h.2.2⟩

/-- Instance of C18: a header carrying an access token in its lifetime. -/
theorem AuthRequired_decision_witness :
    AuthRequired (mainTokenManager "k") exampleTokenOf Minute Minute "Bearer good" Context.new =
      some (Context.new.proceed
        { UserID := exampleUserID, Phone := "+996700123456", Role := "customer",
          Type_ := "access",
          Registered :=
            { Issuer := "skypark-api", Subject := exampleUserID.String, Audience := [],
              ExpiresAt := some (15 * Minute), NotBefore := some 0, IssuedAt := some 0,
              ID := "" } }) :=
  ((AuthRequired_decision (mainTokenManager "k") exampleTokenOf Minute Minute "Bearer good"
    Context.new).2.2.1 "good" _ (by decide) (by decide) (by decide)).2.2.2.1 _ rfl (by decide)

/-! ## The login handler -/

theorem VerifyCode_maxAttempts (s : SMSService) (now : Time) (phone inputCode : String) :
    (VerifyCode s now phone inputCode).svc.maxAttempts = s.maxAttempts := by
  rcases VerifyCode_svc_cases s now phone inputCode with e | e | ⟨r, _, _, e⟩ <;> rw [e]

theorem VerifyCode_failure_remaining (s : SMSService) (now : Time) (phone inputCode : String) :
    ((VerifyCode s now phone inputCode).err = some errNoCodeFound ∨
        (VerifyCode s now phone inputCode).err = some errCodeExpired ∨
        (VerifyCode s now phone inputCode).err = some errAttemptsExceeded →
      GetRemainingAttempts (VerifyCode s now phone inputCode).svc phone = s.maxAttempts) ∧
    ((VerifyCode s now phone inputCode).err = some errCodeMismatch →
      ∃ r : SMSCode, s.codes phone = some r ∧
        GetRemainingAttempts (VerifyCode s now phone inputCode).svc phone =
          s.maxAttempts - (r.Attempts + 1)) := by
  cases h : s.codes phone with
  | none =>
    rw [VerifyCode_none s now phone inputCode h]
    refine ⟨fun _ => by simp [GetRemainingAttempts, h], fun hm => ?_⟩
    exact absurd (Option.some.inj hm) (by decide)
  | some r =>
    by_cases hexp : r.ExpiresAt < now
    · rw [VerifyCode_expired s now phone inputCode r h hexp]
      refine ⟨fun _ => by simp [GetRemainingAttempts, CodeMap.delete], fun hm => ?_⟩
      exact absurd (Option.some.inj hm) (by decide)
    · by_cases hatt : r.Attempts < s.maxAttempts
      · by_cases hc : r.Code = inputCode
        · rw [VerifyCode_match s now phone inputCode r h hexp hatt hc]
          refine ⟨fun _ => by simp [GetRemainingAttempts, CodeMap.delete], fun hm => ?_⟩
          exact Option.noConfusion hm
        · rw [VerifyCode_mismatch s now phone inputCode r h hexp hatt hc]
          refine ⟨fun hk => ?_, fun _ => ⟨r, rfl, by simp [GetRemainingAttempts, CodeMap.set]⟩⟩
          rcases hk with hk | hk | hk <;> exact absurd (Option.some.inj hk) (by decide)
      · by_cases hmax : r.Attempts = MaxInt64
        · by_cases hc : r.Code = inputCode
          · rw [VerifyCode_wrapped_match s now phone inputCode r h hexp hmax hc]
            refine ⟨fun _ => by simp [GetRemainingAttempts, CodeMap.delete], fun hm => ?_⟩
            exact Option.noConfusion hm
          · rw [VerifyCode_wrapped_mismatch s now phone inputCode r h hexp hmax hc]
            refine ⟨fun hk => ?_,
              fun _ => ⟨r, rfl, by simp [GetRemainingAttempts, CodeMap.set, hmax, MaxInt64_succ]⟩⟩
            rcases hk with hk | hk | hk <;> exact absurd (Option.some.inj hk) (by decide)
        · rw [VerifyCode_exceeded s now phone inputCode r h hexp (not_lt.mp hatt) hmax]
          refine ⟨fun _ => by simp [GetRemainingAttempts, CodeMap.delete], fun hm => ?_⟩
          exact absurd (Option.some.inj hm) (by decide)

theorem VerifyAndLogin_of_failure (h : AuthHandlers) (env : LoginEnv) (c : Context)
    (req : LoginRequest) (hb : env.bound = .ok req)
    (hf : (VerifyCode h.smsService env.nowVerify req.Phone req.Code).err ≠ none ∨
      (VerifyCode h.smsService env.nowVerify req.Phone req.Code).ok = false) :
    VerifyAndLogin h env c =
      { h := { h with
               smsService := (VerifyCode h.smsService env.nowVerify req.Phone req.Code).svc },
        c := c.JSON StatusBadRequest
          (invalidSMSCodeBody
            (GetRemainingAttempts
              (VerifyCode h.smsService env.nowVerify req.Phone req.Code).svc req.Phone)) } := by
  have hcond : ((VerifyCode h.smsService env.nowVerify req.Phone req.Code).err.isSome ||
      !(VerifyCode h.smsService env.nowVerify req.Phone req.Code).ok) = true := by
    rcases hf with hf | hf
    · cases he : (VerifyCode h.smsService env.nowVerify req.Phone req.Code).err with
      | none => exact absurd he hf
      | some e => simp
    · simp [hf]
  simp only [VerifyAndLogin, hb, hcond, if_true, invalidSMSCodeBody]

theorem VerifyAndLogin_of_success (h : AuthHandlers) (env : LoginEnv) (c : Context)
    (req : LoginRequest) (user : User) (hb : env.bound = .ok req)
    (hv : (VerifyCode h.smsService env.nowVerify req.Phone req.Code).ok = true ∧
      (VerifyCode h.smsService env.nowVerify req.Phone req.Code).err = none)
    (hu : h.db.firstByPhone req.Phone env.findFault = .ok user) :
    VerifyAndLogin h env c =
      loginAs
        { h with smsService := (VerifyCode h.smsService env.nowVerify req.Phone req.Code).svc }
        env c user := by
  simp only [VerifyAndLogin, hb, hv.1, hv.2, hu]
  simp

theorem leastID_of_all_eq (user : User) (l : List User) (hne : l ≠ [])
    (hall : ∀ u ∈ l, u = user) : leastID l = some user := by
  induction l with
  | nil => exact absurd rfl hne
  | cons u us ih =>
    have hu : u = user := hall u (List.mem_cons_self _ _)
    cases hus : us with
    | nil => simp [leastID, hu]
    | cons w ws =>
      have hrec : leastID us = some user :=
        ih (by rw [hus]; exact List.cons_ne_nil _ _)
          (fun x hx => hall x (List.mem_cons_of_mem _ hx))
      rw [← hus]
      simp [leastID, hrec, hu]

theorem DB.firstByPhone_unique (db : DB) (user : User) (hu : user ∈ db.users)
    (hd : user.DeletedAt = none) (huniq : db.uniquePhones) :
    db.firstByPhone user.PhoneNumber none = .ok user := by
  have hmem : user ∈ db.users.filter
      (fun u => decide (u.PhoneNumber = user.PhoneNumber) && u.DeletedAt.isNone) := by
    simp [List.mem_filter, hu, hd]
  have hall : ∀ u ∈ db.users.filter
      (fun u => decide (u.PhoneNumber = user.PhoneNumber) && u.DeletedAt.isNone),
      u = user := by
    intro u hmu
    have h1 := List.mem_filter.mp hmu
    have hp : u.PhoneNumber = user.PhoneNumber := by
      have := h1.2
      simp only [Bool.and_eq_true, decide_eq_true_eq] at this
      exact this.1
    exact huniq u h1.1 user hu hp
  have hl := leastID_of_all_eq user _ (List.ne_nil_of_mem hmem) hall
  simp [DB.firstByPhone, hl]

/-- C19, refuted as stated: a call for a phone with no record fails in
`VerifyCode` with "no verification code found for this phone number", a call
for an expired record with "verification code has expired" and a call for a
record that has used its attempts with "maximum verification attempts
exceeded", yet `VerifyAndLogin` answers the three with the same status and
body. -/
theorem VerifyAndLogin_failures_not_told_apart :
    (VerifyCode NewSMSService 2000 "+996700123456" "123456").err = some errNoCodeFound ∧
    (VerifyCode (exampleService 0) 2000 "+996700123456" "123456").err = some errCodeExpired ∧
    (VerifyCode (exampleService 3) 10 "+996700123456" "123456").err =
      some errAttemptsExceeded ∧
    errNoCodeFound ≠ errCodeExpired ∧ errCodeExpired ≠ errAttemptsExceeded ∧
    errNoCodeFound ≠ errAttemptsExceeded ∧
    (VerifyAndLogin (exampleHandlers NewSMSService []) (exampleEnv "123456" 2000)
        Context.new).c =
      (VerifyAndLogin (exampleHandlers (exampleService 0) []) (exampleEnv "123456" 2000)
        Context.new).c ∧
    (VerifyAndLogin (exampleHandlers (exampleService 0) []) (exampleEnv "123456" 2000)
        Context.new).c =
      (VerifyAndLogin (exampleHandlers (exampleService 3) []) (exampleEnv "123456" 10)
        Context.new).c := by
  refine ⟨by decide, by decide, by decide, by decide, by decide, by decide, ?_, ?_⟩
  · rw [VerifyAndLogin_of_failure _ _ _ _ rfl (Or.inr (by decide)),
      VerifyAndLogin_of_failure _ _ _ _ rfl (Or.inr (by decide))]
    have e1 : GetRemainingAttempts
        (VerifyCode (exampleHandlers NewSMSService []).smsService
          (exampleEnv "123456" 2000).nowVerify "+996700123456" "123456").svc "+996700123456" =
        3 := by decide
    have e2 : GetRemainingAttempts
        (VerifyCode (exampleHandlers (exampleService 0) []).smsService
          (exampleEnv "123456" 2000).nowVerify "+996700123456" "123456").svc "+996700123456" =
        3 := by decide
    show Context.JSON _ _ (invalidSMSCodeBody _) = Context.JSON _ _ (invalidSMSCodeBody _)
    rw [e1, e2]
  · rw [VerifyAndLogin_of_failure _ _ _ _ rfl (Or.inr (by decide)),
      VerifyAndLogin_of_failure _ _ _ _ rfl (Or.inr (by decide))]
    have e1 : GetRemainingAttempts
        (VerifyCode (exampleHandlers (exampleService 0) []).smsService
          (exampleEnv "123456" 2000).nowVerify "+996700123456" "123456").svc "+996700123456" =
        3 := by decide
    have e2 : GetRemainingAttempts
        (VerifyCode (exampleHandlers (exampleService 3) []).smsService
          (exampleEnv "123456" 10).nowVerify "+996700123456" "123456").svc "+996700123456" =
        3 := by decide
    show Context.JSON _ _ (invalidSMSCodeBody _) = Context.JSON _ _ (invalidSMSCodeBody _)
    rw [e1, e2]

/-- C19 as amended: when `VerifyCode` fails, `VerifyAndLogin` answers with
status 400, the code `INVALID_SMS_CODE`, the fixed message "Invalid or
expired SMS code" and `remaining_attempts`, the value of
`GetRemainingAttempts` after the call; the error of `VerifyCode` is not part
of the answer. `remaining_attempts` is `maxAttempts` after "no code found",
"expired" and "attempts exceeded", and `maxAttempts` minus the attempts
counted so far after a mismatch. The table `users` is not touched. -/
theorem VerifyAndLogin_verification_failure (h : AuthHandlers) (env : LoginEnv) (c : Context)
    (req : LoginRequest) (hb : env.bound = .ok req)
    (hf : (VerifyCode h.smsService env.nowVerify req.Phone req.Code).err ≠ none) :
    VerifyAndLogin h env c =
      { h := { h with
               smsService := (VerifyCode h.smsService env.nowVerify req.Phone req.Code).svc },
        c := c.JSON StatusBadRequest
          (invalidSMSCodeBody
            (GetRemainingAttempts
              (VerifyCode h.smsService env.nowVerify req.Phone req.Code).svc req.Phone)) } ∧
    (VerifyAndLogin h env c).c.status = some 400 ∧
    (VerifyAndLogin h env c).h.db = h.db ∧
    ((VerifyCode h.smsService env.nowVerify req.Phone req.Code).err = some errNoCodeFound ∨
        (VerifyCode h.smsService env.nowVerify req.Phone req.Code).err = some errCodeExpired ∨
        (VerifyCode h.smsService env.nowVerify req.Phone req.Code).err =
          some errAttemptsExceeded →
      (VerifyAndLogin h env c).c.body =
        some (invalidSMSCodeBody h.smsService.maxAttempts)) ∧
    ((VerifyCode h.smsService env.nowVerify req.Phone req.Code).err = some errCodeMismatch →
      ∃ r : SMSCode, h.smsService.codes req.Phone = some r ∧
        (VerifyAndLogin h env c).c.body =
          some (invalidSMSCodeBody (h.smsService.maxAttempts - (r.Attempts + 1)))) := by
  have e := VerifyAndLogin_of_failure h env c req hb (Or.inl hf)
  have hrem := VerifyCode_failure_remaining h.smsService env.nowVerify req.Phone req.Code
  refine ⟨e, by rw [e]; rfl, by rw [e], ?_, ?_⟩
  · intro hk
    rw [e]
    show some (invalidSMSCodeBody _) = _
    rw [hrem.1 hk]
  · intro hk
    obtain ⟨r, hr, hval⟩ := hrem.2 hk
    refine ⟨r, hr, ?_⟩
    rw [e]
    show some (invalidSMSCodeBody _) = _
    rw [hval]

/-- Instance of C19 as amended: a wrong code at the first attempt leaves two
attempts. -/
theorem VerifyAndLogin_verification_failure_witness :
    (VerifyAndLogin (exampleHandlers (exampleService 0) []) (exampleEnv "654321" 10)
        Context.new).c.status = some 400 ∧
    ∃ r : SMSCode, (exampleService 0).codes "+996700123456" = some r ∧
      (VerifyAndLogin (exampleHandlers (exampleService 0) []) (exampleEnv "654321" 10)
          Context.new).c.body =
        some (invalidSMSCodeBody ((exampleService 0).maxAttempts - (r.Attempts + 1))) :=
  have h := VerifyAndLogin_verification_failure (exampleHandlers (exampleService 0) [])
    (exampleEnv "654321" 10) Context.new
    { Phone := "+996700123456", Code := "654321", FirstName := "", LastName := "", Email := "",
      DateOfBirth := "" }
    rfl (by decide)
  ⟨h.2.1, h.2.2.2.2 (by decide)⟩

/-- C20, as the claim states it, fails when the attempts are used up: for
the suspended user of the phone and the request with the stored, unexpired
code, sent after three wrong candidates (`Attempts = 3`), `VerifyCode`
refuses the code and `VerifyAndLogin` answers 400 `INVALID_SMS_CODE`, not
403 `ACCOUNT_SUSPENDED`. -/
theorem VerifyAndLogin_inactive_user_attempts_used :
    (exampleService 3).codes "+996700123456" = some (exampleCode 3) ∧
    (exampleCode 3).Code = "123456" ∧
    Time.After 10 (exampleCode 3).ExpiresAt = false ∧
    exampleUser "suspended" ∈
      (exampleHandlers (exampleService 3) [exampleUser "suspended"]).db.users ∧
    (exampleUser "suspended").DeletedAt = none ∧
    (exampleUser "suspended").PhoneNumber = "+996700123456" ∧
    (exampleUser "suspended").Status ≠ UserStatusActive ∧
    (VerifyAndLogin (exampleHandlers (exampleService 3) [exampleUser "suspended"])
        (exampleEnv "123456" 10) Context.new).c =
      Context.new.JSON StatusBadRequest (invalidSMSCodeBody 3) ∧
    (VerifyAndLogin (exampleHandlers (exampleService 3) [exampleUser "suspended"])
        (exampleEnv "123456" 10) Context.new).c.status ≠ some StatusForbidden := by
  have e := VerifyAndLogin_of_failure
    (exampleHandlers (exampleService 3) [exampleUser "suspended"]) (exampleEnv "123456" 10)
    Context.new
    { Phone := "+996700123456", Code := "123456", FirstName := "", LastName := "", Email := "",
      DateOfBirth := "" }
    rfl (Or.inr (by decide))
  have e1 : GetRemainingAttempts
      (VerifyCode (exampleHandlers (exampleService 3) [exampleUser "suspended"]).smsService
        (exampleEnv "123456" 10).nowVerify "+996700123456" "123456").svc "+996700123456" =
      3 := by decide
  refine ⟨by decide, by decide, by decide, by simp [exampleHandlers], by decide, by decide,
    by decide, ?_, ?_⟩
  · rw [e]
    show Context.JSON _ _ (invalidSMSCodeBody _) = _
    rw [e1]
  · rw [e]
    decide

/-- C20, amended: when the request binds, the phone has a record with the
code of the request that is not expired and has fewer than `maxAttempts`
attempts counted (so that `VerifyCode` accepts the code), the lookup does
not fail by itself and the table (with `phone_number` unique) holds a row
that is not deleted, has the phone of the request and a `Status` other than
"active", `VerifyAndLogin` answers with status 403 and the code
`ACCOUNT_SUSPENDED`; the answer carries no token and does not depend on the
clock readings of the token and login steps, and the table `users`, hence
`last_login_at`, is left as it was. -/
theorem VerifyAndLogin_inactive_user (h : AuthHandlers) (env : LoginEnv) (c : Context)
    (req : LoginRequest) (user : User) (r : SMSCode)
    (hb : env.bound = .ok req)
    (hr : h.smsService.codes req.Phone = some r)
    (hcode : req.Code = r.Code)
    (hexp : env.nowVerify.After r.ExpiresAt = false)
    (hatt : r.Attempts < h.smsService.maxAttempts)
    (hfault : env.findFault = none)
    (huniq : h.db.uniquePhones)
    (hu : user ∈ h.db.users) (hd : user.DeletedAt = none)
    (hp : user.PhoneNumber = req.Phone)
    (hs : user.Status ≠ UserStatusActive) :
    VerifyAndLogin h env c =
      { h := { h with smsService := { h.smsService with
                                      codes := h.smsService.codes.delete req.Phone } },
        c := c.JSON StatusForbidden
          (errorBody "ACCOUNT_SUSPENDED" "Your account has been suspended") } ∧
    (VerifyAndLogin h env c).c.status = some 403 ∧
    (VerifyAndLogin h env c).h.db = h.db := by
  have hexp2 : ¬ r.ExpiresAt < env.nowVerify := by simpa [Time.After] using hexp
  have hver := VerifyCode_match h.smsService env.nowVerify req.Phone req.Code r hr hexp2 hatt
    hcode.symm
  have hv : (VerifyCode h.smsService env.nowVerify req.Phone req.Code).ok = true ∧
      (VerifyCode h.smsService env.nowVerify req.Phone req.Code).err = none := by
    rw [hver]; exact ⟨rfl, rfl⟩
  have hfind : h.db.firstByPhone req.Phone env.findFault = .ok user := by
    rw [hfault, ← hp]
    exact DB.firstByPhone_unique h.db user hu hd huniq
  have e : VerifyAndLogin h env c =
      { h := { h with smsService := { h.smsService with
                                      codes := h.smsService.codes.delete req.Phone } },
        c := c.JSON StatusForbidden
          (errorBody "ACCOUNT_SUSPENDED" "Your account has been suspended") } := by
    rw [VerifyAndLogin_of_success h env c req user hb hv hfind, hver]
    simp [loginAs, hs]
  exact ⟨e, by rw [e]; rfl, by rw [e]⟩

/-- Instance of C20 as amended: a suspended user with the right code at the
first attempt. -/
theorem VerifyAndLogin_inactive_user_witness :
    (VerifyAndLogin (exampleHandlers (exampleService 0) [exampleUser "suspended"])
        (exampleEnv "123456" 10) Context.new).c.status = some 403 ∧
    (VerifyAndLogin (exampleHandlers (exampleService 0) [exampleUser "suspended"])
        (exampleEnv "123456" 10) Context.new).h.db = { users := [exampleUser "suspended"] } :=
  have h := VerifyAndLogin_inactive_user
    (exampleHandlers (exampleService 0) [exampleUser "suspended"]) (exampleEnv "123456" 10)
    Context.new
    { Phone := "+996700123456", Code := "123456", FirstName := "", LastName := "", Email := "",
      DateOfBirth := "" }
    (exampleUser "suspended") (exampleCode 0) rfl (by decide) (by decide) (by decide)
    (by decide) rfl
    (by
      intro u hu v hv _
      have e1 : u = exampleUser "suspended" := by simpa [exampleHandlers] using hu
      have e2 : v = exampleUser "suspended" := by simpa [exampleHandlers] using hv
      rw [e1, e2])
    (by simp [exampleHandlers]) rfl rfl (by decide)
  ⟨h.2.1, h.2.2⟩

/-! ## Remaining attempts, cleanup, and the agreement of send and verify -/

theorem CleanupExpiredCodes_codes (s : SMSService) (now : Time) (phone : String) :
    (CleanupExpiredCodes s now).codes phone =
      match s.codes phone with
      | some code => if now.After code.ExpiresAt then none else some code
      | none => none := rfl

theorem GoInt.sub_zero (a : GoInt) : a - 0 = a := by
  apply GoInt.toInt_injective
  rw [GoInt.toInt_sub, GoInt.toInt_zero, Int.sub_zero]
  exact wrapInt_of_range _ a.lo a.hi

/-- A difference that fits an `int` is the exact difference. -/
theorem GoInt.toInt_sub_of_range (a b : GoInt)
    (h1 : -9223372036854775808 ≤ a.toInt - b.toInt)
    (h2 : a.toInt - b.toInt ≤ 9223372036854775807) :
    (a - b).toInt = a.toInt - b.toInt := by
  rw [GoInt.toInt_sub]
  exact wrapInt_of_range _ h1 h2

/-- C21, as the claim states it, fails where the difference wraps: for the
record with `Attempts = math.MinInt64` in the store of `NewSMSService`,
`GetRemainingAttempts` returns -9223372036854775805, while `maxAttempts`
minus `Attempts` is 9223372036854775811. -/
theorem GetRemainingAttempts_wraps :
    (exampleService MinInt64).codes "+996700123456" = some (exampleCode MinInt64) ∧
    (GetRemainingAttempts (exampleService MinInt64) "+996700123456").toInt =
      -9223372036854775805 ∧
    (exampleService MinInt64).maxAttempts.toInt - (exampleCode MinInt64).Attempts.toInt =
      9223372036854775811 := by
  decide

/-- C21, amended: `GetRemainingAttempts` returns `maxAttempts - Attempts` of
the record of the phone as Go computes it on `int`s, which is the exact
difference whenever that difference fits an `int` and wraps around
otherwise, and `maxAttempts` (3 in the service built by `NewSMSService`)
when the phone has no record; it only reads the service, so a call leaves
the state as it is; a phone whose record has `Attempts = 0` and a phone with
no record get the same value; in every state reached from `NewSMSService`
the value is the exact difference `3 - Attempts` and lies between 0 and 3. -/
theorem GetRemainingAttempts_value :
    (∀ (s : SMSService) (phone : String) (r : SMSCode), s.codes phone = some r →
      GetRemainingAttempts s phone = s.maxAttempts - r.Attempts ∧
      (GetRemainingAttempts s phone).toInt = wrapInt (s.maxAttempts.toInt - r.Attempts.toInt) ∧
      (-9223372036854775808 ≤ s.maxAttempts.toInt - r.Attempts.toInt →
        s.maxAttempts.toInt - r.Attempts.toInt ≤ 9223372036854775807 →
        (GetRemainingAttempts s phone).toInt = s.maxAttempts.toInt - r.Attempts.toInt)) ∧
    (∀ (s : SMSService) (phone : String), s.codes phone = none →
      GetRemainingAttempts s phone = s.maxAttempts) ∧
    NewSMSService.maxAttempts = 3 ∧
    (∀ (s : SMSService) (phone : String), Call.run s (Call.remaining phone) = s) ∧
    (∀ (s : SMSService) (p1 p2 : String) (r : SMSCode), s.codes p1 = some r →
      r.Attempts = 0 → s.codes p2 = none →
      GetRemainingAttempts s p1 = GetRemainingAttempts s p2) ∧
    (∀ (calls : List Call) (phone : String),
      0 ≤ GetRemainingAttempts (runCalls NewSMSService calls) phone ∧
      GetRemainingAttempts (runCalls NewSMSService calls) phone ≤ 3 ∧
      ∀ r : SMSCode, (runCalls NewSMSService calls).codes phone = some r →
        (GetRemainingAttempts (runCalls NewSMSService calls) phone).toInt =
          3 - r.Attempts.toInt) := by
  refine ⟨?_, ?_, rfl, fun _ _ => rfl, ?_, ?_⟩
  · intro s phone r h
    have e : GetRemainingAttempts s phone = s.maxAttempts - r.Attempts := by
      simp [GetRemainingAttempts, h]
    refine ⟨e, by rw [e]; rfl, fun h1 h2 => ?_⟩
    rw [e]
    exact GoInt.toInt_sub_of_range _ _ h1 h2
  · intro s phone h
    simp [GetRemainingAttempts, h]
  · intro s p1 p2 r h1 h0 h2
    simp [GetRemainingAttempts, h1, h2, h0, GoInt.sub_zero]
  · intro calls phone
    have inv := StoreInvariant_runCalls calls NewSMSService StoreInvariant_init
    cases h : (runCalls NewSMSService calls).codes phone with
    | none =>
      simp only [GetRemainingAttempts, h]
      rw [inv.1]
      exact ⟨by decide, by decide, fun r hr => Option.noConfusion hr⟩
    | some r =>
      have hr := inv.2 phone r h
      simp only [GetRemainingAttempts, h]
      have h3 := inv.1
      have h0 := hr.1
      have h1 := hr.2.1
      rw [h3] at h1 ⊢
      rw [GoInt.le_iff, GoInt.toInt_zero] at h0
      rw [GoInt.le_iff, GoInt.toInt_three] at h1
      have e : ((3 : GoInt) - r.Attempts).toInt = 3 - r.Attempts.toInt := by
        rw [GoInt.toInt_sub_of_range _ _ (by rw [GoInt.toInt_three]; omega)
          (by rw [GoInt.toInt_three]; omega), GoInt.toInt_three]
      refine ⟨?_, ?_, ?_⟩
      · rw [GoInt.le_iff, GoInt.toInt_zero, e]; omega
      · rw [GoInt.le_iff, GoInt.toInt_three, e]; omega
      · intro r2 hr2
        rw [← Option.some.inj hr2]
        exact e

/-- Instance of C21: after a send and one wrong candidate two attempts
remain. -/
theorem GetRemainingAttempts_value_witness :
    (GetRemainingAttempts
        (runCalls NewSMSService
          [Call.send 0 0 0 exampleReader "+996700123456",
            Call.verify 1 "+996700123456" "000000"])
        "+996700123456").toInt = 3 - 1 :=
  ((GetRemainingAttempts_value.1 _ "+996700123456"
    { Phone := "+996700123456", Code := "307418", ExpiresAt := 300000000000, Attempts := 1,
      CreatedAt := 0 }
    (by decide)).2.2 (by decide) (by decide)).trans (by decide)

/-- C22: after `CleanupExpiredCodes` at the clock reading `now` the store
holds exactly the records of the store before whose `ExpiresAt` is not
before `now`, each as it was; every record with `ExpiresAt` strictly before
`now` is gone; the configuration is unchanged; a second run at the same
reading changes nothing. -/
theorem CleanupExpiredCodes_exact (s : SMSService) (now : Time) :
    (∀ (phone : String) (r : SMSCode),
      (CleanupExpiredCodes s now).codes phone = some r ↔
        s.codes phone = some r ∧ now.After r.ExpiresAt = false) ∧
    (∀ (phone : String) (r : SMSCode), s.codes phone = some r → r.ExpiresAt < now →
      (CleanupExpiredCodes s now).codes phone = none) ∧
    ((CleanupExpiredCodes s now).maxAttempts = s.maxAttempts ∧
      (CleanupExpiredCodes s now).codeTTL = s.codeTTL ∧
      (CleanupExpiredCodes s now).codeLen = s.codeLen) ∧
    CleanupExpiredCodes (CleanupExpiredCodes s now) now = CleanupExpiredCodes s now := by
  refine ⟨?_, ?_, ⟨rfl, rfl, rfl⟩, ?_⟩
  · intro phone r
    rw [CleanupExpiredCodes_codes]
    cases h : s.codes phone with
    | none => simp
    | some c =>
      by_cases hc : now.After c.ExpiresAt = true
      · simp only [hc, if_true]
        constructor
        · intro h2; exact Option.noConfusion h2
        · rintro ⟨h2, h3⟩
          have e : c = r := Option.some.inj h2
          rw [e] at hc
          rw [hc] at h3
          exact Bool.noConfusion h3
      · have hc2 : now.After c.ExpiresAt = false := by simpa using hc
        simp only [hc2]
        constructor
        · intro h2
          have e : c = r := Option.some.inj (by simpa using h2)
          exact ⟨by rw [e], by rw [← e]; exact hc2⟩
        · rintro ⟨h2, _⟩
          simpa using h2
  · intro phone r h hlt
    rw [CleanupExpiredCodes_codes, h]
    simp [Time.After, hlt]
  · have e : (CleanupExpiredCodes (CleanupExpiredCodes s now) now).codes =
        (CleanupExpiredCodes s now).codes := by
      funext phone
      rw [CleanupExpiredCodes_codes (CleanupExpiredCodes s now), CleanupExpiredCodes_codes s]
      cases h : s.codes phone with
      | none => rfl
      | some c =>
        by_cases hc : now.After c.ExpiresAt = true
        · simp [hc]
        · have hc2 : now.After c.ExpiresAt = false := by simpa using hc
          simp [hc2]
    show ({ CleanupExpiredCodes s now with
            codes := (CleanupExpiredCodes (CleanupExpiredCodes s now) now).codes } : SMSService) =
      CleanupExpiredCodes s now
    rw [e]

/-- Instance of C22: a record that expired at instant 1000 is gone after a
cleanup at instant 1001. -/
theorem CleanupExpiredCodes_exact_witness :
    (CleanupExpiredCodes (exampleService 0) 1001).codes "+996700123456" = none :=
  (CleanupExpiredCodes_exact (exampleService 0) 1001).2.1 "+996700123456" (exampleCode 0)
    (by decide) (by decide)

/-- C30: when `SendVerificationCode` at the clock reading `t` takes the
branch that reuses the stored record (valid phone, `t` strictly before
`ExpiresAt`, `Attempts` below `maxAttempts`), `VerifyCode` at the same
reading with the `Code` of that record returns `(true, nil)`; and whatever
the candidate, `VerifyCode` at that reading does not answer "verification
code has expired" nor "maximum verification attempts exceeded". -/
theorem SendVerificationCode_reuse_VerifyCode_accepts (s : SMSService)
    (t nowExpiry nowCreated : Time) (rng : RandReader) (phone : String) (r : SMSCode)
    (hv : ValidateKyrgyzstanPhone s phone = true) (h : s.codes phone = some r)
    (ht : t.Before r.ExpiresAt = true) (ha : r.Attempts < s.maxAttempts) :
    SendVerificationCode s t nowExpiry nowCreated rng phone =
      { svc := s, rng := rng, code := some r, err := none } ∧
    VerifyCode s t phone r.Code =
      { svc := { s with codes := s.codes.delete phone }, ok := true, err := none } ∧
    (∀ candidate : String,
      (VerifyCode s t phone candidate).err ≠ some errCodeExpired ∧
      (VerifyCode s t phone candidate).err ≠ some errAttemptsExceeded) := by
  have hlt : t < r.ExpiresAt := by simpa [Time.Before] using ht
  have hexp : ¬ r.ExpiresAt < t := not_lt.mpr (le_of_lt hlt)
  refine ⟨SendVerificationCode_reuse s t nowExpiry nowCreated rng phone r hv h hlt ha,
    VerifyCode_match s t phone r.Code r h hexp ha rfl, ?_⟩
  intro candidate
  by_cases hc : r.Code = candidate
  · rw [VerifyCode_match s t phone candidate r h hexp ha hc]
    exact ⟨fun e => Option.noConfusion e, fun e => Option.noConfusion e⟩
  · rw [VerifyCode_mismatch s t phone candidate r h hexp ha hc]
    exact ⟨fun e => absurd (Option.some.inj e) (by decide),
      fun e => absurd (Option.some.inj e) (by decide)⟩

/-- Instance of C30: the record of the example, ten instants after its
creation. -/
theorem SendVerificationCode_reuse_VerifyCode_accepts_witness :
    (VerifyCode (exampleService 2) 10 "+996700123456" "123456").ok = true :=
  congrArg VerifyResult.ok
    (SendVerificationCode_reuse_VerifyCode_accepts (exampleService 2) 10 10 10 exampleReader
      "+996700123456" (exampleCode 2) (by decide) (by decide) (by decide) (by decide)).2.1

/-! ## Code generation -/

theorem bigIntString_some (n : Fin 10) : bigIntString (some n) = String.mk [digitChar n] := by
  revert n
  decide

theorem digitChar_isDigit (n : Fin 10) : (digitChar n).isDigit = true := by
  revert n
  decide

theorem String_mk_append (a b : List Char) : String.mk a ++ String.mk b = String.mk (a ++ b) :=
  rfl

/-- C23: when the six reads of the random source made by `GenerateCode`
on the service built by `NewSMSService` succeed with the draws
`d 0, ..., d 5` (each in 0..9), the code is the string of the six ASCII
decimal digits of these draws in order: it has `codeLen = 6` characters,
all of them digits, and six draws of the source are used up. -/
theorem GenerateCode_six_digits (rng : RandReader) (d : Fin 6 → Fin 10)
    (h : ∀ i : Fin 6, rng i.val = some (d i)) :
    (GenerateCode NewSMSService rng).1 =
      String.mk [digitChar (d 0), digitChar (d 1), digitChar (d 2), digitChar (d 3),
        digitChar (d 4), digitChar (d 5)] ∧
    NewSMSService.codeLen = 6 ∧
    (GenerateCode NewSMSService rng).1.length = 6 ∧
    (∀ c ∈ (GenerateCode NewSMSService rng).1.data, c.isDigit = true) ∧
    (∀ i : Nat, (GenerateCode NewSMSService rng).2 i = rng (i + 6)) := by
  have h0 : rng 0 = some (d 0) := h 0
  have h1 : rng 1 = some (d 1) := h 1
  have h2 : rng 2 = some (d 2) := h 2
  have h3 : rng 3 = some (d 3) := h 3
  have h4 : rng 4 = some (d 4) := h 4
  have h5 : rng 5 = some (d 5) := h 5
  have hcode : (GenerateCode NewSMSService rng).1 =
      String.mk [digitChar (d 0), digitChar (d 1), digitChar (d 2), digitChar (d 3),
        digitChar (d 4), digitChar (d 5)] := by
    have e : (GenerateCode NewSMSService rng).1 =
        "" ++ bigIntString (rng 0) ++ bigIntString (rng 1) ++ bigIntString (rng 2) ++
          bigIntString (rng 3) ++ bigIntString (rng 4) ++ bigIntString (rng 5) := rfl
    rw [e, h0, h1, h2, h3, h4, h5]
    simp only [bigIntString_some]
    rfl
  refine ⟨hcode, rfl, ?_, ?_, fun i => rfl⟩
  · rw [hcode]; rfl
  · rw [hcode]
    intro c hc
    simp only [List.mem_cons, List.mem_singleton, List.not_mem_nil, or_false] at hc
    rcases hc with rfl | rfl | rfl | rfl | rfl | rfl <;> exact digitChar_isDigit _

/-- Instance of C23: the draws 3, 0, 7, 4, 1, 8 give the code `307418`. -/
theorem GenerateCode_six_digits_witness :
    (GenerateCode NewSMSService exampleReader).1 = "307418" :=
  (GenerateCode_six_digits exampleReader
    (fun i => ⟨(i.val * 7 + 3) % 10, Nat.mod_lt _ (by decide)⟩) (fun _ => rfl)).1

/-! ## The claims of a new token -/

theorem truncate_add_seconds (t k : Int) :
    t + k * 1000000000 - (t + k * 1000000000) % 1000000000 =
      t - t % 1000000000 + k * 1000000000 := by
  rw [Int.add_mul_emod_self]
  omega

theorem truncate_precision (t : Int) :
    t < t - t % 1000000000 + 1000000000 ∧ (t - t % 1000000000) % 1000000000 = 0 := by
  constructor <;> omega

theorem NewNumericDate_add_seconds (t : Time) (k : Int) :
    NewNumericDate (t + k * Second) = NewNumericDate t + k * Second :=
  truncate_add_seconds t k

theorem NewNumericDate_precision (t : Time) :
    NewNumericDate t ≤ t ∧ t < NewNumericDate t + Second ∧ NewNumericDate t % Second = 0 :=
  ⟨NewNumericDate_le t, (truncate_precision t).1, (truncate_precision t).2⟩

/-- C24: the claims signed by `generateToken` at the clock reading `t` have
issued-at and not-before equal to `t` and expires-at equal to `t + ttl`,
each cut to whole seconds, the subject `userID.String`, the issuer
"skypark-api" and the user id, phone, role and type handed in; a timestamp
cut to whole seconds is at most `t`, less than a second below it and a
multiple of a second; with the manager built in `main` the lifetime is 15
minutes for `GenerateAccessToken` and 7 days for `GenerateRefreshToken`, so
expires-at is issued-at plus that lifetime and strictly later than
issued-at. -/
theorem generateToken_claims :
    (∀ (tm : TokenManager) (t : Time) (userID : UUID) (phone role tokenType : String)
        (ttl : Duration),
      ∃ claims : TokenClaims,
        generateToken tm t userID phone role tokenType ttl =
          { token := TokenString.jws "HS256" tm.secretKey claims, err := none } ∧
        claims.Registered.IssuedAt = some (NewNumericDate t) ∧
        claims.Registered.NotBefore = some (NewNumericDate t) ∧
        claims.Registered.ExpiresAt = some (NewNumericDate (t + ttl)) ∧
        claims.Registered.Subject = userID.String ∧
        claims.Registered.Issuer = "skypark-api" ∧
        claims.UserID = userID ∧ claims.Phone = phone ∧ claims.Role = role ∧
        claims.Type_ = tokenType) ∧
    (∀ t : Time,
      NewNumericDate t ≤ t ∧ t < NewNumericDate t + Second ∧ NewNumericDate t % Second = 0) ∧
    (∀ secret : String,
      (mainTokenManager secret).accessTokenTTL = 15 * Minute ∧
      (mainTokenManager secret).refreshTokenTTL = 7 * 24 * Hour) ∧
    (∀ (secret : String) (t : Time) (userID : UUID) (phone role : String),
      ∃ claims : TokenClaims,
        (GenerateAccessToken (mainTokenManager secret) t userID phone role).token =
          TokenString.jws "HS256" secret claims ∧
        claims.Type_ = "access" ∧
        claims.Registered.IssuedAt = some (NewNumericDate t) ∧
        claims.Registered.ExpiresAt = some (NewNumericDate t + 15 * Minute) ∧
        NewNumericDate t < NewNumericDate t + 15 * Minute) ∧
    (∀ (secret : String) (t : Time) (userID : UUID) (phone role : String),
      ∃ claims : TokenClaims,
        (GenerateRefreshToken (mainTokenManager secret) t userID phone role).token =
          TokenString.jws "HS256" secret claims ∧
        claims.Type_ = "refresh" ∧
        claims.Registered.IssuedAt = some (NewNumericDate t) ∧
        claims.Registered.ExpiresAt = some (NewNumericDate t + 7 * 24 * Hour) ∧
        NewNumericDate t < NewNumericDate t + 7 * 24 * Hour) := by
  refine ⟨?_, NewNumericDate_precision, fun _ => ⟨rfl, rfl⟩, ?_, ?_⟩
  · intro tm t userID phone role tokenType ttl
    exact ⟨_, rfl, rfl, rfl, rfl, rfl, rfl, rfl, rfl, rfl, rfl⟩
  · intro secret t userID phone role
    have e : NewNumericDate (t + 15 * Minute) = NewNumericDate t + 15 * Minute :=
      NewNumericDate_add_seconds t 900
    refine ⟨_, rfl, rfl, rfl, ?_, ?_⟩
    · show some (NewNumericDate (t + 15 * Minute)) = _
      rw [e]
    · exact lt_add_of_pos_right _ (by decide)
  · intro secret t userID phone role
    have e : NewNumericDate (t + 7 * 24 * Hour) = NewNumericDate t + 7 * 24 * Hour :=
      NewNumericDate_add_seconds t 604800
    refine ⟨_, rfl, rfl, rfl, ?_, ?_⟩
    · show some (NewNumericDate (t + 7 * 24 * Hour)) = _
      rw [e]
    · exact lt_add_of_pos_right _ (by decide)

/-! ## Optional authentication -/

theorem OptionalAuth_empty (tm : TokenManager) (tokenOf : String → TokenString)
    (nowParse nowCheck : Time) (c : Context) :
    OptionalAuth tm tokenOf nowParse nowCheck "" c = some c.Next := by
  simp [OptionalAuth]

theorem OptionalAuth_format (tm : TokenManager) (tokenOf : String → TokenString)
    (nowParse nowCheck : Time) (authHeader : String) (c : Context)
    (h0 : authHeader ≠ "")
    (h : ¬ ∃ token : String, stringsSplit authHeader ' ' = ["Bearer", token]) :
    OptionalAuth tm tokenOf nowParse nowCheck authHeader c = some c.Next := by
  unfold OptionalAuth
  rw [if_neg h0]
  split
  · rename_i p0 token hs
    by_cases hp : p0 = "Bearer"
    · exact absurd ⟨token, by rw [hs, hp]⟩ h
    · simp [hp]
  · rfl

theorem OptionalAuth_bearer (tm : TokenManager) (tokenOf : String → TokenString)
    (nowParse nowCheck : Time) (authHeader token : String) (c : Context)
    (h0 : authHeader ≠ "") (h : stringsSplit authHeader ' ' = ["Bearer", token]) :
    OptionalAuth tm tokenOf nowParse nowCheck authHeader c =
      match ValidateToken tm nowParse nowCheck (tokenOf token) with
      | none => none
      | some { claims := _, err := some _ } => some c.Next
      | some { claims := none, err := none } => none
      | some { claims := some claims, err := none } =>
        if claims.Type_ = "access" then some (c.proceed claims) else some c.Next := by
  unfold OptionalAuth
  rw [if_neg h0, h]
  simp only [ne_eq, not_true_eq_false, ↓reduceIte]
  cases hv : ValidateToken tm nowParse nowCheck (tokenOf token) with
  | none => rfl
  | some r =>
    obtain ⟨cl, er⟩ := r
    cases er with
    | some e => cases cl <;> rfl
    | none =>
      cases cl with
      | none => rfl
      | some claims => rfl

theorem bearerAccepted_unique (tm : TokenManager) (tokenOf : String → TokenString)
    (nowParse nowCheck : Time) (authHeader token : String)
    (hs : stringsSplit authHeader ' ' = ["Bearer", token]) (claims : TokenClaims)
    (ha : bearerAccepted tm tokenOf nowParse nowCheck authHeader claims) :
    ValidateToken tm nowParse nowCheck (tokenOf token) =
      some { claims := some claims, err := none } ∧ claims.Type_ = "access" := by
  obtain ⟨_, token2, hs2, hv, ht⟩ := ha
  rw [hs] at hs2
  have e : token = token2 := by simpa using hs2
  rw [e]
  exact ⟨hv, ht⟩

theorem OptionalAuth_cases (tm : TokenManager) (tokenOf : String → TokenString)
    (nowParse nowCheck : Time) (authHeader : String) (c : Context) :
    (∀ result : Context, OptionalAuth tm tokenOf nowParse nowCheck authHeader c = some result →
      result.next = true ∧ result.aborted = c.aborted ∧ result.status = c.status ∧
        result.body = c.body) ∧
    (OptionalAuth tm tokenOf nowParse nowCheck authHeader c = none ↔
      authHeader ≠ "" ∧ ∃ token : String, stringsSplit authHeader ' ' = ["Bearer", token] ∧
        ValidateToken tm nowParse nowCheck (tokenOf token) = none) ∧
    (∀ claims : TokenClaims, bearerAccepted tm tokenOf nowParse nowCheck authHeader claims →
      OptionalAuth tm tokenOf nowParse nowCheck authHeader c = some (c.proceed claims) ∧
      AuthRequired tm tokenOf nowParse nowCheck authHeader c = some (c.proceed claims) ∧
      (c.proceed claims).Get "user_id" = some (CtxValue.uuid claims.UserID) ∧
      (c.proceed claims).Get "user_phone" = some (CtxValue.str claims.Phone) ∧
      (c.proceed claims).Get "user_role" = some (CtxValue.str claims.Role)) ∧
    ((¬ ∃ claims : TokenClaims, bearerAccepted tm tokenOf nowParse nowCheck authHeader claims) →
      (∀ result : Context,
        OptionalAuth tm tokenOf nowParse nowCheck authHeader c = some result →
        result = c.Next) ∧
      (∀ result : Context,
        AuthRequired tm tokenOf nowParse nowCheck authHeader c = some result →
        result.aborted = true ∧ result.next = c.next ∧ result.Keys = c.Keys)) := by
  by_cases h0 : authHeader = ""
  · -- the empty header
    subst h0
    have eO := OptionalAuth_empty tm tokenOf nowParse nowCheck c
    have eA := AuthRequired_empty tm tokenOf nowParse nowCheck c
    refine ⟨?_, ?_, ?_, ?_⟩
    · intro result hr
      rw [eO] at hr
      have e := Option.some.inj hr
      subst e
      exact ⟨rfl, rfl, rfl, rfl⟩
    · rw [eO]
      exact ⟨fun h => Option.noConfusion h, fun h => absurd rfl h.1⟩
    · intro claims ha
      exact absurd rfl ha.1
    · intro _
      refine ⟨fun result hr => ?_, fun result hr => ?_⟩
      · rw [eO] at hr
        exact (Option.some.inj hr).symm
      · rw [eA] at hr
        have e := Option.some.inj hr
        subst e
        exact ⟨rfl, rfl, rfl⟩
  · by_cases hf : ∃ token : String, stringsSplit authHeader ' ' = ["Bearer", token]
    · -- a header of the form `Bearer token`
      obtain ⟨token, hs⟩ := hf
      have eO := OptionalAuth_bearer tm tokenOf nowParse nowCheck authHeader token c h0 hs
      have eA := AuthRequired_bearer tm tokenOf nowParse nowCheck authHeader token c h0 hs
      cases hv : ValidateToken tm nowParse nowCheck (tokenOf token) with
      | none =>
        rw [hv] at eO eA
        refine ⟨?_, ?_, ?_, ?_⟩
        · intro result hr
          rw [eO] at hr
          exact Option.noConfusion hr
        · exact ⟨fun _ => ⟨h0, token, hs, hv⟩, fun _ => eO⟩
        · intro claims ha
          have := (bearerAccepted_unique tm tokenOf nowParse nowCheck authHeader token hs
            claims ha).1
          rw [hv] at this
          exact Option.noConfusion this
        · intro _
          refine ⟨fun result hr => ?_, fun result hr => ?_⟩
          · rw [eO] at hr; exact Option.noConfusion hr
          · rw [eA] at hr; exact Option.noConfusion hr
      | some r =>
        have hnot : ¬ (∃ token2 : String, stringsSplit authHeader ' ' = ["Bearer", token2] ∧
            ValidateToken tm nowParse nowCheck (tokenOf token2) = none) := by
          rintro ⟨token2, hs2, hv2⟩
          rw [hs] at hs2
          have e : token = token2 := by simpa using hs2
          rw [← e, hv] at hv2
          exact Option.noConfusion hv2
        rw [hv] at eO eA
        rcases ValidateToken_err_cases tm nowParse nowCheck (tokenOf token) r hv with
          rfl | rfl | ⟨cl, rfl⟩
        · -- `ErrInvalidToken`
          have eO2 : OptionalAuth tm tokenOf nowParse nowCheck authHeader c = some c.Next := eO
          have eA2 : AuthRequired tm tokenOf nowParse nowCheck authHeader c =
              some (c.refuse "INVALID_TOKEN" "Invalid token") := eA
          refine ⟨?_, ?_, ?_, ?_⟩
          · intro result hr
            rw [eO2] at hr
            have e := Option.some.inj hr
            subst e
            exact ⟨rfl, rfl, rfl, rfl⟩
          · rw [eO2]
            exact ⟨fun h => Option.noConfusion h, fun h => absurd ⟨h.2.choose, h.2.choose_spec⟩ hnot⟩
          · intro claims ha
            have := (bearerAccepted_unique tm tokenOf nowParse nowCheck authHeader token hs
              claims ha).1
            rw [hv] at this
            simp at this
          · intro _
            refine ⟨fun result hr => ?_, fun result hr => ?_⟩
            · rw [eO2] at hr; exact (Option.some.inj hr).symm
            · rw [eA2] at hr
              have e := Option.some.inj hr
              subst e
              exact ⟨rfl, rfl, rfl⟩
        · -- `ErrExpiredToken`
          have eO2 : OptionalAuth tm tokenOf nowParse nowCheck authHeader c = some c.Next := eO
          have eA2 : AuthRequired tm tokenOf nowParse nowCheck authHeader c =
              some (c.refuse "TOKEN_EXPIRED" "Token has expired") := eA
          refine ⟨?_, ?_, ?_, ?_⟩
          · intro result hr
            rw [eO2] at hr
            have e := Option.some.inj hr
            subst e
            exact ⟨rfl, rfl, rfl, rfl⟩
          · rw [eO2]
            exact ⟨fun h => Option.noConfusion h, fun h => absurd ⟨h.2.choose, h.2.choose_spec⟩ hnot⟩
          · intro claims ha
            have := (bearerAccepted_unique tm tokenOf nowParse nowCheck authHeader token hs
              claims ha).1
            rw [hv] at this
            simp at this
          · intro _
            refine ⟨fun result hr => ?_, fun result hr => ?_⟩
            · rw [eO2] at hr; exact (Option.some.inj hr).symm
            · rw [eA2] at hr
              have e := Option.some.inj hr
              subst e
              exact ⟨rfl, rfl, rfl⟩
        · -- claims
          by_cases ht : cl.Type_ = "access"
          · have eO2 : OptionalAuth tm tokenOf nowParse nowCheck authHeader c =
                some (c.proceed cl) := by rw [eO]; simp [ht]
            have eA2 : AuthRequired tm tokenOf nowParse nowCheck authHeader c =
                some (c.proceed cl) := by rw [eA]; simp [ht]
            have hacc : bearerAccepted tm tokenOf nowParse nowCheck authHeader cl :=
              ⟨h0, token, hs, hv, ht⟩
            refine ⟨?_, ?_, ?_, ?_⟩
            · intro result hr
              rw [eO2] at hr
              have e := Option.some.inj hr
              subst e
              exact ⟨rfl, rfl, rfl, rfl⟩
            · rw [eO2]
              exact ⟨fun h => Option.noConfusion h,
                fun h => absurd ⟨h.2.choose, h.2.choose_spec⟩ hnot⟩
            · intro claims ha
              have h2 := (bearerAccepted_unique tm tokenOf nowParse nowCheck authHeader token hs
                claims ha).1
              rw [hv] at h2
              have e : cl = claims := by simpa using h2
              subst e
              have hg := Context.Get_proceed c cl
              exact ⟨eO2, eA2, hg.1, hg.2.1, hg.2.2⟩
            · intro hno
              exact absurd ⟨cl, hacc⟩ hno
          · have eO2 : OptionalAuth tm tokenOf nowParse nowCheck authHeader c = some c.Next := by
              rw [eO]; simp [ht]
            have eA2 : AuthRequired tm tokenOf nowParse nowCheck authHeader c =
                some (c.refuse "INVALID_TOKEN_TYPE" "Access token required") := by
              rw [eA]; simp [ht]
            refine ⟨?_, ?_, ?_, ?_⟩
            · intro result hr
              rw [eO2] at hr
              have e := Option.some.inj hr
              subst e
              exact ⟨rfl, rfl, rfl, rfl⟩
            · rw [eO2]
              exact ⟨fun h => Option.noConfusion h,
                fun h => absurd ⟨h.2.choose, h.2.choose_spec⟩ hnot⟩
            · intro claims ha
              have h2 := bearerAccepted_unique tm tokenOf nowParse nowCheck authHeader token hs
                claims ha
              rw [hv] at h2
              have e : cl = claims := by simpa using h2.1
              subst e
              exact absurd h2.2 ht
            · intro _
              refine ⟨fun result hr => ?_, fun result hr => ?_⟩
              · rw [eO2] at hr; exact (Option.some.inj hr).symm
              · rw [eA2] at hr
                have e := Option.some.inj hr
                subst e
                exact ⟨rfl, rfl, rfl⟩
    · -- any other header
      have eO := OptionalAuth_format tm tokenOf nowParse nowCheck authHeader c h0 hf
      have eA := AuthRequired_format tm tokenOf nowParse nowCheck authHeader c h0 hf
      refine ⟨?_, ?_, ?_, ?_⟩
      · intro result hr
        rw [eO] at hr
        have e := Option.some.inj hr
        subst e
        exact ⟨rfl, rfl, rfl, rfl⟩
      · rw [eO]
        exact ⟨fun h => Option.noConfusion h,
          fun h => absurd ⟨h.2.choose, h.2.choose_spec.1⟩ hf⟩
      · intro claims ha
        exact absurd ⟨ha.2.choose, ha.2.choose_spec.1⟩ hf
      · intro _
        refine ⟨fun result hr => ?_, fun result hr => ?_⟩
        · rw [eO] at hr; exact (Option.some.inj hr).symm
        · rw [eA] at hr
          have e := Option.some.inj hr
          subst e
          exact ⟨rfl, rfl, rfl⟩

theorem ValidateToken_eq_none (tm : TokenManager) (nowParse nowCheck : Time)
    (tokenString : TokenString)
    (h : ValidateToken tm nowParse nowCheck tokenString = none) :
    ∃ (alg key : String) (claims : TokenClaims),
      tokenString = TokenString.jws alg key claims ∧
      hmacKeyBlock alg (stringBytes key) = hmacKeyBlock alg (stringBytes tm.secretKey) ∧
      claims.Registered.ExpiresAt = none := by
  cases tokenString with
  | other raw =>
    rw [ValidateToken_parse_error tm nowParse nowCheck (TokenString.other raw)
      JwtError.ErrTokenMalformed rfl] at h
    exact Option.noConfusion h
  | jws alg key claims =>
    by_cases hk : hmacKeyBlock alg (stringBytes key) = hmacKeyBlock alg (stringBytes tm.secretKey)
    · refine ⟨alg, key, claims, rfl, hk, ?_⟩
      cases hp : ParseWithClaims (TokenString.jws alg key claims) tm.secretKey nowParse with
      | error e =>
        rw [ValidateToken_parse_error tm nowParse nowCheck _ e hp] at h
        exact Option.noConfusion h
      | ok parsed =>
        have hsame : parsed = claims := by
          unfold ParseWithClaims at hp
          simp only [] at hp
          split at hp
          · exact Except.noConfusion hp
          · split at hp
            · exact Except.noConfusion hp
            · split at hp
              · exact Except.noConfusion hp
              · split at hp
                · exact Except.noConfusion hp
                · injection hp with hp
                  exact hp.symm
        subst hsame
        cases hexp : parsed.Registered.ExpiresAt with
        | none => rfl
        | some exp =>
          simp only [ValidateToken, hp, hexp] at h
          split at h <;> exact Option.noConfusion h
    · obtain ⟨e, he⟩ := ParseWithClaims_signature alg key tm.secretKey claims nowParse hk
      rw [ValidateToken_parse_error tm nowParse nowCheck _ e he] at h
      exact Option.noConfusion h

/-- What `OptionalAuth` does on every header: whenever it returns, the
following handlers are run and the status, body and abort flag of the
context are as before. It returns for every header, except that it panics
where `ValidateToken` panics; that does not happen when the tokens whose
signature verifies under the secret of the manager carry an expiry, as all
tokens made by `generateToken` do. It sets `user_id`, `user_phone` and
`user_role` exactly for a header that splits on single spaces into `Bearer`
and a token which `ValidateToken` accepts with `Type` "access": for such a
header `OptionalAuth` and `AuthRequired` end in the same context, with the
keys set from the claims; for every other header `OptionalAuth` only runs
the following handlers and `AuthRequired` refuses. -/
theorem OptionalAuth_where_it_returns (tm : TokenManager) (tokenOf : String → TokenString)
    (nowParse nowCheck : Time) (authHeader : String) (c : Context) :
    (∀ result : Context, OptionalAuth tm tokenOf nowParse nowCheck authHeader c = some result →
      result.next = true ∧ result.aborted = c.aborted ∧ result.status = c.status ∧
        result.body = c.body) ∧
    (OptionalAuth tm tokenOf nowParse nowCheck authHeader c = none ↔
      authHeader ≠ "" ∧ ∃ token : String, stringsSplit authHeader ' ' = ["Bearer", token] ∧
        ValidateToken tm nowParse nowCheck (tokenOf token) = none) ∧
    ((∀ (token alg key : String) (claims : TokenClaims),
        tokenOf token = TokenString.jws alg key claims →
        hmacKeyBlock alg (stringBytes key) = hmacKeyBlock alg (stringBytes tm.secretKey) →
        claims.Registered.ExpiresAt ≠ none) →
      ∃ result : Context,
        OptionalAuth tm tokenOf nowParse nowCheck authHeader c = some result ∧
        result.next = true ∧ result.aborted = c.aborted ∧ result.status = c.status ∧
        result.body = c.body) ∧
    (∀ claims : TokenClaims, bearerAccepted tm tokenOf nowParse nowCheck authHeader claims →
      OptionalAuth tm tokenOf nowParse nowCheck authHeader c = some (c.proceed claims) ∧
      AuthRequired tm tokenOf nowParse nowCheck authHeader c = some (c.proceed claims) ∧
      (c.proceed claims).Get "user_id" = some (CtxValue.uuid claims.UserID) ∧
      (c.proceed claims).Get "user_phone" = some (CtxValue.str claims.Phone) ∧
      (c.proceed claims).Get "user_role" = some (CtxValue.str claims.Role)) ∧
    ((¬ ∃ claims : TokenClaims, bearerAccepted tm tokenOf nowParse nowCheck authHeader claims) →
      (∀ result : Context,
        OptionalAuth tm tokenOf nowParse nowCheck authHeader c = some result →
        result = c.Next) ∧
      (∀ result : Context,
        AuthRequired tm tokenOf nowParse nowCheck authHeader c = some result →
        result.aborted = true ∧ result.next = c.next ∧ result.Keys = c.Keys)) := by
  have h := OptionalAuth_cases tm tokenOf nowParse nowCheck authHeader c
  refine ⟨h.1, h.2.1, ?_, h.2.2.1, h.2.2.2⟩
  intro hexp
  cases e : OptionalAuth tm tokenOf nowParse nowCheck authHeader c with
  | some result => exact ⟨result, rfl, h.1 result e⟩
  | none =>
    obtain ⟨_, token, _, hv⟩ := h.2.1.mp e
    obtain ⟨alg, key, claims, htok, hk, hnone⟩ :=
      ValidateToken_eq_none tm nowParse nowCheck _ hv
    exact absurd hnone (hexp token alg key claims htok hk)

/-- A header carrying an access token in its lifetime: `OptionalAuth` and
`AuthRequired` end in the same context. -/
theorem OptionalAuth_where_it_returns_instance :
    OptionalAuth (mainTokenManager "k") exampleTokenOf Minute Minute "Bearer good" Context.new =
      AuthRequired (mainTokenManager "k") exampleTokenOf Minute Minute "Bearer good"
        Context.new :=
  have h := (OptionalAuth_where_it_returns (mainTokenManager "k") exampleTokenOf Minute Minute
    "Bearer good" Context.new).2.2.2.1
    { UserID := exampleUserID, Phone := "+996700123456", Role := "customer", Type_ := "access",
      Registered :=
        { Issuer := "skypark-api", Subject := exampleUserID.String, Audience := [],
          ExpiresAt := some (15 * Minute), NotBefore := some 0, IssuedAt := some 0, ID := "" } }
    ⟨by decide, "good", by decide, by decide, by decide⟩
  h.1.trans h.2.1.symm

/-- C25, at a failing input: for the header `Bearer noexp`, whose token is
signed with the secret of the manager and has no `exp` claim, the parser
accepts the token, `ValidateToken` panics on `claims.ExpiresAt.Time`, and so
`OptionalAuth` returns no context: it does not reach `c.Next()` and the
request is not passed on. For the header `Bearer good`, and for a header
that is no bearer token, it runs the following handlers. -/
theorem OptionalAuth_panics_without_expiry :
    (∃ claims : TokenClaims,
      ParseWithClaims (noExpiryTokenOf "noexp") (mainTokenManager "k").secretKey Minute =
        .ok claims ∧ claims.Registered.ExpiresAt = none) ∧
    ValidateToken (mainTokenManager "k") Minute Minute (noExpiryTokenOf "noexp") = none ∧
    OptionalAuth (mainTokenManager "k") noExpiryTokenOf Minute Minute "Bearer noexp"
      Context.new = none ∧
    (OptionalAuth (mainTokenManager "k") exampleTokenOf Minute Minute "Bearer good"
      Context.new).map Context.next = some true ∧
    (OptionalAuth (mainTokenManager "k") noExpiryTokenOf Minute Minute "Basic noexp"
      Context.new).map Context.next = some true := by
  refine ⟨⟨_, rfl, rfl⟩, by decide, ?_, by decide, by decide⟩
  rfl

/-! ## The send handler -/

theorem SendSMSCode_of_bind_error (h : AuthHandlers) (env : SendEnv) (c : Context)
    (details : String) (hb : env.bound = .error details) :
    SendSMSCode h env c =
      some { h := h, rng := env.rng,
             c := c.JSON StatusBadRequest
               (JSON.obj [("success", JSON.bool false),
                 ("error", JSON.obj
                   [("code", JSON.str "INVALID_REQUEST"),
                     ("message", JSON.str "Invalid request format"),
                     ("details", JSON.str details)])]) } := by
  simp only [SendSMSCode, hb]

theorem SendSMSCode_of_invalid (h : AuthHandlers) (env : SendEnv) (c : Context) (phone : String)
    (hb : env.bound = .ok phone) (hv : ValidateKyrgyzstanPhone h.smsService phone = false) :
    SendSMSCode h env c =
      some { h := h, rng := env.rng,
             c := c.JSON StatusBadRequest (errorBody "SMS_SEND_FAILED" errInvalidPhone) } := by
  simp only [SendSMSCode, hb,
    SendVerificationCode_invalid h.smsService env.nowCheck env.nowExpiry env.nowCreated env.rng
      phone hv]

theorem SendSMSCode_of_reuse (h : AuthHandlers) (env : SendEnv) (c : Context) (phone : String)
    (r : SMSCode) (hb : env.bound = .ok phone)
    (hv : ValidateKyrgyzstanPhone h.smsService phone = true)
    (hr : h.smsService.codes phone = some r) (ht : env.nowCheck < r.ExpiresAt)
    (ha : r.Attempts < h.smsService.maxAttempts) :
    SendSMSCode h env c =
      some { h := h, rng := env.rng,
             c := c.JSON StatusOK
               (sendSMSCodeBody r.Phone r.ExpiresAt (h.smsService.maxAttempts - r.Attempts)) } := by
  simp only [SendSMSCode, hb,
    SendVerificationCode_reuse h.smsService env.nowCheck env.nowExpiry env.nowCreated env.rng
      phone r hv hr ht ha, GetRemainingAttempts, hr, sendSMSCodeBody]

theorem SendSMSCode_of_fresh (h : AuthHandlers) (env : SendEnv) (c : Context) (phone : String)
    (hb : env.bound = .ok phone)
    (hv : ValidateKyrgyzstanPhone h.smsService phone = true)
    (hf : ∀ r : SMSCode, h.smsService.codes phone = some r →
      ¬ (env.nowCheck < r.ExpiresAt ∧ r.Attempts < h.smsService.maxAttempts)) :
    SendSMSCode h env c =
      some { h := { h with
                    smsService :=
                      (SendVerificationCode h.smsService env.nowCheck env.nowExpiry
                        env.nowCreated env.rng phone).svc },
             rng := (GenerateCode h.smsService env.rng).2,
             c := c.JSON StatusOK
               (sendSMSCodeBody phone (env.nowExpiry + h.smsService.codeTTL)
                 (h.smsService.maxAttempts - 0)) } := by
  have e := SendVerificationCode_fresh h.smsService env.nowCheck env.nowExpiry env.nowCreated
    env.rng phone hv hf
  simp only [SendSMSCode, hb, e, GetRemainingAttempts, CodeMap.set, if_true, sendSMSCodeBody]

/-- C27: the context `SendSMSCode` ends in, status and body included, is
the same for any two random sources, that is for any two values of the
generated code; the handler always returns; the body of a served request
holds the phone, the expiry and the remaining attempts of the record
(reused or new) and nothing else of it. -/
theorem SendSMSCode_hides_code (h : AuthHandlers) (env : SendEnv) (c : Context) :
    (∀ rng2 : RandReader,
      (SendSMSCode h { env with rng := rng2 } c).map SendSMSResult.c =
        (SendSMSCode h env c).map SendSMSResult.c) ∧
    (∃ result : SendSMSResult, SendSMSCode h env c = some result) ∧
    (∀ (phone : String) (r : SMSCode), env.bound = .ok phone →
      ValidateKyrgyzstanPhone h.smsService phone = true →
      h.smsService.codes phone = some r → env.nowCheck.Before r.ExpiresAt = true →
      r.Attempts < h.smsService.maxAttempts →
      (SendSMSCode h env c).map SendSMSResult.c =
        some (c.JSON StatusOK
          (sendSMSCodeBody r.Phone r.ExpiresAt (h.smsService.maxAttempts - r.Attempts)))) ∧
    (∀ phone : String, env.bound = .ok phone →
      ValidateKyrgyzstanPhone h.smsService phone = true →
      (∀ r : SMSCode, h.smsService.codes phone = some r →
        ¬ (env.nowCheck.Before r.ExpiresAt = true ∧ r.Attempts < h.smsService.maxAttempts)) →
      (SendSMSCode h env c).map SendSMSResult.c =
        some (c.JSON StatusOK
          (sendSMSCodeBody phone (env.nowExpiry + h.smsService.codeTTL)
            (h.smsService.maxAttempts - 0)))) := by
  have key : ∀ env1 : SendEnv, env1.bound = env.bound → env1.nowCheck = env.nowCheck →
      env1.nowExpiry = env.nowExpiry →
      ∃ (result : SendSMSResult) (ctx : Context), SendSMSCode h env1 c = some result ∧
        result.c = ctx ∧
        ((∃ details, env.bound = .error details ∧
            ctx = c.JSON StatusBadRequest
              (JSON.obj [("success", JSON.bool false),
                ("error", JSON.obj
                  [("code", JSON.str "INVALID_REQUEST"),
                    ("message", JSON.str "Invalid request format"),
                    ("details", JSON.str details)])])) ∨
          (∃ phone, env.bound = .ok phone ∧
            ValidateKyrgyzstanPhone h.smsService phone = false ∧
            ctx = c.JSON StatusBadRequest (errorBody "SMS_SEND_FAILED" errInvalidPhone)) ∨
          (∃ phone r, env.bound = .ok phone ∧
            ValidateKyrgyzstanPhone h.smsService phone = true ∧
            h.smsService.codes phone = some r ∧ env.nowCheck < r.ExpiresAt ∧
            r.Attempts < h.smsService.maxAttempts ∧
            ctx = c.JSON StatusOK
              (sendSMSCodeBody r.Phone r.ExpiresAt (h.smsService.maxAttempts - r.Attempts))) ∨
          (∃ phone, env.bound = .ok phone ∧
            ValidateKyrgyzstanPhone h.smsService phone = true ∧
            (∀ r : SMSCode, h.smsService.codes phone = some r →
              ¬ (env.nowCheck < r.ExpiresAt ∧ r.Attempts < h.smsService.maxAttempts)) ∧
            ctx = c.JSON StatusOK
              (sendSMSCodeBody phone (env.nowExpiry + h.smsService.codeTTL)
                (h.smsService.maxAttempts - 0)))) := by
    intro env1 hb1 hc1 he1
    cases hb : env.bound with
    | error details =>
      rw [hb] at hb1
      exact ⟨_, _, SendSMSCode_of_bind_error h env1 c details hb1, rfl,
        Or.inl ⟨details, rfl, rfl⟩⟩
    | ok phone =>
      rw [hb] at hb1
      cases hv : ValidateKyrgyzstanPhone h.smsService phone with
      | false =>
        exact ⟨_, _, SendSMSCode_of_invalid h env1 c phone hb1 hv, rfl,
          Or.inr (Or.inl ⟨phone, rfl, hv, rfl⟩)⟩
      | true =>
        by_cases hr : ∃ r : SMSCode, h.smsService.codes phone = some r ∧
            env.nowCheck < r.ExpiresAt ∧ r.Attempts < h.smsService.maxAttempts
        · obtain ⟨r, h1, h2, h3⟩ := hr
          exact ⟨_, _, SendSMSCode_of_reuse h env1 c phone r hb1 hv h1 (by rw [hc1]; exact h2) h3,
            rfl, Or.inr (Or.inr (Or.inl ⟨phone, r, rfl, hv, h1, h2, h3, rfl⟩))⟩
        · have hf : ∀ r : SMSCode, h.smsService.codes phone = some r →
              ¬ (env.nowCheck < r.ExpiresAt ∧ r.Attempts < h.smsService.maxAttempts) :=
            fun r h1 h2 => hr ⟨r, h1, h2⟩
          refine ⟨_, _, SendSMSCode_of_fresh h env1 c phone hb1 hv (by rw [hc1]; exact hf), rfl,
            Or.inr (Or.inr (Or.inr ⟨phone, rfl, hv, hf, ?_⟩))⟩
          rw [he1]
  refine ⟨?_, ?_, ?_, ?_⟩
  · intro rng2
    obtain ⟨r1, ctx1, e1, hc1, hcase1⟩ := key { env with rng := rng2 } rfl rfl rfl
    obtain ⟨r2, ctx2, e2, hc2, hcase2⟩ := key env rfl rfl rfl
    rw [e1, e2]
    show some r1.c = some r2.c
    rw [hc1, hc2]
    -- both contexts are given by the same case of `key`
    rcases hcase1 with ⟨d1, hb1, rfl⟩ | ⟨p1, hb1, hv1, rfl⟩ | ⟨p1, q1, hb1, hv1, hq1, ht1, ha1, rfl⟩ |
      ⟨p1, hb1, hv1, hf1, rfl⟩ <;>
    rcases hcase2 with ⟨d2, hb2, rfl⟩ | ⟨p2, hb2, hv2, rfl⟩ | ⟨p2, q2, hb2, hv2, hq2, ht2, ha2, rfl⟩ |
      ⟨p2, hb2, hv2, hf2, rfl⟩ <;>
    rw [hb1] at hb2 <;>
    first
      | exact Except.noConfusion hb2
      | (have e : p1 = p2 := by injection hb2
         subst e
         first
           | rfl
           | (rw [hv1] at hv2; exact Bool.noConfusion hv2)
           | (rw [hq1] at hq2
              have e2 : q1 = q2 := Option.some.inj hq2
              subst e2
              rfl)
           | exact absurd ⟨ht1, ha1⟩ (hf2 q1 hq1)
           | exact absurd ⟨ht2, ha2⟩ (hf1 q2 hq2))
      | (have e : d1 = d2 := by injection hb2
         subst e
         rfl)
  · obtain ⟨r, _, e, _, _⟩ := key env rfl rfl rfl
    exact ⟨r, e⟩
  · intro phone r hb hv hr ht ha
    rw [SendSMSCode_of_reuse h env c phone r hb hv hr (by simpa [Time.Before] using ht) ha]
    rfl
  · intro phone hb hv hf
    have hf2 : ∀ r : SMSCode, h.smsService.codes phone = some r →
        ¬ (env.nowCheck < r.ExpiresAt ∧ r.Attempts < h.smsService.maxAttempts) := by
      intro r hr hcon
      exact hf r hr ⟨by simpa [Time.Before] using hcon.1, hcon.2⟩
    rw [SendSMSCode_of_fresh h env c phone hb hv hf2]
    rfl

/-- Instance of C27: the first send for a phone. -/
theorem SendSMSCode_hides_code_witness :
    (SendSMSCode (exampleHandlers NewSMSService []) exampleSendEnv Context.new).map
        SendSMSResult.c =
      some (Context.new.JSON StatusOK
        (sendSMSCodeBody "+996700123456" (0 + 5 * Minute) (3 - 0))) :=
  (SendSMSCode_hides_code (exampleHandlers NewSMSService []) exampleSendEnv Context.new).2.2.2
    "+996700123456" rfl (by decide)
    (by intro r hr; simp [exampleHandlers, NewSMSService, CodeMap.empty] at hr)

/-! ## Registration on first login -/

theorem loginAs_active (h : AuthHandlers) (env : LoginEnv) (c : Context) (user : User)
    (hs : user.Status = UserStatusActive) :
    loginAs h env c user =
      { h := { h with
               db := h.db.updateLastLogin user.ID env.nowLogin env.nowUpdate env.updateFails },
        c := c.JSON StatusOK
          (loginBody user
            (GenerateAccessToken h.tokenManager env.nowAccess user.ID user.PhoneNumber
              user.Role).token
            (GenerateRefreshToken h.tokenManager env.nowRefresh user.ID user.PhoneNumber
              user.Role).token) } := by
  simp [loginAs, hs, GenerateAccessToken, GenerateRefreshToken, generateToken, SignedString,
    loginBody]

theorem VerifyAndLogin_of_not_found (h : AuthHandlers) (env : LoginEnv) (c : Context)
    (req : LoginRequest) (hb : env.bound = .ok req)
    (hv : (VerifyCode h.smsService env.nowVerify req.Phone req.Code).ok = true ∧
      (VerifyCode h.smsService env.nowVerify req.Phone req.Code).err = none)
    (hu : h.db.firstByPhone req.Phone env.findFault = .error DbError.ErrRecordNotFound) :
    VerifyAndLogin h env c =
      match h.db.create (registrationUser req env.parseDate) env.newID env.nowCreate
          env.createFault with
      | .error _ =>
        { h := { h with
                 smsService := (VerifyCode h.smsService env.nowVerify req.Phone req.Code).svc },
          c := c.JSON StatusInternalServerError
            (errorBody "USER_CREATION_FAILED" "Failed to create user account") }
      | .ok (db1, created) =>
        loginAs
          { h with
            smsService := (VerifyCode h.smsService env.nowVerify req.Phone req.Code).svc,
            db := db1 }
          env c created := by
  simp only [VerifyAndLogin, hb, hv.1, hv.2, hu]
  simp only [Option.isSome_none, Bool.not_true, Bool.or_self, Bool.false_eq_true, if_false]
  rfl

theorem VerifyAndLogin_of_db_error (h : AuthHandlers) (env : LoginEnv) (c : Context)
    (req : LoginRequest) (msg : String) (hb : env.bound = .ok req)
    (hv : (VerifyCode h.smsService env.nowVerify req.Phone req.Code).ok = true ∧
      (VerifyCode h.smsService env.nowVerify req.Phone req.Code).err = none)
    (hu : h.db.firstByPhone req.Phone env.findFault = .error (DbError.other msg)) :
    VerifyAndLogin h env c =
      { h := { h with
               smsService := (VerifyCode h.smsService env.nowVerify req.Phone req.Code).svc },
        c := c.JSON StatusInternalServerError
          (errorBody "DATABASE_ERROR" "Database error occurred") } := by
  simp only [VerifyAndLogin, hb, hv.1, hv.2, hu]
  simp

theorem DB.create_ok (db db1 : DB) (user created : User) (newID : UUID) (now : Time)
    (fault : Option String) (h : db.create user newID now fault = .ok (db1, created)) :
    created = { user with ID := newID, CreatedAt := now, UpdatedAt := now } ∧
    db1 = { users := db.users ++ [created] } := by
  unfold DB.create at h
  split at h
  · exact Except.noConfusion h
  · split at h
    · exact Except.noConfusion h
    · split at h
      · exact Except.noConfusion h
      · split at h
        · exact Except.noConfusion h
        · injection h with h
          injection h with h1 h2
          subst h2
          exact ⟨rfl, h1.symm⟩

theorem registrationUser_fields (req : LoginRequest) (parseDate : String → Option Time)
    (newID : UUID) (now : Time) :
    ({ registrationUser req parseDate with
        ID := newID, CreatedAt := now, UpdatedAt := now } : User).PhoneNumber = req.Phone ∧
    ({ registrationUser req parseDate with
        ID := newID, CreatedAt := now, UpdatedAt := now } : User).FirstName = req.FirstName ∧
    ({ registrationUser req parseDate with
        ID := newID, CreatedAt := now, UpdatedAt := now } : User).LastName = req.LastName ∧
    ({ registrationUser req parseDate with
        ID := newID, CreatedAt := now, UpdatedAt := now } : User).Email =
      (if req.Email ≠ "" then some req.Email else none) ∧
    ({ registrationUser req parseDate with
        ID := newID, CreatedAt := now, UpdatedAt := now } : User).Role = "customer" ∧
    ({ registrationUser req parseDate with
        ID := newID, CreatedAt := now, UpdatedAt := now } : User).Status = "active" ∧
    ({ registrationUser req parseDate with
        ID := newID, CreatedAt := now, UpdatedAt := now } : User).IsPhoneVerified = true ∧
    ({ registrationUser req parseDate with
        ID := newID, CreatedAt := now, UpdatedAt := now } : User).LoyaltyTier = "beginner" ∧
    ({ registrationUser req parseDate with
        ID := newID, CreatedAt := now, UpdatedAt := now } : User).ID = newID := by
  unfold registrationUser
  by_cases hd : req.DateOfBirth = ""
  · simp [hd, UserRoleCustomer, UserStatusActive, LoyaltyTierBeginner]
  · cases hp : parseDate req.DateOfBirth <;>
      simp [hd, hp, UserRoleCustomer, UserStatusActive, LoyaltyTierBeginner]

theorem DB.create_taken (db : DB) (user : User) (newID : UUID) (now : Time)
    (fault : Option String)
    (h : (∃ u ∈ db.users, u.PhoneNumber = user.PhoneNumber) ∨
      (user.Email ≠ none ∧ ∃ u ∈ db.users, u.Email = user.Email)) :
    ∃ e : DbError, db.create user newID now fault = .error e := by
  unfold DB.create
  split
  · exact ⟨_, rfl⟩
  · split
    · exact ⟨_, rfl⟩
    · split
      · exact ⟨_, rfl⟩
      · split
        · exact ⟨_, rfl⟩
        · rename_i h1 h2
          exfalso
          rcases h with ⟨u, hu, hp⟩ | ⟨he, u, hu, hp⟩
          · apply ‹¬ (db.users.any (fun u => decide (u.PhoneNumber = user.PhoneNumber))) = true›
            exact List.any_eq_true.mpr ⟨u, hu, by simpa using hp⟩
          · apply h2
            have h3 : user.Email.isSome = true := by
              cases he2 : user.Email with
              | none => exact absurd he2 he
              | some _ => rfl
            rw [h3, Bool.true_and]
            exact List.any_eq_true.mpr ⟨u, hu, by simpa using hp⟩

/-- C26, as the claim states it, fails when the insert is refused: the code
verifies and the lookup by phone reports `ErrRecordNotFound`, because the
only row with the phone is deleted (`deleted_at` set), yet no user is
created and no token issued: the row still holds the `unique` phone number,
the insert fails, and the answer is 500 `USER_CREATION_FAILED`. -/
theorem VerifyAndLogin_registration_refused :
    ((VerifyCode (exampleService 0) 10 "+996700123456" "123456").ok = true ∧
      (VerifyCode (exampleService 0) 10 "+996700123456" "123456").err = none) ∧
    DB.firstByPhone { users := [{ exampleUser "active" with DeletedAt := some 5 }] }
        "+996700123456" none = .error DbError.ErrRecordNotFound ∧
    (VerifyAndLogin
        (exampleHandlers (exampleService 0) [{ exampleUser "active" with DeletedAt := some 5 }])
        (exampleEnv "123456" 10) Context.new).c =
      Context.new.JSON StatusInternalServerError
        (errorBody "USER_CREATION_FAILED" "Failed to create user account") ∧
    (VerifyAndLogin
        (exampleHandlers (exampleService 0) [{ exampleUser "active" with DeletedAt := some 5 }])
        (exampleEnv "123456" 10) Context.new).h.db =
      { users := [{ exampleUser "active" with DeletedAt := some 5 }] } := by
  have e := VerifyAndLogin_of_not_found
    (exampleHandlers (exampleService 0) [{ exampleUser "active" with DeletedAt := some 5 }])
    (exampleEnv "123456" 10) Context.new
    { Phone := "+996700123456", Code := "123456", FirstName := "", LastName := "", Email := "",
      DateOfBirth := "" }
    rfl (by decide) rfl
  refine ⟨by decide, rfl, ?_, ?_⟩
  · rw [e]; rfl
  · rw [e]; rfl

/-- C26, amended: when the request binds and `VerifyCode` accepts its code:
if the lookup by phone reports `ErrRecordNotFound`, the handler inserts a row
with the phone, first name and last name of the request, its email when that
is not empty, `Role` "customer", `Status` "active", `IsPhoneVerified` true
and `LoyaltyTier` "beginner"; when the insert goes through, the answer is
200 with an access and a refresh token made for the id, phone and role of
that row; when the insert fails, as it does when a row of the table, deleted
or not, holds the phone or the email, the answer is 500
`USER_CREATION_FAILED`, the table `users` is as before and the answer
carries no token; if the lookup fails with any other error, the answer is
500 `DATABASE_ERROR`, the table `users` is as before and the answer carries
no token. -/
theorem VerifyAndLogin_registers (h : AuthHandlers) (env : LoginEnv) (c : Context)
    (req : LoginRequest) (hb : env.bound = .ok req)
    (hv : (VerifyCode h.smsService env.nowVerify req.Phone req.Code).ok = true ∧
      (VerifyCode h.smsService env.nowVerify req.Phone req.Code).err = none) :
    (∀ (db1 : DB) (created : User),
      h.db.firstByPhone req.Phone env.findFault = .error DbError.ErrRecordNotFound →
      h.db.create (registrationUser req env.parseDate) env.newID env.nowCreate env.createFault =
        .ok (db1, created) →
      (created.PhoneNumber = req.Phone ∧ created.FirstName = req.FirstName ∧
        created.LastName = req.LastName ∧
        created.Email = (if req.Email ≠ "" then some req.Email else none) ∧
        created.Role = "customer" ∧ created.Status = "active" ∧
        created.IsPhoneVerified = true ∧ created.LoyaltyTier = "beginner" ∧
        created.ID = env.newID ∧ db1.users = h.db.users ++ [created]) ∧
      (VerifyAndLogin h env c).c =
        c.JSON StatusOK
          (loginBody created
            (GenerateAccessToken h.tokenManager env.nowAccess created.ID created.PhoneNumber
              created.Role).token
            (GenerateRefreshToken h.tokenManager env.nowRefresh created.ID created.PhoneNumber
              created.Role).token) ∧
      (VerifyAndLogin h env c).h.db =
        db1.updateLastLogin created.ID env.nowLogin env.nowUpdate env.updateFails) ∧
    (∀ e : DbError,
      h.db.firstByPhone req.Phone env.findFault = .error DbError.ErrRecordNotFound →
      h.db.create (registrationUser req env.parseDate) env.newID env.nowCreate env.createFault =
        .error e →
      (VerifyAndLogin h env c).c =
        c.JSON StatusInternalServerError
          (errorBody "USER_CREATION_FAILED" "Failed to create user account") ∧
      (VerifyAndLogin h env c).h.db = h.db) ∧
    ((∃ u ∈ h.db.users, u.PhoneNumber = req.Phone) ∨
        (req.Email ≠ "" ∧ ∃ u ∈ h.db.users, u.Email = some req.Email) →
      ∃ e : DbError,
        h.db.create (registrationUser req env.parseDate) env.newID env.nowCreate
          env.createFault = .error e) ∧
    (∀ msg : String,
      h.db.firstByPhone req.Phone env.findFault = .error (DbError.other msg) →
      (VerifyAndLogin h env c).c =
        c.JSON StatusInternalServerError
          (errorBody "DATABASE_ERROR" "Database error occurred") ∧
      (VerifyAndLogin h env c).h.db = h.db) := by
  have hreg := registrationUser_fields req env.parseDate env.newID env.nowCreate
  refine ⟨?_, ?_, ?_, ?_⟩
  · intro db1 created hu hcreate
    have hc := DB.create_ok h.db db1 _ created env.newID env.nowCreate env.createFault hcreate
    have hfields : created.PhoneNumber = req.Phone ∧ created.FirstName = req.FirstName ∧
        created.LastName = req.LastName ∧
        created.Email = (if req.Email ≠ "" then some req.Email else none) ∧
        created.Role = "customer" ∧ created.Status = "active" ∧
        created.IsPhoneVerified = true ∧ created.LoyaltyTier = "beginner" ∧
        created.ID = env.newID := by
      rw [hc.1]
      exact hreg
    have hstatus : created.Status = UserStatusActive := hfields.2.2.2.2.2.1
    have e := VerifyAndLogin_of_not_found h env c req hb hv hu
    rw [hcreate] at e
    simp only [] at e
    rw [loginAs_active _ env c created hstatus] at e
    refine ⟨⟨hfields.1, hfields.2.1, hfields.2.2.1, hfields.2.2.2.1, hfields.2.2.2.2.1,
      hfields.2.2.2.2.2.1, hfields.2.2.2.2.2.2.1, hfields.2.2.2.2.2.2.2.1,
      hfields.2.2.2.2.2.2.2.2, ?_⟩, ?_, ?_⟩
    · rw [hc.2]
    · rw [e]
    · rw [e]
  · intro err hu hcreate
    have e := VerifyAndLogin_of_not_found h env c req hb hv hu
    rw [hcreate] at e
    simp only [] at e
    exact ⟨by rw [e], by rw [e]⟩
  · intro htaken
    apply DB.create_taken
    have hphone : (registrationUser req env.parseDate).PhoneNumber = req.Phone := hreg.1
    have hemail : (registrationUser req env.parseDate).Email =
        (if req.Email ≠ "" then some req.Email else none) := hreg.2.2.2.1
    rcases htaken with ⟨u, hu, hp⟩ | ⟨he, u, hu, hp⟩
    · exact Or.inl ⟨u, hu, by rw [hphone]; exact hp⟩
    · rw [if_pos he] at hemail
      exact Or.inr ⟨by rw [hemail]; exact Option.noConfusion, u, hu, by rw [hemail]; exact hp⟩
  · intro msg hu
    have e := VerifyAndLogin_of_db_error h env c req msg hb hv hu
    exact ⟨by rw [e], by rw [e]⟩

/-- Instance of C26 as amended: the first login of a phone with an empty
table. -/
theorem VerifyAndLogin_registers_witness :
    (VerifyAndLogin (exampleHandlers (exampleService 0) []) (exampleEnv "123456" 10)
        Context.new).c.status = some 200 ∧
    (VerifyAndLogin (exampleHandlers (exampleService 0) []) (exampleEnv "123456" 10)
        Context.new).h.db =
      { users := [{ exampleUser "active" with
                    ID := ⟨1, by decide⟩, CreatedAt := 10, UpdatedAt := 10,
                    FirstName := "", LastName := "", LastLoginAt := some 10 }] } :=
  have h := (VerifyAndLogin_registers (exampleHandlers (exampleService 0) [])
    (exampleEnv "123456" 10) Context.new
    { Phone := "+996700123456", Code := "123456", FirstName := "", LastName := "", Email := "",
      DateOfBirth := "" }
    rfl (by decide)).1
    { users := [{ exampleUser "active" with
                  ID := ⟨1, by decide⟩, CreatedAt := 10, UpdatedAt := 10,
                  FirstName := "", LastName := "" }] }
    { exampleUser "active" with
      ID := ⟨1, by decide⟩, CreatedAt := 10, UpdatedAt := 10, FirstName := "", LastName := "" }
    rfl rfl
  ⟨by rw [h.2.1]; rfl, by rw [h.2.2]; decide⟩

/-! ## The user id read by the handlers of `/tickets` and `/payments` -/

theorem UUID.String_length (u : UUID) : u.String.length = 36 := by
  simp [UUID.String, UUID.hex, String.length]

theorem UUID.String_ne_empty (u : UUID) : u.String ≠ "" := by
  intro h
  have := UUID.String_length u
  rw [h] at this
  exact absurd this (by decide)

theorem protectedUserID_proceed (c : Context) (claims : TokenClaims) :
    protectedUserID (c.proceed claims) = "" := by
  have h := (Context.Get_proceed c claims).1
  simp [protectedUserID, Context.GetString, h]

/-- C29, at a failing input: a request with a valid access token of the
user `123e4567-e89b-12d3-a456-426614174000` passes `AuthRequired`, which
stores the `uuid.UUID` under `user_id`; `c.GetString("user_id")` in the
handlers of `/tickets` and `/payments` then yields the empty string and not
the text of the user id. The same holds for every context `AuthRequired`
lets through. -/
theorem protectedUserID_is_empty :
    (∃ c1 : Context,
      AuthRequired (mainTokenManager "k") exampleTokenOf Minute Minute "Bearer good"
        Context.new = some c1 ∧
      c1.Get "user_id" = some (CtxValue.uuid exampleUserID) ∧
      protectedUserID c1 = "" ∧
      exampleUserID.String = "123e4567-e89b-12d3-a456-426614174000") ∧
    (∀ (c : Context) (claims : TokenClaims),
      protectedUserID (c.proceed claims) = "" ∧ claims.UserID.String ≠ "") := by
  constructor
  · have e := AuthRequired_bearer (mainTokenManager "k") exampleTokenOf Minute Minute
      "Bearer good" "good" Context.new (by decide) (by decide)
    have hv : ValidateToken (mainTokenManager "k") Minute Minute (exampleTokenOf "good") =
        some { claims := some
                { UserID := exampleUserID, Phone := "+996700123456", Role := "customer",
                  Type_ := "access",
                  Registered :=
                    { Issuer := "skypark-api", Subject := exampleUserID.String, Audience := [],
                      ExpiresAt := some (15 * Minute), NotBefore := some 0,
                      IssuedAt := some 0, ID := "" } },
               err := none } := by decide
    rw [hv] at e
    refine ⟨_, e, ?_, ?_, by decide⟩
    · exact (Context.Get_proceed _ _).1
    · exact protectedUserID_proceed _ _
  · intro c claims
    exact ⟨protectedUserID_proceed c claims, UUID.String_ne_empty _⟩

/-! ## Overlapping calls -/

theorem SharedStore.toService_delete (sh : SharedStore) (phone : String) :
    (sh.delete phone).toService =
      { sh.toService with codes := sh.toService.codes.delete phone } := by
  have e : (sh.delete phone).toService.codes = sh.toService.codes.delete phone := by
    funext q
    by_cases hq : q = phone <;> simp [SharedStore.toService, SharedStore.delete, CodeMap.delete, hq]
  show ({ sh.toService with codes := (sh.delete phone).toService.codes } : SMSService) = _
  rw [e]

theorem SharedStore.toService_increment (sh : SharedStore) (phone : String) (a : Nat)
    (hna : sh.noAlias) (ha : sh.codes phone = some a) :
    (sh.increment a).toService =
      { sh.toService with
        codes := sh.toService.codes.set phone
          { sh.heap a with Attempts := (sh.heap a).Attempts + 1 } } := by
  have e : (sh.increment a).toService.codes =
      sh.toService.codes.set phone { sh.heap a with Attempts := (sh.heap a).Attempts + 1 } := by
    funext q
    by_cases hq : q = phone
    · subst hq
      simp [SharedStore.toService, SharedStore.increment, CodeMap.set, ha]
    · cases hc : sh.codes q with
      | none => simp [SharedStore.toService, SharedStore.increment, CodeMap.set, hq, hc]
      | some b =>
        have hb : b ≠ a := by
          intro hba
          rw [hba] at hc
          exact hq (hna q phone a hc ha)
        simp [SharedStore.toService, SharedStore.increment, CodeMap.set, hq, hc, hb]
  show ({ sh.toService with codes := (sh.increment a).toService.codes } : SMSService) = _
  rw [e]

theorem SharedStore.noAlias_delete (sh : SharedStore) (phone : String) (hna : sh.noAlias) :
    (sh.delete phone).noAlias := by
  intro p q a hp hq
  by_cases h1 : p = phone
  · simp [SharedStore.delete, h1] at hp
  · by_cases h2 : q = phone
    · simp [SharedStore.delete, h2] at hq
    · have hp2 : sh.codes p = some a := by simpa [SharedStore.delete, h1] using hp
      have hq2 : sh.codes q = some a := by simpa [SharedStore.delete, h2] using hq
      exact hna p q a hp2 hq2

theorem SharedStore.noAlias_increment (sh : SharedStore) (a : Nat) (hna : sh.noAlias) :
    (sh.increment a).noAlias := hna

theorem VerifyCall.runAlone_eq (sh : SharedStore) (now : Time) (phone inputCode : String)
    (hna : sh.noAlias) :
    (VerifyCall.runAlone sh (VerifyCall.start now phone inputCode)).2 =
      { now := now, phone := phone, inputCode := inputCode,
        pc := VerifyPC.returned (VerifyCode sh.toService now phone inputCode).ok
          (VerifyCode sh.toService now phone inputCode).err } ∧
    (VerifyCall.runAlone sh (VerifyCall.start now phone inputCode)).1.toService =
      (VerifyCode sh.toService now phone inputCode).svc ∧
    (VerifyCall.runAlone sh (VerifyCall.start now phone inputCode)).1.noAlias := by
  cases hc : sh.codes phone with
  | none =>
    have hs : sh.toService.codes phone = none := by simp [SharedStore.toService, hc]
    rw [VerifyCode_none sh.toService now phone inputCode hs]
    simp [VerifyCall.runAlone, verifySteps, VerifyCall.start, VerifyCall.step, hc, hna]
  | some a =>
    have hs : sh.toService.codes phone = some (sh.heap a) := by
      simp [SharedStore.toService, hc]
    by_cases hexp : (sh.heap a).ExpiresAt < now
    · rw [VerifyCode_expired sh.toService now phone inputCode (sh.heap a) hs hexp]
      have hA : now.After (sh.heap a).ExpiresAt = true := by simp [Time.After, hexp]
      simp [VerifyCall.runAlone, verifySteps, VerifyCall.start, VerifyCall.step, hc, hA,
        SharedStore.toService_delete, SharedStore.noAlias_delete _ _ hna]
    · have hA : now.After (sh.heap a).ExpiresAt = false := by simp [Time.After, hexp]
      have hinc : ((sh.increment a).heap a).Attempts = (sh.heap a).Attempts + 1 := by
        simp [SharedStore.increment]
      have hcode : ((sh.increment a).heap a).Code = (sh.heap a).Code := by
        simp [SharedStore.increment]
      have hmax : (sh.increment a).maxAttempts = sh.maxAttempts := rfl
      have hdel : ((sh.increment a).delete phone).toService =
          { sh.toService with codes := sh.toService.codes.delete phone } := by
        rw [SharedStore.toService_delete, SharedStore.toService_increment sh phone a hna hc]
        show ({ sh.toService with codes := CodeMap.delete (CodeMap.set _ _ _) _ } : SMSService) = _
        rw [CodeMap.delete_set]
      by_cases hlim : sh.maxAttempts < (sh.heap a).Attempts + 1
      swap
      · by_cases hcmp : (sh.heap a).Code = inputCode
        · rw [VerifyCode_within_match sh.toService now phone inputCode (sh.heap a) hs hexp hlim
            hcmp]
          simp [VerifyCall.runAlone, verifySteps, VerifyCall.start, VerifyCall.step, hc, hA,
            hinc, hcode, hmax, hlim, hcmp, hdel,
            SharedStore.noAlias_delete _ _ (SharedStore.noAlias_increment sh a hna)]
        · rw [VerifyCode_within_mismatch sh.toService now phone inputCode (sh.heap a) hs hexp
            hlim hcmp]
          simp [VerifyCall.runAlone, verifySteps, VerifyCall.start, VerifyCall.step, hc, hA,
            hinc, hcode, hmax, hlim, hcmp, SharedStore.toService_increment sh phone a hna hc,
            SharedStore.noAlias_increment sh a hna]
      · rw [VerifyCode_over_limit sh.toService now phone inputCode (sh.heap a) hs hexp hlim]
        simp [VerifyCall.runAlone, verifySteps, VerifyCall.start, VerifyCall.step, hc, hA,
          hinc, hmax, hlim, hdel,
          SharedStore.noAlias_delete _ _ (SharedStore.noAlias_increment sh a hna)]

theorem TwoCalls.run_append (t : TwoCalls) (s1 s2 : List Bool) :
    t.run (s1 ++ s2) = (t.run s1).run s2 := by
  simp [TwoCalls.run, List.foldl_append]

theorem TwoCalls.run_first (n : Nat) (t : TwoCalls) :
    t.run (List.replicate n true) =
      { t with
        sh := ((fun x : SharedStore × VerifyCall => x.2.step x.1)^[n] (t.sh, t.a)).1,
        a := ((fun x : SharedStore × VerifyCall => x.2.step x.1)^[n] (t.sh, t.a)).2 } := by
  induction n generalizing t with
  | zero => rfl
  | succ n ih =>
    rw [List.replicate_succ]
    show (t.step true).run (List.replicate n true) = _
    rw [ih (t.step true)]
    simp [TwoCalls.step, Function.iterate_succ]

theorem TwoCalls.run_second (n : Nat) (t : TwoCalls) :
    t.run (List.replicate n false) =
      { t with
        sh := ((fun x : SharedStore × VerifyCall => x.2.step x.1)^[n] (t.sh, t.b)).1,
        b := ((fun x : SharedStore × VerifyCall => x.2.step x.1)^[n] (t.sh, t.b)).2 } := by
  induction n generalizing t with
  | zero => rfl
  | succ n ih =>
    rw [List.replicate_succ]
    show (t.step false).run (List.replicate n false) = _
    rw [ih (t.step false)]
    simp [TwoCalls.step, Function.iterate_succ]

theorem TwoCalls.run_serial (t : TwoCalls) :
    t.run serialSchedule =
      { sh := (VerifyCall.runAlone (VerifyCall.runAlone t.sh t.a).1 t.b).1,
        a := (VerifyCall.runAlone t.sh t.a).2,
        b := (VerifyCall.runAlone (VerifyCall.runAlone t.sh t.a).1 t.b).2 } := by
  unfold serialSchedule
  rw [TwoCalls.run_append, TwoCalls.run_first, TwoCalls.run_second]
  rfl

theorem VerifyCode_not_twice (s : SMSService) (nowA nowB : Time) (phone codeA codeB : String)
    (h : (VerifyCode s nowA phone codeA).ok = true) :
    (VerifyCode (VerifyCode s nowA phone codeA).svc nowB phone codeB).ok = false := by
  have hnone : (VerifyCode s nowA phone codeA).svc.codes phone = none := by
    cases hc : s.codes phone with
    | none => simp [VerifyCode_none s nowA phone codeA hc] at h
    | some r =>
      by_cases hexp : r.ExpiresAt < nowA
      · simp [VerifyCode_expired s nowA phone codeA r hc hexp] at h
      · by_cases hlim : s.maxAttempts < r.Attempts + 1
        · simp [VerifyCode_over_limit s nowA phone codeA r hc hexp hlim] at h
        · by_cases hcmp : r.Code = codeA
          · rw [VerifyCode_within_match s nowA phone codeA r hc hexp hlim hcmp]
            exact CodeMap.delete_self _ _
          · simp [VerifyCode_within_mismatch s nowA phone codeA r hc hexp hlim hcmp] at h
  rw [VerifyCode_none _ nowB phone codeB hnone]

/-- C28, refuted as stated: two calls of `VerifyCode` with the right code
for the same record, whose statements alternate so that both read the map
before either deletes the record, both return `(true, nil)`; each saw the
counter within the limit (it ends at 2, the limit being 3). Run one after
the other, the same two calls do not both pass. -/
theorem VerifyCode_overlap_both_pass :
    (exampleTwoCalls.run overlapSchedule).a.pc = VerifyPC.returned true none ∧
    (exampleTwoCalls.run overlapSchedule).b.pc = VerifyPC.returned true none ∧
    ((exampleTwoCalls.run overlapSchedule).sh.heap 0).Attempts = 2 ∧
    (exampleTwoCalls.run overlapSchedule).sh.maxAttempts = 3 ∧
    (exampleTwoCalls.run serialSchedule).a.pc = VerifyPC.returned true none ∧
    (exampleTwoCalls.run serialSchedule).b.pc =
      VerifyPC.returned false (some errNoCodeFound) := by
  decide

/-- C28 as amended: the operations take no lock, and a call of `VerifyCode`
is atomic only when no statement of another call falls between its own. A
call run by itself returns what `VerifyCode` returns and leaves the store
`VerifyCode` leaves; for two calls on the same phone run one after the
other, the second acts on the store the first has left, and the two do not
both pass. -/
theorem VerifyCode_serial_atomic (sh : SharedStore) (nowA nowB : Time)
    (phone codeA codeB : String) (hna : sh.noAlias) :
    ((VerifyCall.runAlone sh (VerifyCall.start nowA phone codeA)).2.pc =
        VerifyPC.returned (VerifyCode sh.toService nowA phone codeA).ok
          (VerifyCode sh.toService nowA phone codeA).err ∧
      (VerifyCall.runAlone sh (VerifyCall.start nowA phone codeA)).1.toService =
        (VerifyCode sh.toService nowA phone codeA).svc) ∧
    ((TwoCalls.run
          { sh := sh, a := VerifyCall.start nowA phone codeA,
            b := VerifyCall.start nowB phone codeB } serialSchedule).a.pc =
        VerifyPC.returned (VerifyCode sh.toService nowA phone codeA).ok
          (VerifyCode sh.toService nowA phone codeA).err ∧
      (TwoCalls.run
          { sh := sh, a := VerifyCall.start nowA phone codeA,
            b := VerifyCall.start nowB phone codeB } serialSchedule).b.pc =
        VerifyPC.returned
          (VerifyCode (VerifyCode sh.toService nowA phone codeA).svc nowB phone codeB).ok
          (VerifyCode (VerifyCode sh.toService nowA phone codeA).svc nowB phone codeB).err ∧
      (TwoCalls.run
          { sh := sh, a := VerifyCall.start nowA phone codeA,
            b := VerifyCall.start nowB phone codeB } serialSchedule).sh.toService =
        (VerifyCode (VerifyCode sh.toService nowA phone codeA).svc nowB phone codeB).svc) ∧
    ¬ ((TwoCalls.run
          { sh := sh, a := VerifyCall.start nowA phone codeA,
            b := VerifyCall.start nowB phone codeB } serialSchedule).a.pc =
        VerifyPC.returned true none ∧
      (TwoCalls.run
          { sh := sh, a := VerifyCall.start nowA phone codeA,
            b := VerifyCall.start nowB phone codeB } serialSchedule).b.pc =
        VerifyPC.returned true none) := by
  have hA := VerifyCall.runAlone_eq sh nowA phone codeA hna
  have hB := VerifyCall.runAlone_eq (VerifyCall.runAlone sh (VerifyCall.start nowA phone codeA)).1
    nowB phone codeB hA.2.2
  rw [hA.2.1] at hB
  have hser := TwoCalls.run_serial
    { sh := sh, a := VerifyCall.start nowA phone codeA, b := VerifyCall.start nowB phone codeB }
  have hapc : (TwoCalls.run
          { sh := sh, a := VerifyCall.start nowA phone codeA,
            b := VerifyCall.start nowB phone codeB } serialSchedule).a.pc =
        VerifyPC.returned (VerifyCode sh.toService nowA phone codeA).ok
          (VerifyCode sh.toService nowA phone codeA).err := by
    rw [hser]
    show (VerifyCall.runAlone sh (VerifyCall.start nowA phone codeA)).2.pc = _
    rw [hA.1]
  have hbpc : (TwoCalls.run
          { sh := sh, a := VerifyCall.start nowA phone codeA,
            b := VerifyCall.start nowB phone codeB } serialSchedule).b.pc =
        VerifyPC.returned
          (VerifyCode (VerifyCode sh.toService nowA phone codeA).svc nowB phone codeB).ok
          (VerifyCode (VerifyCode sh.toService nowA phone codeA).svc nowB phone codeB).err := by
    rw [hser]
    show (VerifyCall.runAlone (VerifyCall.runAlone sh (VerifyCall.start nowA phone codeA)).1
      (VerifyCall.start nowB phone codeB)).2.pc = _
    rw [hB.1]
  refine ⟨⟨by rw [hA.1], hA.2.1⟩, ⟨hapc, hbpc, ?_⟩, ?_⟩
  · rw [hser]
    exact hB.2.1
  · rintro ⟨h1, h2⟩
    rw [hapc] at h1
    rw [hbpc] at h2
    have ha : (VerifyCode sh.toService nowA phone codeA).ok = true := by
      injection h1
    have hb : (VerifyCode (VerifyCode sh.toService nowA phone codeA).svc nowB phone codeB).ok =
        true := by
      injection h2
    rw [VerifyCode_not_twice sh.toService nowA nowB phone codeA codeB ha] at hb
    exact Bool.noConfusion hb

/-- Instance of C28 as amended: the two calls of the example, one after the
other. -/
theorem VerifyCode_serial_atomic_witness :
    ¬ ((exampleTwoCalls.run serialSchedule).a.pc = VerifyPC.returned true none ∧
      (exampleTwoCalls.run serialSchedule).b.pc = VerifyPC.returned true none) :=
  (VerifyCode_serial_atomic (exampleShared 0) 10 10 "+996700123456" "123456" "123456"
    (by
      intro p q a hp hq
      have e1 : p = "+996700123456" := by
        by_cases h : p = "+996700123456"
        · exact h
        · simp [exampleShared, h] at hp
      have e2 : q = "+996700123456" := by
        by_cases h : q = "+996700123456"
        · exact h
        · simp [exampleShared, h] at hq
      rw [e1, e2])).2.2

end SkyPark
